import Mathlib

/-!
Game of Life with incrementally maintained neighbour counts.

A shallow embedding of `main.go`: the toroidal indexer `wrapIndex`, the seed scan
`makeLiveNeighboursGrid`, the `DiffGrid` methods and the generation stepper
`iterateGrids`, followed by the properties proved about them.

Conventions of the embedding.

* Go `uint` and `int` are taken to be 64 bits wide.  A `uint` value is a `Nat`, an `int`
  value an `Int`; every arithmetic result and every conversion is reduced explicitly
  (`toUint`, `toInt`).  `uint8` and `int8` values are handled the same way
  (`toUint8`, `toInt8`).
* A slice is a `List`.  Indexing outside the slice panics in Go; the embedding returns
  `none` there, so every function that indexes a slice returns an `Option`.
  The length of a slice is an `int`, so a grid of `width*height` cells has fewer than
  `2^63` cells; statements about such grids carry that bound as a hypothesis.
* The two boolean buffers handed to `iterateGrids` are distinct slices, as in `main`.
-/

namespace GameOfLife

/-! ## Machine integers -/

/-- Reduction of an integer to the Go type `uint`: the representative modulo `2^64`
in `[0, 2^64)`. -/
def toUint (z : Int) : Nat := (z % 18446744073709551616).toNat

/-- Reduction of an integer to the Go type `int`: the representative modulo `2^64`
in `[-2^63, 2^63)`. -/
def toInt (z : Int) : Int :=
  (z + 9223372036854775808) % 18446744073709551616 - 9223372036854775808

/-- Reduction of an integer to the Go type `uint8`. -/
def toUint8 (z : Int) : Nat := (z % 256).toNat

/-- Reduction of an integer to the Go type `int8`. -/
def toInt8 (z : Int) : Int := (z + 128) % 256 - 128

/-! ## Slices -/

/-- Allocation `make([]T, n)` for a `uint` length `n`, every entry the zero value `v`:
Go panics when the length does not fit an `int`. -/
def makeSlice {α : Type} (n : Nat) (v : α) : Option (List α) :=
  if n < 9223372036854775808 then some (List.replicate n v) else none

/-- Assignment `s[i] = v`: panics when `i` is out of range. -/
def writeAt {α : Type} (s : List α) (i : Nat) (v : α) : Option (List α) :=
  if i < s.length then some (s.set i v) else none

/-- Source `makeGrid`: a zero-initialised boolean slice of `width*height` cells. -/
def makeGrid (width height : Nat) : Option (List Bool) :=
  makeSlice (toUint ((width : Int) * height)) false

/-! ## Toroidal indexer -/

/-- Source `wrapIndex(n int, max uint) uint`. -/
def wrapIndex (n : Int) (max : Nat) : Nat :=
  if n < 0 then
    toUint ((max : Int) - 1)
  else if n > toInt (toUint ((max : Int) - 1)) then
    0
  else
    toUint n

/-- The array `offsets` of both `makeLiveNeighboursGrid` and `iterateGrids`; the first
component of a pair is `direction[0]` (the x offset), the second `direction[1]`. -/
def offsets : List (Int × Int) :=
  [(-1, -1), (0, -1), (1, -1), (-1, 0), (1, 0), (-1, 1), (0, 1), (1, 1)]

/-- The `uint` expression `y*width + x`. -/
def cellIndex (width y x : Nat) : Nat :=
  toUint ((toUint ((y : Int) * width) : Int) + x)

/-- The index expression
`wrapIndex(int(y)+direction[1], height)*width + wrapIndex(int(x)+direction[0], width)`
that both `makeLiveNeighboursGrid` and `iterateGrids` evaluate. -/
def neighbourIndex (width height y x : Nat) (direction : Int × Int) : Nat :=
  cellIndex width (wrapIndex (toInt (toInt y + direction.2)) height)
    (wrapIndex (toInt (toInt x + direction.1)) width)

/-! ## Seeding the neighbour counts -/

/-- The innermost loop of `makeLiveNeighboursGrid`: the `uint8` counter
`liveNeighbours` after the eight offsets. -/
def countLiveNeighbours (sourceGrid : List Bool) (width height y x : Nat) : Option Nat :=
  offsets.foldlM (fun liveNeighbours direction => do
    let alive ← sourceGrid[neighbourIndex width height y x direction]?
    pure (if alive then toUint8 ((liveNeighbours : Int) + 1) else liveNeighbours)) 0

/-- The body of the `x` loop of `makeLiveNeighboursGrid`. -/
def seedCell (sourceGrid : List Bool) (width height y : Nat)
    (liveNeighboursGrid : List Nat) (x : Nat) : Option (List Nat) := do
  let liveNeighbours ← countLiveNeighbours sourceGrid width height y x
  writeAt liveNeighboursGrid (cellIndex width y x) liveNeighbours

/-- Source `makeLiveNeighboursGrid`. -/
def makeLiveNeighboursGrid (sourceGrid : List Bool) (width height : Nat) :
    Option (List Nat) := do
  let liveNeighboursGrid ← makeSlice (toUint ((width : Int) * height)) 0
  (List.range height).foldlM (fun lng y =>
    (List.range width).foldlM (seedCell sourceGrid width height y) lng) liveNeighboursGrid

/-! ## The DiffGrid -/

/-- Source `DiffGrid`: the committed counts (`[]uint8`) and the pending deltas
(`[]int8`). -/
structure DiffGrid where
  grid : List Nat
  diff : List Int

/-- Source `DiffGrid.getOld`. -/
def DiffGrid.getOld (grid : DiffGrid) (index : Nat) : Option Nat :=
  grid.grid[index]?

/-- Source `DiffGrid.get`: `grid[index] + uint8(diff[index])` in `uint8`. -/
def DiffGrid.get (grid : DiffGrid) (index : Nat) : Option Nat := do
  let g ← grid.grid[index]?
  let d ← grid.diff[index]?
  pure (toUint8 ((g : Int) + toUint8 d))

/-- Source `DiffGrid.change`. -/
def DiffGrid.change (grid : DiffGrid) (index : Nat) (upOrDown : Bool) : Option DiffGrid := do
  let d ← grid.diff[index]?
  if upOrDown then
    pure { grid with diff := grid.diff.set index (toInt8 (d + 1)) }
  else
    pure { grid with diff := grid.diff.set index (toInt8 (d - 1)) }

/-- The body of the loop of `DiffGrid.merge`. -/
def DiffGrid.mergeAt (grid : DiffGrid) (i : Nat) : Option DiffGrid := do
  let g ← grid.grid[i]?
  let d ← grid.diff[i]?
  pure { grid := grid.grid.set i (toUint8 ((g : Int) + toUint8 d)), diff := grid.diff.set i 0 }

/-- Source `DiffGrid.merge`. -/
def DiffGrid.merge (grid : DiffGrid) : Option DiffGrid :=
  (List.range grid.grid.length).foldlM DiffGrid.mergeAt grid

/-! ## The generation stepper -/

/-- The Life rule as `iterateGrids` writes it:
`liveNeighbours == 3 || (oldValue == true && liveNeighbours == 2)`. -/
def lifeRule (oldValue : Bool) (liveNeighbours : Nat) : Bool :=
  liveNeighbours == 3 || (oldValue == true && liveNeighbours == 2)

/-- The innermost loop of `iterateGrids`: one `change` per offset. -/
def changeNeighbours (width height y x : Nat) (newValue : Bool) (grid : DiffGrid) :
    Option DiffGrid :=
  offsets.foldlM (fun dg direction =>
    dg.change (neighbourIndex width height y x direction) newValue) grid

/-- The body of the `x` loop of `iterateGrids`, on the pair of the buffer being written
and the DiffGrid. -/
def iterateCell (oldGrid : List Bool) (width height y : Nat)
    (st : List Bool × DiffGrid) (x : Nat) : Option (List Bool × DiffGrid) := do
  let liveNeighbours ← st.2.getOld (cellIndex width y x)
  let oldValue ← oldGrid[cellIndex width y x]?
  let newValue := lifeRule oldValue liveNeighbours
  let newGrid ← writeAt st.1 (cellIndex width y x) newValue
  if newValue != oldValue then
    let dg ← changeNeighbours width height y x newValue st.2
    pure (newGrid, dg)
  else
    pure (newGrid, st.2)

/-- The first `n` iterations of the `x` loop of `iterateGrids` in row `y`. -/
def iterateRow (oldGrid : List Bool) (width height y n : Nat)
    (st : List Bool × DiffGrid) : Option (List Bool × DiffGrid) :=
  (List.range n).foldlM (iterateCell oldGrid width height y) st

/-- The first `m` iterations of the `y` loop of `iterateGrids`. -/
def iterateRows (oldGrid : List Bool) (width height m : Nat)
    (st : List Bool × DiffGrid) : Option (List Bool × DiffGrid) :=
  (List.range m).foldlM (fun st y => iterateRow oldGrid width height y width st) st

/-- The state of the loops of `iterateGrids` when rows `0..y-1` and the first `x` cells
of row `y` have been processed (before `merge`). -/
def iterateUpTo (oldGrid newGrid : List Bool) (liveNeighboursGrid : DiffGrid)
    (width height y x : Nat) : Option (List Bool × DiffGrid) := do
  let st ← iterateRows oldGrid width height y (newGrid, liveNeighboursGrid)
  iterateRow oldGrid width height y x st

/-- Source `iterateGrids`: returns the contents of `newGrid` and of the DiffGrid after
the call. -/
def iterateGrids (oldGrid newGrid : List Bool) (liveNeighboursGrid : DiffGrid)
    (width height : Nat) : Option (List Bool × DiffGrid) := do
  let st ← iterateRows oldGrid width height height (newGrid, liveNeighboursGrid)
  let dg ← st.2.merge
  pure (st.1, dg)

/-! ## The simulation loop of `main` -/

/-- The state of `main`: the buffer `mainGrid` points to, the buffer `oldGrid` points
to, and the DiffGrid. -/
structure Sim where
  mainGrid : List Bool
  oldGrid : List Bool
  liveNeighboursGrid : DiffGrid

/-- The set-up of `main` before its loop; `grid1` is the grid `makeRandomBoolGrid`
returned. -/
def mainInit (grid1 : List Bool) (width height : Nat) : Option Sim := do
  let grid2 ← makeGrid width height
  let counts ← makeLiveNeighboursGrid grid1 width height
  let pending ← makeSlice (toUint ((width : Int) * height)) (0 : Int)
  pure { mainGrid := grid1, oldGrid := grid2,
         liveNeighboursGrid := { grid := counts, diff := pending } }

/-- One iteration of the loop of `main` (display and sleep left out): the two buffers
swap roles, then `iterateGrids` fills the new main buffer. -/
def mainStep (width height : Nat) (s : Sim) : Option Sim := do
  let r ← iterateGrids s.mainGrid s.oldGrid s.liveNeighboursGrid width height
  pure { mainGrid := r.1, oldGrid := s.mainGrid, liveNeighboursGrid := r.2 }

/-- The state of `main` after `n` iterations of its loop. -/
def mainLoop (grid1 : List Bool) (width height : Nat) : Nat → Option Sim
  | 0 => mainInit grid1 width height
  | n + 1 => (mainLoop grid1 width height n).bind (mainStep width height)

/-! ## Reference notions used in the statements and proofs -/

/-- The mathematical wrap of coordinate `c` moved by `delta` on a ring of `d` positions:
`(c + delta) mod d`. -/
def torus (c : Nat) (delta : Int) (d : Nat) : Nat := (((c : Int) + delta) % (d : Int)).toNat

/-- The linear index of the toroidal neighbour of cell `j` in direction `o`. -/
def nbr (width height j : Nat) (o : Int × Int) : Nat :=
  torus (j / width) o.2 height * width + torus (j % width) o.1 width

/-- The toroidal live-neighbour count of the cell in row `y`, column `x` of grid `g`:
the number of the eight offsets `(dx, dy)` for which
`g[((y+dy) mod height)*width + ((x+dx) mod width)]` is true. -/
def liveCount (g : List Bool) (width height y x : Nat) : Nat :=
  offsets.countP (fun o => g[torus y o.2 height * width + torus x o.1 width]? == some true)

/-- The toroidal live-neighbour count of the cell with linear index `j`. -/
def liveCountAt (g : List Bool) (width height j : Nat) : Nat :=
  liveCount g width height (j / width) (j % width)

/-- A boolean as the integer 0 or 1. -/
def b2i (b : Bool) : Int := if b then 1 else 0

/-- The value the Life rule gives cell `j` from the old grid and the committed counts. -/
def ruleAt (old : List Bool) (G : List Nat) (j : Nat) : Bool :=
  lifeRule (old.getD j false) (G.getD j 0)

/-- The change of cell `j` as an integer: `+1` for a birth, `-1` for a death, `0` for a
cell that keeps its state. -/
def flipAt (old : List Bool) (G : List Nat) (j : Nat) : Int :=
  b2i (ruleAt old G j) - b2i (old.getD j false)

/-- The pending delta of cell `i` once the cells with linear index below `k` are
processed: the sum, over the eight neighbour slots of `i`, of the change of the cell in
that slot when it is already processed. -/
def pend (old : List Bool) (G : List Nat) (w h k i : Nat) : Int :=
  (offsets.map (fun o => if nbr w h i o < k then flipAt old G (nbr w h i o) else 0)).sum

/-- The state of the loops of `iterateGrids` once the cells with linear index below `k`
are processed: the buffers keep their lengths, the committed counts are untouched, the
processed cells of the new buffer hold the value the rule gives, and each pending delta is the
initial one plus `pend`. -/
def LoopInv (old : List Bool) (G : List Nat) (D0 : List Int) (w h k : Nat)
    (st : List Bool × DiffGrid) : Prop :=
  st.1.length = w * h ∧ st.2.grid = G ∧ st.2.diff.length = w * h ∧
  (∀ j : Nat, j < k → st.1[j]? = some (ruleAt old G j)) ∧
  (∀ (i : Nat) (X : Int), i < w * h → D0[i]? = some (toInt8 X) →
    st.2.diff[i]? = some (toInt8 (X + pend old G w h k i)))

/-- The grid in which the cells with linear index below `k` hold the value the rule gives
and the others their old value. -/
def mixAt (old : List Bool) (G : List Nat) (k m : Nat) : Bool :=
  if m < k then ruleAt old G m else old.getD m false

/-- Brute-force generation step: the toroidal 8-neighbour count of every cell is
recomputed from scratch (`liveCountAt`), then B3/S23 is applied: a live cell survives on 2 or 3
live neighbours, a dead cell is born on exactly 3, every other cell is dead. -/
def bruteStep (g : List Bool) (width height : Nat) : List Bool :=
  (List.range (width * height)).map (fun j =>
    if g.getD j false then
      decide (liveCountAt g width height j = 2 ∨ liveCountAt g width height j = 3)
    else
      decide (liveCountAt g width height j = 3))

/-- The grid after `n` brute-force generations. -/
def bruteRun (g : List Bool) (width height : Nat) : Nat → List Bool
  | 0 => g
  | n + 1 => bruteStep (bruteRun g width height n) width height

/-- The loops of `iterateGrids` with the cells visited in the order of the list `order`
of linear indices (cell `j` is row `j / width`, column `j % width`) in place of the
row-major order, followed by `merge`. -/
def iterateInOrder (oldGrid newGrid : List Bool) (liveNeighboursGrid : DiffGrid)
    (width height : Nat) (order : List Nat) : Option (List Bool × DiffGrid) := do
  let st ← order.foldlM
    (fun st j => iterateCell oldGrid width height (j / width) st (j % width))
    (newGrid, liveNeighboursGrid)
  let dg ← st.2.merge
  pure (st.1, dg)

/-- The closed form of one generation step on buffers of `w*h` cells: every cell holds
the value the rule gives from the committed counts, every committed count has absorbed,
modulo 256, its initial pending delta and the changes of its eight neighbour slots, and
every pending delta is zero. -/
def stepResult (old : List Bool) (dg : DiffGrid) (w h : Nat) : List Bool × DiffGrid :=
  ((List.range (w * h)).map (ruleAt old dg.grid),
   ⟨(List.range (w * h)).map (fun i =>
      toUint8 ((dg.grid.getD i 0 : Int) +
        toUint8 (dg.diff.getD i 0 + pend old dg.grid w h (w * h) i))),
    List.replicate (w * h) 0⟩)

/-- The state of the cell loop of `iterateGrids` when cell `t` has been processed `m t`
times, in any order: as `LoopInv`, with each pending delta known modulo 256. -/
def CountInv (old : List Bool) (G : List Nat) (D0 : List Int) (w h : Nat) (m : Nat → Nat)
    (st : List Bool × DiffGrid) : Prop :=
  st.1.length = w * h ∧ st.2.grid = G ∧ st.2.diff.length = w * h ∧
  (∀ t : Nat, 0 < m t → st.1[t]? = some (ruleAt old G t)) ∧
  (∀ (i : Nat) (d0 : Int), i < w * h → D0[i]? = some d0 →
    ∃ d : Int, st.2.diff[i]? = some d ∧
      toInt8 d = toInt8 (d0 +
        (offsets.map (fun o => (m (nbr w h i o) : Int) * flipAt old G (nbr w h i o))).sum))

/-! ## The stepper with the memory kept at a panic

A second embedding of `iterateGrids` and of the functions it calls, in which a panic
returns the contents of `newGrid` and of the DiffGrid at that moment (`Except.error`)
in place of `none`. -/

/-- Source `DiffGrid.change`; on a panic the DiffGrid is returned as it is. -/
def DiffGrid.changeE (grid : DiffGrid) (index : Nat) (upOrDown : Bool) :
    Except DiffGrid DiffGrid :=
  match grid.diff[index]? with
  | none => Except.error grid
  | some d =>
    if upOrDown then
      Except.ok { grid with diff := grid.diff.set index (toInt8 (d + 1)) }
    else
      Except.ok { grid with diff := grid.diff.set index (toInt8 (d - 1)) }

/-- The body of the loop of `DiffGrid.merge`; both reads precede the write. -/
def DiffGrid.mergeAtE (grid : DiffGrid) (i : Nat) : Except DiffGrid DiffGrid :=
  match grid.grid[i]? with
  | none => Except.error grid
  | some g =>
    match grid.diff[i]? with
    | none => Except.error grid
    | some d =>
      Except.ok { grid := grid.grid.set i (toUint8 ((g : Int) + toUint8 d)),
                  diff := grid.diff.set i 0 }

/-- Source `DiffGrid.merge` with the memory kept at a panic. -/
def DiffGrid.mergeE (grid : DiffGrid) : Except DiffGrid DiffGrid :=
  (List.range grid.grid.length).foldlM DiffGrid.mergeAtE grid

/-- The innermost loop of `iterateGrids` with the memory kept at a panic. -/
def changeNeighboursE (width height y x : Nat) (newValue : Bool) (grid : DiffGrid) :
    Except DiffGrid DiffGrid :=
  offsets.foldlM (fun dg direction =>
    dg.changeE (neighbourIndex width height y x direction) newValue) grid

/-- The body of the `x` loop of `iterateGrids` with the memory kept at a panic. -/
def iterateCellE (oldGrid : List Bool) (width height y : Nat)
    (st : List Bool × DiffGrid) (x : Nat) :
    Except (List Bool × DiffGrid) (List Bool × DiffGrid) :=
  match st.2.grid[cellIndex width y x]? with
  | none => Except.error st
  | some liveNeighbours =>
    match oldGrid[cellIndex width y x]? with
    | none => Except.error st
    | some oldValue =>
      if cellIndex width y x < st.1.length then
        if (lifeRule oldValue liveNeighbours != oldValue) = true then
          match changeNeighboursE width height y x (lifeRule oldValue liveNeighbours) st.2 with
          | Except.error dg =>
            Except.error (st.1.set (cellIndex width y x) (lifeRule oldValue liveNeighbours), dg)
          | Except.ok dg =>
            Except.ok (st.1.set (cellIndex width y x) (lifeRule oldValue liveNeighbours), dg)
        else
          Except.ok (st.1.set (cellIndex width y x) (lifeRule oldValue liveNeighbours), st.2)
      else
        Except.error st

/-- Source `iterateGrids` with the memory kept at a panic: `Except.ok` carries the
contents of `newGrid` and of the DiffGrid on return, `Except.error` their contents at
the panic. -/
def iterateGridsE (oldGrid newGrid : List Bool) (liveNeighboursGrid : DiffGrid)
    (width height : Nat) : Except (List Bool × DiffGrid) (List Bool × DiffGrid) :=
  match (List.range height).foldlM (fun st y =>
      (List.range width).foldlM (iterateCellE oldGrid width height y) st)
      (newGrid, liveNeighboursGrid) with
  | Except.error st => Except.error st
  | Except.ok st =>
    match st.2.mergeE with
    | Except.error dg => Except.error (st.1, dg)
    | Except.ok dg => Except.ok (st.1, dg)

/-- The linear index of the cell that lands on cell `j` when the grid is shifted
toroidally by `(a, b)`: the cell `((x - a) mod width, (y - b) mod height)` for
`j = y*width + x`. -/
def shiftIndex (width height : Nat) (a b : Int) (j : Nat) : Nat :=
  torus (j / width) (-b) height * width + torus (j % width) (-a) width

/-- The grid `g` shifted toroidally by `(a, b)`: the content of cell `(x, y)` moves to
cell `((x + a) mod width, (y + b) mod height)`. -/
def shiftGrid {α : Type} (dflt : α) (width height : Nat) (a b : Int) (g : List α) : List α :=
  (List.range (width * height)).map (fun j => g.getD (shiftIndex width height a b j) dflt)

/-! ## Patterns -/

/-- The grid of `width*height` cells whose only live cells are the listed `(x, y)`. -/
def cellsGrid (cells : List (Nat × Nat)) (width height : Nat) : List Bool :=
  (List.range (width * height)).map (fun j => cells.contains (j % width, j / width))

/-- The listed cells translated toroidally by `(a, b)`. -/
def shiftCells (width height : Nat) (a b : Int) (cells : List (Nat × Nat)) :
    List (Nat × Nat) :=
  cells.map (fun c => (torus c.1 a width, torus c.2 b height))

/-- The number of live neighbours of cell `(x, y)` on the unbounded plane whose only
live cells are the listed ones. -/
def planeCount (cells : List (Nat × Nat)) (x y : Nat) : Nat :=
  offsets.countP (fun o =>
    cells.any (fun c => decide ((c.1 : Int) = (x : Int) + o.1 ∧ (c.2 : Int) = (y : Int) + o.2)))

/-- The next state of cell `(x, y)` on the unbounded plane, by B3/S23. -/
def planeRule (cells : List (Nat × Nat)) (x y : Nat) : Bool :=
  lifeRule (cells.contains (x, y)) (planeCount cells x y)

/-- The four cells of the 2x2 block whose top-left cell is `(x0, y0)`, on the torus. -/
def blockCells (width height x0 y0 : Nat) : List (Nat × Nat) :=
  [(x0, y0), ((x0 + 1) % width, y0), (x0, (y0 + 1) % height),
   ((x0 + 1) % width, (y0 + 1) % height)]

/-- The horizontal blinker centred on `(x, y)`: the cells `(x-1, y)`, `(x, y)`,
`(x+1, y)`, on the torus. -/
def blinkerH (width x y : Nat) : List (Nat × Nat) :=
  [((x + width - 1) % width, y), (x, y), ((x + 1) % width, y)]

/-- The vertical blinker centred on `(x, y)`: the cells `(x, y-1)`, `(x, y)`,
`(x, y+1)`, on the torus. -/
def blinkerV (height x y : Nat) : List (Nat × Nat) :=
  [(x, (y + height - 1) % height), (x, y), (x, (y + 1) % height)]

/-- The standard glider, in `(x, y)` coordinates with `y` growing downward. -/
def glider : List (Nat × Nat) := [(1, 0), (2, 1), (0, 2), (1, 2), (2, 2)]

/-- The glider after one generation on the plane. -/
def glider1 : List (Nat × Nat) := [(0, 1), (2, 1), (1, 2), (2, 2), (1, 3)]

/-- The glider after two generations on the plane. -/
def glider2 : List (Nat × Nat) := [(2, 1), (0, 2), (2, 2), (1, 3), (2, 3)]

/-- The glider after three generations on the plane. -/
def glider3 : List (Nat × Nat) := [(1, 1), (2, 2), (3, 2), (1, 3), (2, 3)]

/-- A grid has three live cells side by side in one row of the torus. -/
def hasRow3 (g : List Bool) (width height : Nat) : Prop :=
  ∃ x y : Nat, x < width ∧ y < height ∧ g.getD (y * width + x) false = true ∧
    g.getD (y * width + torus x 1 width) false = true ∧
    g.getD (y * width + torus (torus x 1 width) 1 width) false = true

/-! ## The stepper on the two buffers of `main`

`main` hands `iterateGrids` two pointers into its pair of boolean buffers.  This
embedding keeps both buffers in the state, so that a write through `newGrid` is seen by
a later read through `oldGrid` when the two pointers are equal. -/

/-- The two boolean buffers `grid1` and `grid2` of `main`. -/
structure Buffers where
  grid1 : List Bool
  grid2 : List Bool

/-- The buffer a pointer points to: `false` is `&grid1`, `true` is `&grid2`. -/
def Buffers.read (m : Buffers) (p : Bool) : List Bool :=
  if p then m.grid2 else m.grid1

/-- The buffers after the buffer behind pointer `p` is replaced by `s`. -/
def Buffers.store (m : Buffers) (p : Bool) (s : List Bool) : Buffers :=
  if p then { m with grid2 := s } else { m with grid1 := s }

/-- The body of the `x` loop of `iterateGrids`, reading through the pointer `oldGrid`
and writing through the pointer `newGrid`. -/
def iterateCellP (oldGrid newGrid : Bool) (width height y : Nat)
    (st : Buffers × DiffGrid) (x : Nat) : Option (Buffers × DiffGrid) := do
  let liveNeighbours ← st.2.getOld (cellIndex width y x)
  let oldValue ← (st.1.read oldGrid)[cellIndex width y x]?
  let newValue := lifeRule oldValue liveNeighbours
  let written ← writeAt (st.1.read newGrid) (cellIndex width y x) newValue
  if newValue != oldValue then
    let dg ← changeNeighbours width height y x newValue st.2
    pure (st.1.store newGrid written, dg)
  else
    pure (st.1.store newGrid written, st.2)

/-- Source `iterateGrids` on the two buffers of `main`: returns both buffers and the
DiffGrid after the call. -/
def iterateGridsP (oldGrid newGrid : Bool) (m : Buffers) (liveNeighboursGrid : DiffGrid)
    (width height : Nat) : Option (Buffers × DiffGrid) := do
  let st ← (List.range height).foldlM (fun st y =>
    (List.range width).foldlM (iterateCellP oldGrid newGrid width height y) st)
    (m, liveNeighboursGrid)
  let dg ← st.2.merge
  pure (st.1, dg)

/-! ## The calls of `wrapIndex`

A third embedding of the seed scan and of the stepper, in which every call of
`wrapIndex` is recorded with its argument pair `(n, max)`, in evaluation order; the
record is kept up to a panic. -/

/-- Source `wrapIndex` with the call recorded: the result and the argument pair. -/
def wrapIndexT (n : Int) (max : Nat) : Nat × List (Int × Nat) :=
  (wrapIndex n max, [(n, max)])

/-- The index expression
`wrapIndex(int(y)+direction[1], height)*width + wrapIndex(int(x)+direction[0], width)`
with its two calls recorded. -/
def neighbourIndexT (width height y x : Nat) (direction : Int × Int) :
    Nat × List (Int × Nat) :=
  ((cellIndex width (wrapIndexT (toInt (toInt y + direction.2)) height).1
      (wrapIndexT (toInt (toInt x + direction.1)) width).1),
   (wrapIndexT (toInt (toInt y + direction.2)) height).2 ++
     (wrapIndexT (toInt (toInt x + direction.1)) width).2)

/-- A loop over `L` whose body may panic and records calls: the state after the loop
(`none` after a panic, which ends the loop) and the calls recorded up to there. -/
def foldT {σ α : Type} (f : σ → α → Option σ × List (Int × Nat)) :
    List α → σ → Option σ × List (Int × Nat)
  | [], s => (some s, [])
  | a :: L, s =>
    match (f s a).1 with
    | none => (none, (f s a).2)
    | some s1 => ((foldT f L s1).1, (f s a).2 ++ (foldT f L s1).2)

/-- The innermost loop of `makeLiveNeighboursGrid` with the calls recorded. -/
def countLiveNeighboursT (sourceGrid : List Bool) (width height y x : Nat) :
    Option Nat × List (Int × Nat) :=
  foldT (fun liveNeighbours direction =>
    ((sourceGrid[(neighbourIndexT width height y x direction).1]?).bind (fun alive =>
        some (if alive then toUint8 ((liveNeighbours : Int) + 1) else liveNeighbours)),
     (neighbourIndexT width height y x direction).2)) offsets 0

/-- The body of the `x` loop of `makeLiveNeighboursGrid` with the calls recorded. -/
def seedCellT (sourceGrid : List Bool) (width height y : Nat)
    (liveNeighboursGrid : List Nat) (x : Nat) : Option (List Nat) × List (Int × Nat) :=
  ((countLiveNeighboursT sourceGrid width height y x).1.bind (fun liveNeighbours =>
      writeAt liveNeighboursGrid (cellIndex width y x) liveNeighbours),
   (countLiveNeighboursT sourceGrid width height y x).2)

/-- Source `makeLiveNeighboursGrid` with the calls of `wrapIndex` recorded. -/
def makeLiveNeighboursGridT (sourceGrid : List Bool) (width height : Nat) :
    Option (List Nat) × List (Int × Nat) :=
  match makeSlice (toUint ((width : Int) * height)) 0 with
  | none => (none, [])
  | some liveNeighboursGrid =>
    foldT (fun lng y => foldT (seedCellT sourceGrid width height y) (List.range width) lng)
      (List.range height) liveNeighboursGrid

/-- The innermost loop of `iterateGrids` with the calls recorded. -/
def changeNeighboursT (width height y x : Nat) (newValue : Bool) (grid : DiffGrid) :
    Option DiffGrid × List (Int × Nat) :=
  foldT (fun dg direction =>
    (dg.change (neighbourIndexT width height y x direction).1 newValue,
     (neighbourIndexT width height y x direction).2)) offsets grid

/-- The body of the `x` loop of `iterateGrids` with the calls recorded. -/
def iterateCellT (oldGrid : List Bool) (width height y : Nat)
    (st : List Bool × DiffGrid) (x : Nat) :
    Option (List Bool × DiffGrid) × List (Int × Nat) :=
  match st.2.getOld (cellIndex width y x) with
  | none => (none, [])
  | some liveNeighbours =>
    match oldGrid[cellIndex width y x]? with
    | none => (none, [])
    | some oldValue =>
      match writeAt st.1 (cellIndex width y x) (lifeRule oldValue liveNeighbours) with
      | none => (none, [])
      | some newGrid =>
        if (lifeRule oldValue liveNeighbours != oldValue) = true then
          ((changeNeighboursT width height y x (lifeRule oldValue liveNeighbours) st.2).1.bind
              (fun dg => some (newGrid, dg)),
           (changeNeighboursT width height y x (lifeRule oldValue liveNeighbours) st.2).2)
        else
          (some (newGrid, st.2), [])

/-- The loops of `iterateGrids` with the calls recorded. -/
def iterateRowsT (oldGrid : List Bool) (width height : Nat) (st : List Bool × DiffGrid) :
    Option (List Bool × DiffGrid) × List (Int × Nat) :=
  foldT (fun st y => foldT (iterateCellT oldGrid width height y) (List.range width) st)
    (List.range height) st

/-- Source `iterateGrids` with the calls of `wrapIndex` recorded; `merge` makes none. -/
def iterateGridsT (oldGrid newGrid : List Bool) (liveNeighboursGrid : DiffGrid)
    (width height : Nat) : Option (List Bool × DiffGrid) × List (Int × Nat) :=
  ((iterateRowsT oldGrid width height (newGrid, liveNeighboursGrid)).1.bind (fun st =>
      st.2.merge.bind (fun dg => some (st.1, dg))),
   (iterateRowsT oldGrid width height (newGrid, liveNeighboursGrid)).2)

/-- A recorded call is `wrapIndex(int(c) + delta, d)` for a coordinate `c` with
`0 ≤ c < d` and a `delta` in `{-1, 0, 1}`. -/
def unitStepCall (call : Int × Nat) : Prop :=
  ∃ (c : Nat) (delta : Int), c < call.2 ∧ (delta = -1 ∨ delta = 0 ∨ delta = 1) ∧
    call.1 = toInt (toInt (c : Int) + delta)

/-! ## The torus and the index arithmetic -/

theorem toUint_natCast (n : Nat) (h : n < 18446744073709551616) : toUint (n : Int) = n := by
  unfold toUint; omega

theorem toInt_of_range (z : Int) (h1 : -9223372036854775808 ≤ z) (h2 : z < 9223372036854775808) :
    toInt z = z := by
  unfold toInt; omega

theorem torus_lt (c : Nat) (delta : Int) (d : Nat) (hd : 0 < d) : torus c delta d < d := by
  unfold torus
  have h1 := Int.emod_lt_of_pos ((c : Int) + delta) (show (0 : Int) < d by exact_mod_cast hd)
  have h2 := Int.emod_nonneg ((c : Int) + delta) (show (d : Int) ≠ 0 by omega)
  omega

theorem torus_cast (c : Nat) (delta : Int) (d : Nat) (hd : 0 < d) :
    ((torus c delta d : Nat) : Int) = ((c : Int) + delta) % (d : Int) := by
  unfold torus
  have h2 := Int.emod_nonneg ((c : Int) + delta) (show (d : Int) ≠ 0 by omega)
  omega

theorem torus_zero (c d : Nat) (hc : c < d) : torus c 0 d = c := by
  unfold torus
  rw [add_zero, Int.emod_eq_of_lt (by omega) (by omega)]
  omega

theorem torus_symm (c i d : Nat) (delta : Int) (hc : c < d) (hi : i < d) :
    torus c delta d = i ↔ torus i (-delta) d = c := by
  have hd : 0 < d := by omega
  constructor
  · intro h
    have h1 := torus_cast c delta d hd
    have h2 := torus_cast i (-delta) d hd
    rw [h] at h1
    rw [h1, Int.emod_add_emod, show (c : Int) + delta + -delta = c by ring,
      Int.emod_eq_of_lt (by omega) (by omega)] at h2
    exact_mod_cast h2
  · intro h
    have h1 := torus_cast i (-delta) d hd
    have h2 := torus_cast c delta d hd
    rw [h] at h1
    rw [h1, Int.emod_add_emod, show (i : Int) + -delta + delta = i by ring,
      Int.emod_eq_of_lt (by omega) (by omega)] at h2
    exact_mod_cast h2

theorem wrapIndex_eq_torus (c d : Nat) (delta : Int) (hc : c < d)
    (hd : d < 9223372036854775808) (h1 : -1 ≤ delta) (h2 : delta ≤ 1) :
    wrapIndex (toInt (toInt c + delta)) d = torus c delta d := by
  have e1 : toInt (c : Int) = c := toInt_of_range _ (by omega) (by omega)
  have e2 : toInt ((c : Int) + delta) = c + delta := toInt_of_range _ (by omega) (by omega)
  have e3 : toUint ((d : Int) - 1) = d - 1 := by unfold toUint; omega
  have e4 : toInt ((d - 1 : Nat) : Int) = (d : Int) - 1 := by
    rw [toInt_of_range _ (by omega) (by omega)]; omega
  rw [e1, e2]
  unfold wrapIndex
  rw [e3, e4]
  unfold torus
  by_cases hneg : (c : Int) + delta < 0
  · rw [if_pos hneg]
    have : (c : Int) + delta = -1 := by omega
    rw [this]
    have : ((-1 : Int)) % (d : Int) = (d : Int) - 1 := by
      have := Int.add_mul_emod_self (a := -1) (b := 1) (c := (d : Int))
      rw [← this, Int.emod_eq_of_lt (by omega) (by omega)]; ring
    rw [this]; omega
  · rw [if_neg hneg]
    by_cases hbig : (c : Int) + delta > (d : Int) - 1
    · rw [if_pos hbig]
      have : (c : Int) + delta = d := by omega
      rw [this, Int.emod_self]; rfl
    · rw [if_neg hbig, Int.emod_eq_of_lt (by omega) (by omega)]
      unfold toUint; omega

theorem mul_add_lt (w h y x : Nat) (hy : y < h) (hx : x < w) : y * w + x < w * h := by
  have : (y + 1) * w ≤ h * w := Nat.mul_le_mul_right w hy
  rw [Nat.mul_comm w h]
  rw [Nat.add_mul] at this
  omega

theorem cellIndex_eq (w h y x : Nat) (hy : y < h) (hx : x < w)
    (hn : w * h < 9223372036854775808) : cellIndex w y x = y * w + x := by
  have hlt := mul_add_lt w h y x hy hx
  unfold cellIndex
  have e1 : toUint ((y : Int) * w) = y * w := by
    rw [show (y : Int) * w = ((y * w : Nat) : Int) by push_cast; ring]
    exact toUint_natCast _ (by omega)
  rw [e1, show (((y * w : Nat) : Int) + (x : Int)) = ((y * w + x : Nat) : Int) by push_cast; ring]
  exact toUint_natCast _ (by omega)

theorem offsets_range (o : Int × Int) (ho : o ∈ offsets) :
    -1 ≤ o.1 ∧ o.1 ≤ 1 ∧ -1 ≤ o.2 ∧ o.2 ≤ 1 := by
  simp only [offsets, List.mem_cons, List.mem_singleton, List.not_mem_nil, or_false] at ho
  rcases ho with h | h | h | h | h | h | h | h <;> subst h <;> simp

theorem lt_of_mul_lt (w h : Nat) (hh : 0 < h) (hn : w * h < 9223372036854775808) :
    w < 9223372036854775808 := by
  have : w * 1 ≤ w * h := Nat.mul_le_mul_left w hh
  omega

theorem neighbourIndex_eq (w h y x : Nat) (o : Int × Int) (ho : o ∈ offsets)
    (hy : y < h) (hx : x < w) (hn : w * h < 9223372036854775808) :
    neighbourIndex w h y x o = nbr w h (y * w + x) o := by
  obtain ⟨a1, a2, a3, a4⟩ := offsets_range o ho
  have hw : w < 9223372036854775808 := lt_of_mul_lt w h (by omega) hn
  have hh : h < 9223372036854775808 := lt_of_mul_lt h w (by omega) (by rw [Nat.mul_comm]; exact hn)
  unfold neighbourIndex nbr
  rw [wrapIndex_eq_torus y h o.2 hy hh a3 a4, wrapIndex_eq_torus x w o.1 hx hw a1 a2]
  rw [cellIndex_eq w h _ _ (torus_lt _ _ _ (by omega)) (torus_lt _ _ _ (by omega)) hn]
  have e1 : (y * w + x) / w = y := by
    rw [Nat.add_comm, Nat.add_mul_div_right _ _ (by omega), Nat.div_eq_of_lt hx]; omega
  have e2 : (y * w + x) % w = x := by
    rw [Nat.add_comm, Nat.add_mul_mod_self_right, Nat.mod_eq_of_lt hx]
  rw [e1, e2]

theorem nbr_lt (w h j : Nat) (o : Int × Int) (hj : j < w * h) : nbr w h j o < w * h := by
  have hw : 0 < w := by
    rcases Nat.eq_zero_or_pos w with h0 | h0
    · subst h0; simp at hj
    · exact h0
  have hh : 0 < h := by
    rcases Nat.eq_zero_or_pos h with h0 | h0
    · subst h0; simp at hj
    · exact h0
  unfold nbr
  exact mul_add_lt w h _ _ (torus_lt _ _ _ hh) (torus_lt _ _ _ hw)

/-! ## Loops -/

theorem foldlM_range_inv {σ : Type} (f : σ → Nat → Option σ) (P : Nat → σ → Prop) (n : Nat)
    (s0 : σ) (h0 : P 0 s0)
    (hstep : ∀ k s, k < n → P k s → ∃ s2, f s k = some s2 ∧ P (k + 1) s2) :
    ∃ s2, (List.range n).foldlM f s0 = some s2 ∧ P n s2 := by
  induction n with
  | zero => exact ⟨s0, by simp, h0⟩
  | succ n ih =>
    obtain ⟨s1, e1, p1⟩ := ih (fun k s hk hp => hstep k s (by omega) hp)
    obtain ⟨s2, e2, p2⟩ := hstep n s1 (by omega) p1
    refine ⟨s2, ?_, p2⟩
    rw [List.range_succ, List.foldlM_append, e1]
    simp [e2]

theorem row_inv {σ : Type} (f : σ → Nat → Option σ) (P : Nat → σ → Prop) (w y n : Nat)
    (s0 : σ) (hn : n ≤ w) (h0 : P (y * w) s0)
    (hstep : ∀ x s, x < w → P (y * w + x) s → ∃ s2, f s x = some s2 ∧ P (y * w + x + 1) s2) :
    ∃ s2, (List.range n).foldlM f s0 = some s2 ∧ P (y * w + n) s2 :=
  foldlM_range_inv f (fun k s => P (y * w + k) s) n s0 h0
    (fun k s hk hp => hstep k s (by omega) hp)

theorem rows_inv {σ : Type} (f : Nat → σ → Nat → Option σ) (P : Nat → σ → Prop) (w h m : Nat)
    (s0 : σ) (hm : m ≤ h) (h0 : P 0 s0)
    (hstep : ∀ y x s, y < h → x < w → P (y * w + x) s →
      ∃ s2, f y s x = some s2 ∧ P (y * w + x + 1) s2) :
    ∃ s2, (List.range m).foldlM (fun s y => (List.range w).foldlM (f y) s) s0 = some s2 ∧
      P (m * w) s2 := by
  refine foldlM_range_inv _ (fun k s => P (k * w) s) m s0 (by simpa using h0) ?_
  intro y s hy hp
  obtain ⟨s2, e2, p2⟩ := row_inv (f y) P w y w s (le_refl w) hp
    (fun x s hx hp => hstep y x s (by omega) hx hp)
  refine ⟨s2, e2, ?_⟩
  show P ((y + 1) * w) s2
  rw [Nat.add_mul, Nat.one_mul]
  exact p2

/-! ## Seeding -/

theorem div_mul_add (w y x : Nat) (hx : x < w) : (y * w + x) / w = y := by
  rw [Nat.add_comm, Nat.add_mul_div_right _ _ (by omega), Nat.div_eq_of_lt hx]; omega

theorem mod_mul_add (w y x : Nat) (hx : x < w) : (y * w + x) % w = x := by
  rw [Nat.add_comm, Nat.add_mul_mod_self_right, Nat.mod_eq_of_lt hx]

theorem liveCountAt_eq (g : List Bool) (w h y x : Nat) (hx : x < w) :
    liveCountAt g w h (y * w + x) = liveCount g w h y x := by
  unfold liveCountAt
  rw [div_mul_add w y x hx, mod_mul_add w y x hx]

theorem liveCount_eq_nbr (g : List Bool) (w h j : Nat) :
    liveCountAt g w h j = offsets.countP (fun o => g[nbr w h j o]? == some true) := rfl

theorem liveCount_le (g : List Bool) (w h y x : Nat) : liveCount g w h y x ≤ 8 := by
  unfold liveCount
  exact le_trans (List.countP_le_length _) (by simp [offsets])

theorem count_fold (g : List Bool) (idx : Int × Int → Nat) (L : List (Int × Int)) (acc : Nat)
    (hL : ∀ o ∈ L, idx o < g.length) (hacc : acc + L.length < 256) :
    L.foldlM (fun liveNeighbours direction => do
      let alive ← g[idx direction]?
      pure (if alive then toUint8 ((liveNeighbours : Int) + 1) else liveNeighbours)) acc
      = some (acc + L.countP (fun o => g[idx o]? == some true)) := by
  induction L generalizing acc with
  | nil => simp
  | cons o L ih =>
    have ho : idx o < g.length := hL o (List.mem_cons_self _ _)
    have hL2 : ∀ o2 ∈ L, idx o2 < g.length := fun o2 h2 => hL o2 (List.mem_cons_of_mem _ h2)
    simp only [List.length_cons] at hacc
    rw [List.foldlM_cons, List.getElem?_eq_getElem ho]
    cases hb : g[idx o]
    · refine Eq.trans (ih acc hL2 (by omega)) ?_
      rw [List.countP_cons_of_neg]
      simp [List.getElem?_eq_getElem ho, hb]
    · have e : toUint8 ((acc : Int) + 1) = acc + 1 := by unfold toUint8; omega
      refine Eq.trans (?_ : _ = L.foldlM _ (acc + 1)) (Eq.trans (ih (acc + 1) hL2 (by omega)) ?_)
      · simp [e]
      · rw [List.countP_cons_of_pos]
        · congr 1; omega
        · simp [List.getElem?_eq_getElem ho, hb]

theorem countLiveNeighbours_eq (g : List Bool) (w h y x : Nat) (hy : y < h) (hx : x < w)
    (hlen : g.length = w * h) (hn : w * h < 9223372036854775808) :
    countLiveNeighbours g w h y x = some (liveCount g w h y x) := by
  have hL : ∀ o ∈ offsets, neighbourIndex w h y x o < g.length := by
    intro o ho
    rw [neighbourIndex_eq w h y x o ho hy hx hn, hlen]
    exact nbr_lt w h _ o (mul_add_lt w h y x hy hx)
  have h8 : 0 + offsets.length < 256 := by simp [offsets]
  have hf := count_fold g (neighbourIndex w h y x) offsets 0 hL h8
  unfold countLiveNeighbours
  rw [hf]
  rw [Nat.zero_add, ← liveCountAt_eq g w h y x hx, liveCount_eq_nbr]
  refine congrArg some ?_
  apply List.countP_congr
  intro o ho
  rw [neighbourIndex_eq w h y x o ho hy hx hn]

theorem toUint_mul (w h : Nat) (hn : w * h < 9223372036854775808) :
    toUint ((w : Int) * h) = w * h := by
  rw [show (w : Int) * h = ((w * h : Nat) : Int) by push_cast; ring]
  exact toUint_natCast _ (by omega)

theorem seed_spec (g : List Bool) (w h : Nat) (hlen : g.length = w * h)
    (hn : w * h < 9223372036854775808) :
    ∃ cs, makeLiveNeighboursGrid g w h = some cs ∧ cs.length = w * h ∧
      ∀ j, j < w * h → cs[j]? = some (liveCountAt g w h j) := by
  unfold makeLiveNeighboursGrid makeSlice
  rw [toUint_mul w h hn, if_pos hn]
  simp only [Option.some_bind, Option.bind_eq_bind]
  obtain ⟨cs, e, p1, p2⟩ := rows_inv (fun y lng x => seedCell g w h y lng x)
    (fun k cs => cs.length = w * h ∧ ∀ j, j < k → cs[j]? = some (liveCountAt g w h j))
    w h h (List.replicate (w * h) 0) (le_refl h) ⟨by simp, by intro j hj; omega⟩
    (by
      intro y x cs hy hx ⟨hc, hp⟩
      have hlt := mul_add_lt w h y x hy hx
      show ∃ s2, seedCell g w h y cs x = some s2 ∧ (s2.length = w * h ∧
        ∀ j, j < y * w + x + 1 → s2[j]? = some (liveCountAt g w h j))
      unfold seedCell writeAt
      rw [countLiveNeighbours_eq g w h y x hy hx hlen hn, cellIndex_eq w h y x hy hx hn]
      simp only [Option.some_bind, Option.bind_eq_bind]
      rw [if_pos (by omega)]
      refine ⟨_, rfl, by simpa using hc, ?_⟩
      intro j hj
      by_cases hjk : j = y * w + x
      · subst hjk
        rw [List.getElem?_set_self (by omega), liveCountAt_eq g w h y x hx]
      · rw [List.getElem?_set_ne (by omega)]
        exact hp j (by omega))
  refine ⟨cs, e, p1, ?_⟩
  intro j hj
  exact p2 j (by rw [Nat.mul_comm]; exact hj)

/-! ## DiffGrid operations -/

theorem toInt8_add_toInt8 (a b : Int) : toInt8 (toInt8 a + b) = toInt8 (a + b) := by
  unfold toInt8; omega

theorem toInt8_of_range (a : Int) (h1 : -128 ≤ a) (h2 : a ≤ 127) : toInt8 a = a := by
  unfold toInt8; omega

theorem change_eq (dg : DiffGrid) (i : Nat) (up : Bool) (d : Int) (h : dg.diff[i]? = some d) :
    dg.change i up =
      some { grid := dg.grid, diff := dg.diff.set i (toInt8 (d + (if up then 1 else -1))) } := by
  unfold DiffGrid.change
  rw [h]
  cases up
  · simp [sub_eq_add_neg]
  · simp

theorem change_fold (idx : Int × Int → Nat) (up : Bool) (L : List (Int × Int)) (dg : DiffGrid)
    (hL : ∀ o ∈ L, idx o < dg.diff.length) :
    ∃ dg2, L.foldlM (fun dg o => dg.change (idx o) up) dg = some dg2 ∧ dg2.grid = dg.grid ∧
      dg2.diff.length = dg.diff.length ∧
      ∀ (i : Nat) X, dg.diff[i]? = some (toInt8 X) →
        dg2.diff[i]? = some (toInt8 (X + (if up then 1 else -1) *
          (L.map (fun o => if idx o = i then (1 : Int) else 0)).sum)) := by
  induction L generalizing dg with
  | nil =>
    refine ⟨dg, by simp, rfl, rfl, ?_⟩
    intro i X h
    simpa using h
  | cons o L ih =>
    have ho : idx o < dg.diff.length := hL o (List.mem_cons_self _ _)
    have e1 := change_eq dg (idx o) up _ (List.getElem?_eq_getElem ho)
    obtain ⟨dg2, e2, g2, l2, p2⟩ := ih
      { grid := dg.grid, diff := dg.diff.set (idx o) (toInt8 (dg.diff[idx o] + (if up then 1 else -1))) }
      (by intro o2 h2; simpa using hL o2 (List.mem_cons_of_mem _ h2))
    refine ⟨dg2, ?_, g2, by simpa using l2, ?_⟩
    · rw [List.foldlM_cons, e1]
      exact e2
    · intro i X h
      by_cases hi : idx o = i
      · subst hi
        have hd : dg.diff[idx o] = toInt8 X := by
          rw [List.getElem?_eq_getElem ho] at h
          exact Option.some.inj h
        have := p2 (idx o) (X + (if up then 1 else -1)) (by
          simp only
          rw [List.getElem?_set_self ho, hd, toInt8_add_toInt8])
        rw [this]
        simp only [List.map_cons, List.sum_cons, if_true]
        congr 2; ring
      · have := p2 i X (by
          simp only
          rw [List.getElem?_set_ne hi]
          exact h)
        rw [this]
        simp only [List.map_cons, List.sum_cons, if_neg hi]
        congr 2; ring

theorem mergeAt_eq (dg : DiffGrid) (i : Nat) (h1 : i < dg.grid.length) (h2 : i < dg.diff.length) :
    dg.mergeAt i = some { grid := dg.grid.set i (toUint8 ((dg.grid[i] : Int) + toUint8 dg.diff[i])),
                          diff := dg.diff.set i 0 } := by
  unfold DiffGrid.mergeAt
  rw [List.getElem?_eq_getElem h1, List.getElem?_eq_getElem h2]
  rfl

theorem merge_spec (dg : DiffGrid) (hlen : dg.grid.length ≤ dg.diff.length) :
    ∃ dg2, dg.merge = some dg2 ∧ dg2.grid.length = dg.grid.length ∧
      dg2.diff.length = dg.diff.length ∧
      (∀ (i : Nat) g d, dg.grid[i]? = some g → dg.diff[i]? = some d →
        dg2.grid[i]? = some (toUint8 ((g : Int) + toUint8 d)) ∧ dg2.diff[i]? = some 0) ∧
      (∀ i : Nat, dg.grid.length ≤ i → dg2.diff[i]? = dg.diff[i]?) := by
  unfold DiffGrid.merge
  obtain ⟨dg2, e, p1, p2, p3, p4⟩ := foldlM_range_inv DiffGrid.mergeAt
    (fun k s => s.grid.length = dg.grid.length ∧ s.diff.length = dg.diff.length ∧
      (∀ (i : Nat) g d, i < k → dg.grid[i]? = some g → dg.diff[i]? = some d →
        s.grid[i]? = some (toUint8 ((g : Int) + toUint8 d)) ∧ s.diff[i]? = some 0) ∧
      (∀ i : Nat, k ≤ i → s.grid[i]? = dg.grid[i]? ∧ s.diff[i]? = dg.diff[i]?))
    dg.grid.length dg ⟨rfl, rfl, by intro i g d hi; omega, by intro i _; exact ⟨rfl, rfl⟩⟩
    (by
      intro k s hk ⟨q1, q2, q3, q4⟩
      have hk1 : k < s.grid.length := by omega
      have hk2 : k < s.diff.length := by omega
      refine ⟨_, mergeAt_eq s k hk1 hk2, by simpa using q1, by simpa using q2, ?_, ?_⟩
      · intro i g d hi hg hd
        by_cases hik : i = k
        · subst hik
          have a1 := (q4 i (le_refl i)).1
          have a2 := (q4 i (le_refl i)).2
          rw [hg, List.getElem?_eq_getElem hk1] at a1
          rw [hd, List.getElem?_eq_getElem hk2] at a2
          have b1 := Option.some.inj a1
          have b2 := Option.some.inj a2
          simp only
          rw [List.getElem?_set_self hk1, List.getElem?_set_self hk2, b1, b2]
          exact ⟨rfl, rfl⟩
        · simp only
          rw [List.getElem?_set_ne (by omega), List.getElem?_set_ne (by omega)]
          exact q3 i g d (by omega) hg hd
      · intro i hi
        simp only
        rw [List.getElem?_set_ne (by omega), List.getElem?_set_ne (by omega)]
        exact q4 i (by omega))
  refine ⟨dg2, e, p1, p2, ?_, ?_⟩
  · intro i g d hg hd
    have hi : i < dg.grid.length := by
      by_contra hc
      rw [List.getElem?_eq_none (by omega)] at hg
      exact Option.noConfusion hg
    exact p3 i g d hi hg hd
  · intro i hi
    exact (p4 i hi).2

/-! ## Sums over the eight offsets -/

theorem sum_map_ite_succ {α : Type} (L : List α) (m : α → Nat) (f : Nat → Int) (k : Nat) :
    (L.map (fun o => if m o < k + 1 then f (m o) else 0)).sum =
      (L.map (fun o => if m o < k then f (m o) else 0)).sum +
        f k * (L.map (fun o => if m o = k then (1 : Int) else 0)).sum := by
  induction L with
  | nil => simp
  | cons a L ih =>
    simp only [List.map_cons, List.sum_cons, ih]
    by_cases h1 : m a < k
    · rw [if_pos h1, if_pos (by omega), if_neg (by omega)]; ring
    · by_cases h2 : m a = k
      · rw [if_neg h1, if_pos (by omega), if_pos h2, h2]; ring
      · rw [if_neg h1, if_neg (by omega), if_neg h2]; ring

theorem pend_succ (old : List Bool) (G : List Nat) (w h k i : Nat) :
    pend old G w h (k + 1) i = pend old G w h k i +
      flipAt old G k * (offsets.map (fun o => if nbr w h i o = k then (1 : Int) else 0)).sum :=
  sum_map_ite_succ offsets (nbr w h i) (flipAt old G) k

theorem sum_offsets_neg (F : Int × Int → Int) :
    (offsets.map (fun o => F (-o.1, -o.2))).sum = (offsets.map F).sum := by
  simp only [offsets, List.map_cons, List.map_nil, List.sum_cons, List.sum_nil, neg_neg,
    neg_zero]
  ring

theorem index_eq_iff (w a b i : Nat) (hb : b < w) :
    a * w + b = i ↔ a = i / w ∧ b = i % w := by
  constructor
  · intro h
    subst h
    exact ⟨(div_mul_add w a b hb).symm, (mod_mul_add w a b hb).symm⟩
  · rintro ⟨h1, h2⟩
    rw [h1, h2, Nat.mul_comm]
    exact Nat.div_add_mod i w

theorem dims_pos (w h j : Nat) (hj : j < w * h) : 0 < w ∧ 0 < h := by
  constructor
  · rcases Nat.eq_zero_or_pos w with h0 | h0
    · subst h0; simp at hj
    · exact h0
  · rcases Nat.eq_zero_or_pos h with h0 | h0
    · subst h0; simp at hj
    · exact h0

theorem div_lt_height (w h j : Nat) (hj : j < w * h) : j / w < h := by
  have hw := (dims_pos w h j hj).1
  exact Nat.div_lt_of_lt_mul hj

theorem nbr_eq_iff (w h j i : Nat) (o : Int × Int) (hj : j < w * h) (hi : i < w * h) :
    nbr w h j o = i ↔ nbr w h i (-o.1, -o.2) = j := by
  obtain ⟨hw, hh⟩ := dims_pos w h j hj
  unfold nbr
  rw [index_eq_iff w _ _ i (torus_lt _ _ _ hw), index_eq_iff w _ _ j (torus_lt _ _ _ hw)]
  have a1 := torus_symm (j / w) (i / w) h o.2 (div_lt_height w h j hj) (div_lt_height w h i hi)
  have a2 := torus_symm (j % w) (i % w) w o.1 (Nat.mod_lt _ hw) (Nat.mod_lt _ hw)
  simp only
  rw [a1, a2]

theorem nbr_count_symm (w h j i : Nat) (hj : j < w * h) (hi : i < w * h) :
    (offsets.map (fun o => if nbr w h j o = i then (1 : Int) else 0)).sum =
      (offsets.map (fun o => if nbr w h i o = j then (1 : Int) else 0)).sum := by
  rw [← sum_offsets_neg (fun o => if nbr w h i o = j then (1 : Int) else 0)]
  refine congrArg List.sum (List.map_congr_left ?_)
  intro o _
  by_cases hc : nbr w h j o = i
  · rw [if_pos hc, if_pos ((nbr_eq_iff w h j i o hj hi).1 hc)]
  · rw [if_neg hc, if_neg (fun hc2 => hc ((nbr_eq_iff w h j i o hj hi).2 hc2))]

/-! ## The stepper: loop invariant -/

theorem iterateCell_eq (old : List Bool) (w h y x : Nat) (st : List Bool × DiffGrid)
    (g : Nat) (b : Bool) (h1 : st.2.grid[cellIndex w y x]? = some g)
    (h2 : old[cellIndex w y x]? = some b) (h3 : cellIndex w y x < st.1.length) :
    iterateCell old w h y st x =
      if (lifeRule b g != b) = true then
        (changeNeighbours w h y x (lifeRule b g) st.2).bind
          (fun dg => some (st.1.set (cellIndex w y x) (lifeRule b g), dg))
      else some (st.1.set (cellIndex w y x) (lifeRule b g), st.2) := by
  unfold iterateCell DiffGrid.getOld writeAt
  rw [h1, h2]
  simp only [Option.bind_eq_bind, Option.some_bind, h3, if_true, Option.pure_def]

theorem flipAt_of_flip (old : List Bool) (G : List Nat) (k : Nat)
    (hf : (ruleAt old G k != old.getD k false) = true) :
    flipAt old G k = if ruleAt old G k then 1 else -1 := by
  unfold flipAt b2i
  cases h1 : ruleAt old G k <;> cases h2 : old.getD k false <;> simp_all

theorem flipAt_of_keep (old : List Bool) (G : List Nat) (k : Nat)
    (hf : ¬ (ruleAt old G k != old.getD k false) = true) :
    flipAt old G k = 0 := by
  unfold flipAt b2i
  cases h1 : ruleAt old G k <;> cases h2 : old.getD k false <;> simp_all

theorem iterateCell_inv (old : List Bool) (G : List Nat) (D0 : List Int) (w h y x : Nat)
    (hold : old.length = w * h) (hG : G.length = w * h) (hn : w * h < 9223372036854775808)
    (hy : y < h) (hx : x < w) (st : List Bool × DiffGrid)
    (hinv : LoopInv old G D0 w h (y * w + x) st) :
    ∃ st2, iterateCell old w h y st x = some st2 ∧ LoopInv old G D0 w h (y * w + x + 1) st2 := by
  obtain ⟨i1, i2, i3, i4, i5⟩ := hinv
  have hk := mul_add_lt w h y x hy hx
  have hc := cellIndex_eq w h y x hy hx hn
  have hg : st.2.grid[cellIndex w y x]? = some (G.getD (y * w + x) 0) := by
    rw [hc, i2, List.getD_eq_getElem?_getD, List.getElem?_eq_getElem (by omega)]; rfl
  have hb : old[cellIndex w y x]? = some (old.getD (y * w + x) false) := by
    rw [hc, List.getD_eq_getElem?_getD, List.getElem?_eq_getElem (by omega)]; rfl
  have e := iterateCell_eq old w h y x st _ _ hg hb (by rw [hc]; omega)
  rw [hc] at e
  change iterateCell old w h y st x =
    if (ruleAt old G (y * w + x) != old.getD (y * w + x) false) = true then
      (changeNeighbours w h y x (ruleAt old G (y * w + x)) st.2).bind
        (fun dg => some (st.1.set (y * w + x) (ruleAt old G (y * w + x)), dg))
    else some (st.1.set (y * w + x) (ruleAt old G (y * w + x)), st.2) at e
  have hnew : ∀ (s : List Bool), s = st.1.set (y * w + x) (ruleAt old G (y * w + x)) →
      ∀ j : Nat, j < y * w + x + 1 → s[j]? = some (ruleAt old G j) := by
    intro s hs j hj
    subst hs
    by_cases hjk : j = y * w + x
    · subst hjk
      rw [List.getElem?_set_self (by omega)]
    · rw [List.getElem?_set_ne (by omega)]
      exact i4 j (by omega)
  by_cases hf : (ruleAt old G (y * w + x) != old.getD (y * w + x) false) = true
  · rw [if_pos hf] at e
    obtain ⟨dg2, c1, c2, c3, c4⟩ := change_fold (neighbourIndex w h y x)
      (ruleAt old G (y * w + x)) offsets st.2 (by
        intro o ho
        rw [neighbourIndex_eq w h y x o ho hy hx hn, i3]
        exact nbr_lt w h _ o hk)
    have c1b : changeNeighbours w h y x (ruleAt old G (y * w + x)) st.2 = some dg2 := c1
    rw [c1b] at e
    refine ⟨_, e, by simpa using i1, by rw [← i2]; exact c2, by rw [← i3]; exact c3,
      hnew _ rfl, ?_⟩
    intro i X hi hX
    have d1 := c4 i (X + pend old G w h (y * w + x) i) (i5 i X hi hX)
    show dg2.diff[i]? = _
    rw [d1, pend_succ, flipAt_of_flip old G _ hf, nbr_count_symm w h i (y * w + x) hi hk]
    have : (offsets.map (fun o => if neighbourIndex w h y x o = i then (1 : Int) else 0)).sum =
        (offsets.map (fun o => if nbr w h (y * w + x) o = i then (1 : Int) else 0)).sum := by
      refine congrArg List.sum (List.map_congr_left ?_)
      intro o ho
      rw [neighbourIndex_eq w h y x o ho hy hx hn]
    rw [this, add_assoc]
  · rw [if_neg hf] at e
    refine ⟨_, e, by simpa using i1, i2, i3, hnew _ rfl, ?_⟩
    intro i X hi hX
    show st.2.diff[i]? = _
    rw [i5 i X hi hX, pend_succ, flipAt_of_keep old G _ hf]
    simp

theorem LoopInv_init (old new0 : List Bool) (dg : DiffGrid) (w h : Nat)
    (hnew : new0.length = w * h) (hD : dg.diff.length = w * h) :
    LoopInv old dg.grid dg.diff w h 0 (new0, dg) := by
  refine ⟨hnew, rfl, hD, by intro j hj; omega, ?_⟩
  intro i X hi hX
  have : pend old dg.grid w h 0 i = 0 := by
    unfold pend
    simp
  rw [this, add_zero]
  exact hX

theorem iterateUpTo_inv (old new0 : List Bool) (dg : DiffGrid) (w h y x : Nat)
    (hold : old.length = w * h) (hnew : new0.length = w * h) (hG : dg.grid.length = w * h)
    (hD : dg.diff.length = w * h) (hn : w * h < 9223372036854775808)
    (hy : y < h) (hx : x ≤ w) :
    ∃ st, iterateUpTo old new0 dg w h y x = some st ∧
      LoopInv old dg.grid dg.diff w h (y * w + x) st := by
  obtain ⟨s1, e1, p1⟩ := rows_inv (fun y st x => iterateCell old w h y st x)
    (LoopInv old dg.grid dg.diff w h) w h y (new0, dg) (by omega)
    (LoopInv_init old new0 dg w h hnew hD)
    (fun y x s hy hx hp => iterateCell_inv old dg.grid dg.diff w h y x hold hG hn hy hx s hp)
  obtain ⟨s2, e2, p2⟩ := row_inv (iterateCell old w h y) (LoopInv old dg.grid dg.diff w h)
    w y x s1 hx p1
    (fun x s hx hp => iterateCell_inv old dg.grid dg.diff w h y x hold hG hn hy hx s hp)
  refine ⟨s2, ?_, p2⟩
  unfold iterateUpTo iterateRows iterateRow
  rw [e1]
  exact e2

theorem iterateRows_inv (old new0 : List Bool) (dg : DiffGrid) (w h : Nat)
    (hold : old.length = w * h) (hnew : new0.length = w * h) (hG : dg.grid.length = w * h)
    (hD : dg.diff.length = w * h) (hn : w * h < 9223372036854775808) :
    ∃ st, iterateRows old w h h (new0, dg) = some st ∧
      LoopInv old dg.grid dg.diff w h (w * h) st := by
  obtain ⟨s1, e1, p1⟩ := rows_inv (fun y st x => iterateCell old w h y st x)
    (LoopInv old dg.grid dg.diff w h) w h h (new0, dg) (le_refl h)
    (LoopInv_init old new0 dg w h hnew hD)
    (fun y x s hy hx hp => iterateCell_inv old dg.grid dg.diff w h y x hold hG hn hy hx s hp)
  rw [Nat.mul_comm] at p1
  exact ⟨s1, e1, p1⟩

/-! ## The stepper: counts after a step -/

theorem countP_cast_sum {α : Type} (L : List α) (p : α → Bool) :
    ((L.countP p : Nat) : Int) = (L.map (fun o => b2i (p o))).sum := by
  induction L with
  | nil => simp
  | cons a L ih =>
    simp only [List.map_cons, List.sum_cons, ← ih, List.countP_cons]
    cases p a <;> simp [b2i]
    ring

theorem lookup_eq_getD (g : List Bool) (m : Nat) : (g[m]? == some true) = g.getD m false := by
  rw [List.getD_eq_getElem?_getD]
  cases g[m]? with
  | none => rfl
  | some b => cases b <;> rfl

theorem liveCountAt_cast (g : List Bool) (w h i : Nat) :
    ((liveCountAt g w h i : Nat) : Int) =
      (offsets.map (fun o => b2i (g.getD (nbr w h i o) false))).sum := by
  rw [liveCount_eq_nbr, countP_cast_sum]
  refine congrArg List.sum (List.map_congr_left ?_)
  intro o _
  rw [lookup_eq_getD]

theorem b2i_range (b : Bool) : 0 ≤ b2i b ∧ b2i b ≤ 1 := by
  cases b <;> simp [b2i]

theorem flipAt_range (old : List Bool) (G : List Nat) (j : Nat) :
    -1 ≤ flipAt old G j ∧ flipAt old G j ≤ 1 := by
  unfold flipAt
  have h1 := b2i_range (ruleAt old G j)
  have h2 := b2i_range (old.getD j false)
  omega

theorem sum_map_bounds {α : Type} (L : List α) (f : α → Int) (lo hi : Int)
    (hf : ∀ o ∈ L, lo ≤ f o ∧ f o ≤ hi) :
    lo * L.length ≤ (L.map f).sum ∧ (L.map f).sum ≤ hi * L.length := by
  induction L with
  | nil => simp
  | cons a L ih =>
    have h1 := hf a (List.mem_cons_self _ _)
    have h2 := ih (fun o ho => hf o (List.mem_cons_of_mem _ ho))
    simp only [List.map_cons, List.sum_cons, List.length_cons, Nat.cast_add, Nat.cast_one]
    constructor
    · nlinarith [h1.1, h2.1]
    · nlinarith [h1.2, h2.2]

theorem pend_range (old : List Bool) (G : List Nat) (w h k i : Nat) :
    -8 ≤ pend old G w h k i ∧ pend old G w h k i ≤ 8 := by
  have := sum_map_bounds offsets
    (fun o => if nbr w h i o < k then flipAt old G (nbr w h i o) else 0) (-1) 1 (by
      intro o _
      have := flipAt_range old G (nbr w h i o)
      simp only
      split <;> omega)
  have h8 : ((offsets.length : Nat) : Int) = 8 := by simp [offsets]
  rw [h8] at this
  unfold pend
  omega

theorem count_add_pend (old : List Bool) (G : List Nat) (w h k i : Nat) :
    ((liveCountAt old w h i : Nat) : Int) + pend old G w h k i =
      (offsets.map (fun o => b2i (mixAt old G k (nbr w h i o)))).sum := by
  rw [liveCountAt_cast]
  unfold pend
  rw [← List.sum_map_add]
  refine congrArg List.sum (List.map_congr_left ?_)
  intro o _
  unfold mixAt flipAt
  split <;> ring

theorem count_add_pend_range (old : List Bool) (G : List Nat) (w h k i : Nat) :
    0 ≤ ((liveCountAt old w h i : Nat) : Int) + pend old G w h k i ∧
      ((liveCountAt old w h i : Nat) : Int) + pend old G w h k i ≤ 8 := by
  rw [count_add_pend]
  have := sum_map_bounds offsets (fun o => b2i (mixAt old G k (nbr w h i o))) 0 1
    (fun o _ => b2i_range _)
  have h8 : ((offsets.length : Nat) : Int) = 8 := by simp [offsets]
  rw [h8] at this
  omega

theorem liveCountAt_new (old new1 : List Bool) (G : List Nat) (w h i : Nat) (hi : i < w * h)
    (hnew : ∀ j : Nat, j < w * h → new1[j]? = some (ruleAt old G j)) :
    ((liveCountAt new1 w h i : Nat) : Int) =
      ((liveCountAt old w h i : Nat) : Int) + pend old G w h (w * h) i := by
  rw [count_add_pend, liveCountAt_cast]
  refine congrArg List.sum (List.map_congr_left ?_)
  intro o _
  have hm := nbr_lt w h i o hi
  unfold mixAt
  rw [if_pos hm, List.getD_eq_getElem?_getD, hnew _ hm]
  rfl

theorem liveCountAt_le (g : List Bool) (w h i : Nat) : liveCountAt g w h i ≤ 8 :=
  liveCount_le g w h _ _

/-- What `iterateGrids` returns on buffers of the right lengths, whatever the committed
counts and the pending deltas are. -/
theorem iterateGrids_spec (old new0 : List Bool) (dg : DiffGrid) (w h : Nat)
    (hold : old.length = w * h) (hnew : new0.length = w * h) (hG : dg.grid.length = w * h)
    (hD : dg.diff.length = w * h) (hn : w * h < 9223372036854775808) :
    ∃ st r, iterateRows old w h h (new0, dg) = some st ∧
      LoopInv old dg.grid dg.diff w h (w * h) st ∧
      iterateGrids old new0 dg w h = some r ∧ r.1 = st.1 ∧
      r.1.length = w * h ∧ r.2.grid.length = w * h ∧ r.2.diff.length = w * h ∧
      (∀ j : Nat, j < w * h → r.1[j]? = some (ruleAt old dg.grid j)) ∧
      (∀ i : Nat, i < w * h → r.2.diff[i]? = some 0) ∧
      (∀ (i : Nat) (g : Nat) (d : Int), st.2.grid[i]? = some g → st.2.diff[i]? = some d →
        r.2.grid[i]? = some (toUint8 ((g : Int) + toUint8 d))) := by
  obtain ⟨st, e1, inv⟩ := iterateRows_inv old new0 dg w h hold hnew hG hD hn
  obtain ⟨i1, i2, i3, i4, i5⟩ := inv
  obtain ⟨dg2, e2, m1, m2, m3, _⟩ := merge_spec st.2 (by rw [i2, hG, i3])
  refine ⟨st, (st.1, dg2), e1, ⟨i1, i2, i3, i4, i5⟩, ?_, rfl, i1, by rw [m1, i2, hG],
    by rw [m2, i3], i4, ?_, ?_⟩
  · unfold iterateGrids
    rw [e1]
    simp only [Option.bind_eq_bind, Option.some_bind, e2, Option.pure_def]
  · intro i hi
    have a1 : i < st.2.grid.length := by rw [i2, hG]; exact hi
    have a2 : i < st.2.diff.length := by rw [i3]; exact hi
    exact (m3 i _ _ (List.getElem?_eq_getElem a1) (List.getElem?_eq_getElem a2)).2
  · intro i g d hg hd
    exact (m3 i g d hg hd).1

/-- A step that starts from the true counts of the old grid and zero pending deltas ends
with the true counts of the new grid. -/
theorem iterateGrids_counts (old new0 : List Bool) (dg : DiffGrid) (w h : Nat)
    (hold : old.length = w * h) (hnew : new0.length = w * h) (hG : dg.grid.length = w * h)
    (hD : dg.diff.length = w * h) (hn : w * h < 9223372036854775808)
    (hzero : ∀ i : Nat, i < w * h → dg.diff[i]? = some 0)
    (hcount : ∀ i : Nat, i < w * h → dg.grid[i]? = some (liveCountAt old w h i)) :
    ∃ r, iterateGrids old new0 dg w h = some r ∧
      r.1.length = w * h ∧ r.2.grid.length = w * h ∧ r.2.diff.length = w * h ∧
      (∀ j : Nat, j < w * h → r.1[j]? = some (ruleAt old dg.grid j)) ∧
      (∀ i : Nat, i < w * h → r.2.diff[i]? = some 0) ∧
      (∀ i : Nat, i < w * h → r.2.grid[i]? = some (liveCountAt r.1 w h i)) := by
  obtain ⟨st, r, _, inv, e, _, r1, r2, r3, r4, r5, r6⟩ :=
    iterateGrids_spec old new0 dg w h hold hnew hG hD hn
  obtain ⟨_, i2, _, _, i5⟩ := inv
  refine ⟨r, e, r1, r2, r3, r4, r5, ?_⟩
  intro i hi
  have a1 : st.2.grid[i]? = some (liveCountAt old w h i) := by rw [i2]; exact hcount i hi
  have a2 := i5 i 0 hi (by rw [hzero i hi]; rfl)
  rw [r6 i _ _ a1 a2]
  have b1 := liveCountAt_new old r.1 dg.grid w h i hi r4
  have b2 := liveCountAt_le r.1 w h i
  have b3 := pend_range old dg.grid w h (w * h) i
  refine congrArg some ?_
  rw [zero_add]
  unfold toUint8 toInt8
  omega

/-! ## The simulation loop -/

theorem lifeRule_eq (b : Bool) (c : Nat) :
    lifeRule b c = if b then decide (c = 2 ∨ c = 3) else decide (c = 3) := by
  unfold lifeRule
  cases b
  · rw [Bool.eq_iff_iff]; simp
  · rw [Bool.eq_iff_iff]; simp [or_comm]

theorem step_eq_bruteStep (old r1 : List Bool) (G : List Nat) (w h : Nat)
    (hr : r1.length = w * h)
    (hcount : ∀ i : Nat, i < w * h → G[i]? = some (liveCountAt old w h i))
    (hrule : ∀ j : Nat, j < w * h → r1[j]? = some (ruleAt old G j)) :
    r1 = bruteStep old w h := by
  apply List.ext_getElem?
  intro j
  by_cases hj : j < w * h
  · rw [hrule j hj]
    unfold bruteStep ruleAt
    rw [List.getElem?_map, List.getElem?_range hj, List.getD_eq_getElem?_getD (l := G),
      hcount j hj, lifeRule_eq]
    rfl
  · rw [List.getElem?_eq_none (by omega), List.getElem?_eq_none]
    unfold bruteStep
    simp only [List.length_map, List.length_range]
    omega

theorem mainInit_eq (g : List Bool) (w h : Nat) (cs : List Nat)
    (hn : w * h < 9223372036854775808) (hc : makeLiveNeighboursGrid g w h = some cs) :
    mainInit g w h = some ⟨g, List.replicate (w * h) false, ⟨cs, List.replicate (w * h) 0⟩⟩ := by
  unfold mainInit makeGrid makeSlice
  rw [toUint_mul w h hn, if_pos hn, if_pos hn, hc]
  rfl

theorem mainStep_eq (w h : Nat) (s : Sim) (r : List Bool × DiffGrid)
    (hr : iterateGrids s.mainGrid s.oldGrid s.liveNeighboursGrid w h = some r) :
    mainStep w h s = some ⟨r.1, s.mainGrid, r.2⟩ := by
  unfold mainStep
  rw [hr]
  rfl

/-- The invariant of the loop of `main`. -/
theorem mainLoop_inv (g : List Bool) (w h : Nat) (hlen : g.length = w * h)
    (hn : w * h < 9223372036854775808) (k : Nat) :
    ∃ s, mainLoop g w h k = some s ∧ s.mainGrid = bruteRun g w h k ∧
      s.mainGrid.length = w * h ∧ s.oldGrid.length = w * h ∧
      s.liveNeighboursGrid.grid.length = w * h ∧ s.liveNeighboursGrid.diff.length = w * h ∧
      (∀ i : Nat, i < w * h → s.liveNeighboursGrid.diff[i]? = some 0) ∧
      (∀ i : Nat, i < w * h →
        s.liveNeighboursGrid.grid[i]? = some (liveCountAt s.mainGrid w h i)) := by
  induction k with
  | zero =>
    obtain ⟨cs, e, c1, c2⟩ := seed_spec g w h hlen hn
    refine ⟨⟨g, List.replicate (w * h) false, ⟨cs, List.replicate (w * h) 0⟩⟩,
      mainInit_eq g w h cs hn e, rfl, hlen, List.length_replicate _ _, c1,
      List.length_replicate _ _, ?_, c2⟩
    intro i hi
    show (List.replicate (w * h) (0 : Int))[i]? = some 0
    rw [List.getElem?_replicate, if_pos hi]
  | succ k ih =>
    obtain ⟨s, e, s1, s2, s3, s4, s5, s6, s7⟩ := ih
    obtain ⟨r, er, r1, r2, r3, r4, r5, r6⟩ := iterateGrids_counts s.mainGrid s.oldGrid
      s.liveNeighboursGrid w h s2 s3 s4 s5 hn s6 s7
    refine ⟨⟨r.1, s.mainGrid, r.2⟩, ?_, ?_, r1, s2, r2, r3, r5, r6⟩
    · show (mainLoop g w h k).bind (mainStep w h) = _
      rw [e, Option.some_bind]
      exact mainStep_eq w h s r er
    · show r.1 = bruteStep (bruteRun g w h k) w h
      rw [← s1]
      exact step_eq_bruteStep s.mainGrid r.1 s.liveNeighboursGrid.grid w h r1 s7 r4

/-! ## Results that hold whenever the loops return -/

theorem foldlM_some_inv {σ α : Type} (f : σ → α → Option σ) (P : σ → Prop)
    (hstep : ∀ s a s2, P s → f s a = some s2 → P s2) (L : List α) (s0 s2 : σ) (h0 : P s0)
    (h : L.foldlM f s0 = some s2) : P s2 := by
  induction L generalizing s0 with
  | nil =>
    simp only [List.foldlM_nil, Option.pure_def, Option.some.injEq] at h
    rw [← h]; exact h0
  | cons a L ih =>
    rw [List.foldlM_cons] at h
    cases h1 : f s0 a with
    | none => rw [h1] at h; exact Option.noConfusion h
    | some s1 =>
      rw [h1] at h
      exact ih s1 (hstep s0 a s1 h0 h1) h

theorem change_lengths (dg dg2 : DiffGrid) (i : Nat) (up : Bool) (h : dg.change i up = some dg2) :
    dg2.grid.length = dg.grid.length ∧ dg2.diff.length = dg.diff.length := by
  unfold DiffGrid.change at h
  cases hd : dg.diff[i]? with
  | none => rw [hd] at h; exact Option.noConfusion h
  | some d =>
    rw [hd] at h
    cases up
    · simp only [Option.bind_eq_bind, Option.some_bind, Bool.false_eq_true, if_false,
        Option.pure_def, Option.some.injEq] at h
      rw [← h]; simp
    · simp only [Option.bind_eq_bind, Option.some_bind, if_true,
        Option.pure_def, Option.some.injEq] at h
      rw [← h]; simp

theorem iterateCell_lengths (old : List Bool) (w h y x : Nat) (st st2 : List Bool × DiffGrid)
    (n m : Nat) (hp : st.2.grid.length = n ∧ st.2.diff.length = m)
    (he : iterateCell old w h y st x = some st2) :
    st2.2.grid.length = n ∧ st2.2.diff.length = m := by
  unfold iterateCell DiffGrid.getOld writeAt at he
  cases h1 : st.2.grid[cellIndex w y x]? with
  | none => rw [h1] at he; exact Option.noConfusion he
  | some g =>
    cases h2 : old[cellIndex w y x]? with
    | none => rw [h1, h2] at he; exact Option.noConfusion he
    | some b =>
      rw [h1, h2] at he
      by_cases h3 : cellIndex w y x < st.1.length
      · simp only [Option.bind_eq_bind, Option.some_bind, h3, if_true, Option.pure_def] at he
        by_cases hf : (lifeRule b g != b) = true
        · rw [if_pos hf] at he
          cases h4 : changeNeighbours w h y x (lifeRule b g) st.2 with
          | none => rw [h4] at he; exact Option.noConfusion he
          | some dg2 =>
            rw [h4] at he
            simp only [Option.some_bind, Option.some.injEq] at he
            rw [← he]
            exact foldlM_some_inv _ (fun d => d.grid.length = n ∧ d.diff.length = m)
              (fun s a s2 hs hc => by
                have := change_lengths s s2 _ _ hc
                exact ⟨by rw [this.1]; exact hs.1, by rw [this.2]; exact hs.2⟩)
              offsets st.2 dg2 hp h4
        · rw [if_neg hf] at he
          simp only [Option.some.injEq] at he
          rw [← he]; exact hp
      · simp only [Option.bind_eq_bind, Option.some_bind, h3, if_false, Option.none_bind] at he
        exact Option.noConfusion he

theorem iterateRows_lengths (old : List Bool) (w h m : Nat) (st st2 : List Bool × DiffGrid)
    (he : iterateRows old w h m st = some st2) :
    st2.2.grid.length = st.2.grid.length ∧ st2.2.diff.length = st.2.diff.length := by
  unfold iterateRows at he
  refine foldlM_some_inv _
    (fun s => s.2.grid.length = st.2.grid.length ∧ s.2.diff.length = st.2.diff.length)
    ?_ (List.range m) st st2 ⟨rfl, rfl⟩ he
  intro s y s2 hs hrow
  unfold iterateRow at hrow
  exact foldlM_some_inv _
    (fun s => s.2.grid.length = st.2.grid.length ∧ s.2.diff.length = st.2.diff.length)
    (fun s x s2 hs hc => iterateCell_lengths old w h y x s s2 _ _ hs hc)
    (List.range w) s s2 hs hrow

theorem lifeRule_iff (b : Bool) (c : Nat) :
    (lifeRule b c = true ↔ (c = 3 ∨ (b = true ∧ c = 2))) ∧
      (b = false → (lifeRule b c = true ↔ c = 3)) ∧
      (b = true → (lifeRule b c = true ↔ (c = 2 ∨ c = 3))) := by
  unfold lifeRule
  cases b <;> simp [or_comm]

/-! ## Claims -/

/-- C1 (incremental/brute-force equivalence). For every width and height at least 1 and
every boolean grid `g` of `width*height` cells (the length of a Go slice, hence below
`2^63`), the loop of `main`, seeded by `makeLiveNeighboursGrid` with a zero `diff` and
alternating the two buffers, reaches every step `k ≤ N`, and its main buffer then is
exactly the grid that `k` brute-force generations (`bruteRun`) give. -/
theorem mainLoop_eq_bruteRun (g : List Bool) (width height : Nat)
    (_hw : 1 ≤ width) (_hh : 1 ≤ height) (hlen : g.length = width * height)
    (hn : width * height < 9223372036854775808) (N k : Nat) (_hk : k ≤ N) :
    ∃ s, mainLoop g width height k = some s ∧ s.mainGrid = bruteRun g width height k := by
  obtain ⟨s, e, p, _⟩ := mainLoop_inv g width height hlen hn k
  exact ⟨s, e, p⟩

theorem mainLoop_eq_bruteRun_witness :
    ∃ s, mainLoop [true, true, false, true, false, false] 3 2 2 = some s ∧
      s.mainGrid = bruteRun [true, true, false, true, false, false] 3 2 2 :=
  mainLoop_eq_bruteRun [true, true, false, true, false, false] 3 2 (by decide) (by decide)
    (by decide) (by decide) 5 2 (by decide)

/-- C2 (neighbour-count invariant). For width and height at least 1 and buffers of
`width*height` cells: when `diff` is all zero and `grid[i]` is the toroidal
live-neighbour count of cell `i` in `oldGrid` (eight offsets, with multiplicity), the
call `iterateGrids` returns, and afterwards `grid[i]` is the toroidal live-neighbour
count of cell `i` in the new grid and `diff[i]` is zero, for every `i`. -/
theorem iterateGrids_preserves_counts (oldGrid newGrid : List Bool) (dg : DiffGrid)
    (width height : Nat) (_hw : 1 ≤ width) (_hh : 1 ≤ height)
    (hold : oldGrid.length = width * height) (hnew : newGrid.length = width * height)
    (hG : dg.grid.length = width * height) (hD : dg.diff.length = width * height)
    (hn : width * height < 9223372036854775808)
    (hzero : ∀ i : Nat, i < width * height → dg.diff[i]? = some 0)
    (hcount : ∀ i : Nat, i < width * height →
      dg.grid[i]? = some (liveCountAt oldGrid width height i)) :
    ∃ r, iterateGrids oldGrid newGrid dg width height = some r ∧
      (∀ i : Nat, i < width * height →
        r.2.grid[i]? = some (liveCountAt r.1 width height i)) ∧
      (∀ i : Nat, i < width * height → r.2.diff[i]? = some 0) := by
  obtain ⟨r, e, _, _, _, _, r5, r6⟩ :=
    iterateGrids_counts oldGrid newGrid dg width height hold hnew hG hD hn hzero hcount
  exact ⟨r, e, r6, r5⟩

theorem iterateGrids_preserves_counts_witness :
    ∃ r, iterateGrids [true, true, false, true, false, false]
        [false, false, false, false, false, false]
        ⟨[3, 3, 4, 4, 5, 5], [0, 0, 0, 0, 0, 0]⟩ 3 2 = some r ∧
      (∀ i : Nat, i < 3 * 2 → r.2.grid[i]? = some (liveCountAt r.1 3 2 i)) ∧
      (∀ i : Nat, i < 3 * 2 → r.2.diff[i]? = some 0) :=
  iterateGrids_preserves_counts [true, true, false, true, false, false]
    [false, false, false, false, false, false] ⟨[3, 3, 4, 4, 5, 5], [0, 0, 0, 0, 0, 0]⟩ 3 2
    (by decide) (by decide) (by decide) (by decide) (by decide) (by decide) (by decide)
    (by decide) (by decide)

/-- C3 (seed correctness). For width and height at least 1 and every boolean grid `g` of
`width*height` cells, `makeLiveNeighboursGrid` returns a slice of length `width*height`
whose entry `y*width+x` is the number of the eight offsets `(dx, dy)` for which
`g[((y+dy) mod height)*width + ((x+dx) mod width)]` is true (`liveCount`), a number in
`[0, 8]`. -/
theorem makeLiveNeighboursGrid_correct (g : List Bool) (width height : Nat)
    (_hw : 1 ≤ width) (_hh : 1 ≤ height) (hlen : g.length = width * height)
    (hn : width * height < 9223372036854775808) :
    ∃ cs, makeLiveNeighboursGrid g width height = some cs ∧ cs.length = width * height ∧
      ∀ y x : Nat, y < height → x < width →
        cs[y * width + x]? = some (liveCount g width height y x) ∧
        liveCount g width height y x ≤ 8 := by
  obtain ⟨cs, e, c1, c2⟩ := seed_spec g width height hlen hn
  refine ⟨cs, e, c1, ?_⟩
  intro y x hy hx
  rw [c2 _ (mul_add_lt width height y x hy hx), liveCountAt_eq g width height y x hx]
  exact ⟨rfl, liveCount_le g width height y x⟩

theorem makeLiveNeighboursGrid_correct_witness :
    ∃ cs, makeLiveNeighboursGrid [true, false, false, true] 2 2 = some cs ∧
      cs.length = 2 * 2 ∧
      ∀ y x : Nat, y < 2 → x < 2 →
        cs[y * 2 + x]? = some (liveCount [true, false, false, true] 2 2 y x) ∧
        liveCount [true, false, false, true] 2 2 y x ≤ 8 :=
  makeLiveNeighboursGrid_correct [true, false, false, true] 2 2 (by decide) (by decide)
    (by decide) (by decide)

/-- C4 (Life rule B3/S23). On buffers of `width*height` cells `iterateGrids` returns, and
for every cell index `i < width*height` the new value of cell `i` is true exactly when
`c = 3` or (`oldGrid[i]` is true and `c = 2`), where `c` is the committed count
`dg.grid[i]` the call began with: a dead cell is born on exactly 3, a live cell survives
on 2 or 3, every other cell is dead. -/
theorem iterateGrids_rule (oldGrid newGrid : List Bool) (dg : DiffGrid)
    (width height : Nat) (hold : oldGrid.length = width * height)
    (hnew : newGrid.length = width * height) (hG : dg.grid.length = width * height)
    (hD : dg.diff.length = width * height) (hn : width * height < 9223372036854775808) :
    ∃ r, iterateGrids oldGrid newGrid dg width height = some r ∧
      ∀ i : Nat, i < width * height →
        ∃ (b : Bool) (c : Nat) (nv : Bool),
          oldGrid[i]? = some b ∧ dg.grid[i]? = some c ∧ r.1[i]? = some nv ∧
          (nv = true ↔ (c = 3 ∨ (b = true ∧ c = 2))) ∧
          (b = false → (nv = true ↔ c = 3)) ∧
          (b = true → (nv = true ↔ (c = 2 ∨ c = 3))) := by
  obtain ⟨_, r, _, _, e, _, _, _, _, r4, _, _⟩ :=
    iterateGrids_spec oldGrid newGrid dg width height hold hnew hG hD hn
  refine ⟨r, e, ?_⟩
  intro i hi
  have hb : oldGrid[i]? = some (oldGrid.getD i false) := by
    rw [List.getD_eq_getElem?_getD, List.getElem?_eq_getElem (by omega)]; rfl
  have hc : dg.grid[i]? = some (dg.grid.getD i 0) := by
    rw [List.getD_eq_getElem?_getD, List.getElem?_eq_getElem (by omega)]; rfl
  exact ⟨_, _, _, hb, hc, r4 i hi, lifeRule_iff _ _⟩

theorem iterateGrids_rule_witness :
    ∃ r, iterateGrids [true, true, false, true, false, false]
        [true, true, true, true, true, true]
        ⟨[3, 2, 7, 0, 3, 2], [0, 5, 0, 0, -1, 0]⟩ 3 2 = some r ∧
      ∀ i : Nat, i < 3 * 2 →
        ∃ (b : Bool) (c : Nat) (nv : Bool),
          [true, true, false, true, false, false][i]? = some b ∧
          [3, 2, 7, 0, 3, 2][i]? = some c ∧ r.1[i]? = some nv ∧
          (nv = true ↔ (c = 3 ∨ (b = true ∧ c = 2))) ∧
          (b = false → (nv = true ↔ c = 3)) ∧
          (b = true → (nv = true ↔ (c = 2 ∨ c = 3))) :=
  iterateGrids_rule [true, true, false, true, false, false] [true, true, true, true, true, true]
    ⟨[3, 2, 7, 0, 3, 2], [0, 5, 0, 0, -1, 0]⟩ 3 2 (by decide) (by decide) (by decide)
    (by decide) (by decide)

/-- C5 (count range). Let a step start with `diff` all zero and `grid` the true neighbour
counts of `oldGrid`.  After any number of processed cells in row-major order (rows
`0..y-1` and `x` cells of row `y`) the loops have not failed and, for every cell `i`, the
integer `grid[i] + diff[i]` lies in `[0, 8]` and `DiffGrid.get(i)`, computed in `uint8`,
is that integer.  After `merge` every `grid[i]` is the integer `grid[i] + diff[i]` of the
state just before it, without wrap-around, and lies in `[0, 8]`. -/
theorem counts_stay_in_range (oldGrid newGrid : List Bool) (dg : DiffGrid)
    (width height : Nat) (_hw : 1 ≤ width) (_hh : 1 ≤ height)
    (hold : oldGrid.length = width * height) (hnew : newGrid.length = width * height)
    (hG : dg.grid.length = width * height) (hD : dg.diff.length = width * height)
    (hn : width * height < 9223372036854775808)
    (hzero : ∀ i : Nat, i < width * height → dg.diff[i]? = some 0)
    (hcount : ∀ i : Nat, i < width * height →
      dg.grid[i]? = some (liveCountAt oldGrid width height i)) :
    (∀ y x : Nat, y < height → x ≤ width →
      ∃ st, iterateUpTo oldGrid newGrid dg width height y x = some st ∧
        ∀ i : Nat, i < width * height →
          ∃ (g : Nat) (d : Int) (v : Nat),
            st.2.grid[i]? = some g ∧ st.2.diff[i]? = some d ∧
            0 ≤ (g : Int) + d ∧ (g : Int) + d ≤ 8 ∧
            st.2.get i = some v ∧ (v : Int) = (g : Int) + d) ∧
    (∃ st r, iterateRows oldGrid width height height (newGrid, dg) = some st ∧
      iterateGrids oldGrid newGrid dg width height = some r ∧
      ∀ i : Nat, i < width * height →
        ∃ (g : Nat) (d : Int) (v : Nat),
          st.2.grid[i]? = some g ∧ st.2.diff[i]? = some d ∧
          r.2.grid[i]? = some v ∧ (v : Int) = (g : Int) + d ∧ v ≤ 8) := by
  constructor
  · intro y x hy hx
    obtain ⟨st, e, _, i2, _, _, i5⟩ :=
      iterateUpTo_inv oldGrid newGrid dg width height y x hold hnew hG hD hn hy hx
    refine ⟨st, e, ?_⟩
    intro i hi
    have a1 : st.2.grid[i]? = some (liveCountAt oldGrid width height i) := by
      rw [i2]; exact hcount i hi
    have a2 := i5 i 0 hi (by rw [hzero i hi]; rfl)
    have b1 := pend_range oldGrid dg.grid width height (y * width + x) i
    have b2 := count_add_pend_range oldGrid dg.grid width height (y * width + x) i
    rw [zero_add, toInt8_of_range _ (by omega) (by omega)] at a2
    have hget : st.2.get i = some (toUint8 (((liveCountAt oldGrid width height i : Nat) : Int) +
        toUint8 (pend oldGrid dg.grid width height (y * width + x) i))) := by
      unfold DiffGrid.get
      rw [a1, a2]
      rfl
    refine ⟨_, _, _, a1, a2, b2.1, b2.2, hget, ?_⟩
    unfold toUint8
    omega
  · obtain ⟨st, r, e1, inv, e, _, _, _, _, _, _, r6⟩ :=
      iterateGrids_spec oldGrid newGrid dg width height hold hnew hG hD hn
    obtain ⟨_, i2, _, _, i5⟩ := inv
    refine ⟨st, r, e1, e, ?_⟩
    intro i hi
    have a1 : st.2.grid[i]? = some (liveCountAt oldGrid width height i) := by
      rw [i2]; exact hcount i hi
    have a2 := i5 i 0 hi (by rw [hzero i hi]; rfl)
    have b1 := pend_range oldGrid dg.grid width height (width * height) i
    have b2 := count_add_pend_range oldGrid dg.grid width height (width * height) i
    rw [zero_add, toInt8_of_range _ (by omega) (by omega)] at a2
    refine ⟨_, _, _, a1, a2, r6 i _ _ a1 a2, ?_, ?_⟩
    · unfold toUint8
      omega
    · unfold toUint8
      omega

theorem counts_stay_in_range_witness :
    ∃ st, iterateUpTo [true, true, false, true, false, false]
        [false, false, false, false, false, false]
        ⟨[3, 3, 4, 4, 5, 5], [0, 0, 0, 0, 0, 0]⟩ 3 2 1 2 = some st ∧
      ∀ i : Nat, i < 3 * 2 →
        ∃ (g : Nat) (d : Int) (v : Nat),
          st.2.grid[i]? = some g ∧ st.2.diff[i]? = some d ∧
          0 ≤ (g : Int) + d ∧ (g : Int) + d ≤ 8 ∧
          st.2.get i = some v ∧ (v : Int) = (g : Int) + d :=
  (counts_stay_in_range [true, true, false, true, false, false]
    [false, false, false, false, false, false] ⟨[3, 3, 4, 4, 5, 5], [0, 0, 0, 0, 0, 0]⟩ 3 2
    (by decide) (by decide) (by decide) (by decide) (by decide) (by decide) (by decide)
    (by decide) (by decide)).1 1 2 (by decide) (by decide)

/-- C6 (pending reset). For every DiffGrid whose `grid` and `diff` have the same length,
`merge` returns and afterwards `diff[i]` is zero for every index `i`; consequently `diff`
is all zero on return from every call of `iterateGrids` on such a DiffGrid, and the call
does return on buffers of `width*height` cells. -/
theorem merge_resets_diff (dg : DiffGrid) (hlen : dg.grid.length = dg.diff.length) :
    (∃ dg2, dg.merge = some dg2 ∧ dg2.diff.length = dg.diff.length ∧
      ∀ i : Nat, i < dg.diff.length → dg2.diff[i]? = some 0) ∧
    (∀ (oldGrid newGrid : List Bool) (width height : Nat) (r : List Bool × DiffGrid),
      iterateGrids oldGrid newGrid dg width height = some r →
        r.2.diff.length = dg.diff.length ∧
        ∀ i : Nat, i < dg.diff.length → r.2.diff[i]? = some 0) ∧
    (∀ (oldGrid newGrid : List Bool) (width height : Nat),
      oldGrid.length = width * height → newGrid.length = width * height →
      dg.grid.length = width * height → width * height < 9223372036854775808 →
        ∃ r, iterateGrids oldGrid newGrid dg width height = some r) := by
  have key : ∀ d : DiffGrid, d.grid.length = d.diff.length →
      ∃ d2, d.merge = some d2 ∧ d2.diff.length = d.diff.length ∧
        ∀ i : Nat, i < d.diff.length → d2.diff[i]? = some 0 := by
    intro d hd
    obtain ⟨d2, e, _, m2, m3, _⟩ := merge_spec d (by omega)
    refine ⟨d2, e, m2, ?_⟩
    intro i hi
    exact (m3 i _ _ (List.getElem?_eq_getElem (by omega)) (List.getElem?_eq_getElem hi)).2
  refine ⟨key dg hlen, ?_, ?_⟩
  · intro oldGrid newGrid width height r he
    unfold iterateGrids at he
    cases h1 : iterateRows oldGrid width height height (newGrid, dg) with
    | none => rw [h1] at he; exact Option.noConfusion he
    | some st =>
      rw [h1] at he
      have hl := iterateRows_lengths oldGrid width height height _ st h1
      obtain ⟨d2, e, m2, m3⟩ := key st.2 (by rw [hl.1, hl.2]; exact hlen)
      simp only [Option.bind_eq_bind, Option.some_bind, e, Option.pure_def,
        Option.some.injEq] at he
      rw [← he]
      refine ⟨by rw [m2, hl.2], ?_⟩
      intro i hi
      exact m3 i (by rw [hl.2]; exact hi)
  · intro oldGrid newGrid width height hold hnew hG hn
    obtain ⟨_, r, _, _, e, _⟩ :=
      iterateGrids_spec oldGrid newGrid dg width height hold hnew hG (by omega) hn
    exact ⟨r, e⟩

theorem merge_resets_diff_witness :
    ∃ dg2, DiffGrid.merge ⟨[3, 0, 8], [-1, 4, -8]⟩ = some dg2 ∧
      dg2.diff.length = 3 ∧ ∀ i : Nat, i < 3 → dg2.diff[i]? = some 0 :=
  (merge_resets_diff ⟨[3, 0, 8], [-1, 4, -8]⟩ (by decide)).1

/-- C7 (bounded delta). For width and height at least 1 (grids narrower than 3
included), when a step starts with `diff` all zero, then after any number of processed
cells in row-major order inside `iterateGrids` (rows `0..y-1` and `x` cells of row `y`)
the loops have not failed and `|diff[i]| ≤ 8` for every cell `i`. -/
theorem diff_bounded (oldGrid newGrid : List Bool) (dg : DiffGrid)
    (width height : Nat) (_hw : 1 ≤ width) (_hh : 1 ≤ height)
    (hold : oldGrid.length = width * height) (hnew : newGrid.length = width * height)
    (hG : dg.grid.length = width * height) (hD : dg.diff.length = width * height)
    (hn : width * height < 9223372036854775808)
    (hzero : ∀ i : Nat, i < width * height → dg.diff[i]? = some 0)
    (y x : Nat) (hy : y < height) (hx : x ≤ width) :
    ∃ st, iterateUpTo oldGrid newGrid dg width height y x = some st ∧
      ∀ i : Nat, i < width * height →
        ∃ d : Int, st.2.diff[i]? = some d ∧ -8 ≤ d ∧ d ≤ 8 := by
  obtain ⟨st, e, _, _, _, _, i5⟩ :=
    iterateUpTo_inv oldGrid newGrid dg width height y x hold hnew hG hD hn hy hx
  refine ⟨st, e, ?_⟩
  intro i hi
  have a2 := i5 i 0 hi (by rw [hzero i hi]; rfl)
  have b1 := pend_range oldGrid dg.grid width height (y * width + x) i
  rw [zero_add, toInt8_of_range _ (by omega) (by omega)] at a2
  exact ⟨_, a2, b1.1, b1.2⟩

theorem diff_bounded_witness :
    ∃ st, iterateUpTo [true] [false] ⟨[8], [0]⟩ 1 1 0 1 = some st ∧
      ∀ i : Nat, i < 1 * 1 → ∃ d : Int, st.2.diff[i]? = some d ∧ -8 ≤ d ∧ d ≤ 8 :=
  diff_bounded [true] [false] ⟨[8], [0]⟩ 1 1 (by decide) (by decide) (by decide) (by decide)
    (by decide) (by decide) (by decide) (by decide) 0 1 (by decide) (by decide)

/-- C8, the claim as stated fails: the dimension `2^63 + 1` is at least 1 and
`0 ≤ 5 < 2^63 + 1`, yet `wrapIndex(5, 2^63 + 1)` is `0`, not `5`, because `int(max-1)`
is negative there. -/
theorem wrapIndex_large_dimension_counterexample :
    1 ≤ 9223372036854775809 ∧ (0 : Int) ≤ 5 ∧ (5 : Int) < 9223372036854775809 ∧
      wrapIndex 5 9223372036854775809 = 0 ∧ wrapIndex 5 9223372036854775809 ≠ 5 := by
  decide

/-- C8 as amended (toroidal wrap). For every dimension `d ≥ 1` (a `uint`):
`wrapIndex(-1, d) = d-1`; the result of `wrapIndex(n, d)` lies in `[0, d)` for every
integer `n`; when `d ≤ 2^63`, `wrapIndex(k, d) = k` for every `0 ≤ k < d`; and when
`d < 2^63`, so that `d` is an `int`, `wrapIndex(d, d) = 0`. -/
theorem wrapIndex_wrap (d : Nat) (hd : 1 ≤ d) (hd2 : d < 18446744073709551616) :
    wrapIndex (-1) d = d - 1 ∧
    (∀ n : Int, wrapIndex n d < d) ∧
    (d ≤ 9223372036854775808 → ∀ k : Nat, k < d → wrapIndex (k : Int) d = k) ∧
    (d < 9223372036854775808 → wrapIndex (d : Int) d = 0) := by
  have e3 : toUint ((d : Int) - 1) = d - 1 := by unfold toUint; omega
  refine ⟨?_, ?_, ?_, ?_⟩
  · unfold wrapIndex
    rw [if_pos (by omega), e3]
  · intro n
    unfold wrapIndex
    rw [e3]
    by_cases h1 : n < 0
    · rw [if_pos h1]; omega
    · rw [if_neg h1]
      by_cases h2 : n > toInt ((d - 1 : Nat) : Int)
      · rw [if_pos h2]; omega
      · rw [if_neg h2]
        unfold toInt at h2
        unfold toUint
        omega
  · intro hle k hk
    unfold wrapIndex
    rw [e3, if_neg (by omega), toInt_of_range _ (by omega) (by omega), if_neg (by omega)]
    unfold toUint
    omega
  · intro hlt
    unfold wrapIndex
    rw [e3, if_neg (by omega), toInt_of_range _ (by omega) (by omega), if_pos (by omega)]

theorem wrapIndex_wrap_witness :
    wrapIndex (-1) 5 = 5 - 1 ∧ wrapIndex (-7) 5 < 5 ∧ wrapIndex ((3 : Nat) : Int) 5 = 3 ∧
      wrapIndex ((5 : Nat) : Int) 5 = 0 :=
  ⟨(wrapIndex_wrap 5 (by decide) (by decide)).1,
    (wrapIndex_wrap 5 (by decide) (by decide)).2.1 (-7),
    (wrapIndex_wrap 5 (by decide) (by decide)).2.2.1 (by decide) 3 (by decide),
    (wrapIndex_wrap 5 (by decide) (by decide)).2.2.2 (by decide)⟩

/-- C9 (merge adds the signed delta). For every DiffGrid with slices of equal length and
every index `i`: when the integer `grid[i] + diff[i]` lies in `[0, 255]`, `merge` returns
and afterwards `grid[i]` is exactly that integer, although the code adds
`uint8(diff[i])` modulo 256. -/
theorem merge_adds_delta (dg : DiffGrid) (_hlen : dg.grid.length = dg.diff.length)
    (i : Nat) (g : Nat) (d : Int) (hg : dg.grid[i]? = some g) (hd : dg.diff[i]? = some d)
    (h0 : 0 ≤ (g : Int) + d) (h255 : (g : Int) + d ≤ 255) :
    ∃ (dg2 : DiffGrid) (v : Nat),
      dg.merge = some dg2 ∧ dg2.grid[i]? = some v ∧ (v : Int) = (g : Int) + d := by
  obtain ⟨dg2, e, _, _, m3, _⟩ := merge_spec dg (by omega)
  refine ⟨dg2, _, e, (m3 i g d hg hd).1, ?_⟩
  unfold toUint8
  omega

theorem merge_adds_delta_witness :
    ∃ (dg2 : DiffGrid) (v : Nat),
      DiffGrid.merge ⟨[3, 0, 8], [-1, 4, -8]⟩ = some dg2 ∧ dg2.grid[2]? = some v ∧
      (v : Int) = ((8 : Nat) : Int) + (-8) :=
  merge_adds_delta ⟨[3, 0, 8], [-1, 4, -8]⟩ (by decide) 2 8 (-8) (by decide) (by decide)
    (by decide) (by decide)

/-- C10 (change touches one pending entry). For every DiffGrid, every valid index `i`
and every boolean `up`, `change(i, up)` returns and sets `diff[i]` to the `int8` value of
`diff[i]+1` when `up` is true and of `diff[i]-1` when `up` is false (the integer
`diff[i]±1` itself whenever that is an `int8`), and leaves every other `diff` entry,
the whole of `grid` and both slice lengths unchanged. -/
theorem change_frame (dg : DiffGrid) (i : Nat) (up : Bool) (d : Int)
    (hd : dg.diff[i]? = some d) :
    ∃ dg2, dg.change i up = some dg2 ∧
      dg2.diff[i]? = some (toInt8 (if up then d + 1 else d - 1)) ∧
      (up = true → -128 ≤ d + 1 → d + 1 ≤ 127 → dg2.diff[i]? = some (d + 1)) ∧
      (up = false → -128 ≤ d - 1 → d - 1 ≤ 127 → dg2.diff[i]? = some (d - 1)) ∧
      (∀ j : Nat, j ≠ i → dg2.diff[j]? = dg.diff[j]?) ∧
      dg2.grid = dg.grid ∧ dg2.grid.length = dg.grid.length ∧
      dg2.diff.length = dg.diff.length := by
  have hi : i < dg.diff.length := by
    by_contra hc
    rw [List.getElem?_eq_none (by omega)] at hd
    exact Option.noConfusion hd
  have e := change_eq dg i up d hd
  refine ⟨_, e, ?_, ?_, ?_, ?_, rfl, rfl, by simp⟩
  · show (dg.diff.set i _)[i]? = _
    rw [List.getElem?_set_self hi]
    cases up <;> simp [sub_eq_add_neg]
  · intro hu h1 h2
    show (dg.diff.set i _)[i]? = _
    rw [List.getElem?_set_self hi, hu, if_pos rfl, toInt8_of_range _ h1 h2]
  · intro hu h1 h2
    show (dg.diff.set i _)[i]? = _
    rw [List.getElem?_set_self hi, hu, if_neg (by simp), ← sub_eq_add_neg,
      toInt8_of_range _ h1 h2]
  · intro j hj
    show (dg.diff.set i _)[j]? = _
    rw [List.getElem?_set_ne (by omega)]

theorem change_frame_witness :
    ∃ dg2, DiffGrid.change ⟨[3, 0, 8], [-1, 4, -8]⟩ 1 false = some dg2 ∧
      dg2.diff[1]? = some (toInt8 (if false then 4 + 1 else 4 - 1)) ∧
      (false = true → -128 ≤ (4 : Int) + 1 → (4 : Int) + 1 ≤ 127 → dg2.diff[1]? = some (4 + 1)) ∧
      (false = false → -128 ≤ (4 : Int) - 1 → (4 : Int) - 1 ≤ 127 →
        dg2.diff[1]? = some (4 - 1)) ∧
      (∀ j : Nat, j ≠ 1 → dg2.diff[j]? = [-1, 4, -8][j]?) ∧
      dg2.grid = [3, 0, 8] ∧ dg2.grid.length = 3 ∧ dg2.diff.length = 3 :=
  change_frame ⟨[3, 0, 8], [-1, 4, -8]⟩ 1 false 4 (by decide)

/-! ## Order independence of the cell loop -/

theorem toInt8_congr_add (a b c : Int) (h : toInt8 a = toInt8 b) :
    toInt8 (a + c) = toInt8 (b + c) := by
  unfold toInt8 at *; omega

theorem toUint8_of_toInt8_eq (a b : Int) (h : toInt8 a = toInt8 b) : toUint8 a = toUint8 b := by
  unfold toInt8 at h; unfold toUint8; omega

theorem change_fold_cong (idx : Int × Int → Nat) (up : Bool) (L : List (Int × Int))
    (dg : DiffGrid) (hL : ∀ o ∈ L, idx o < dg.diff.length) :
    ∃ dg2, L.foldlM (fun dg o => dg.change (idx o) up) dg = some dg2 ∧ dg2.grid = dg.grid ∧
      dg2.diff.length = dg.diff.length ∧
      ∀ (i : Nat) (d : Int), dg.diff[i]? = some d →
        ∃ d2 : Int, dg2.diff[i]? = some d2 ∧
          toInt8 d2 = toInt8 (d + (if up then 1 else -1) *
            (L.map (fun o => if idx o = i then (1 : Int) else 0)).sum) := by
  induction L generalizing dg with
  | nil =>
    refine ⟨dg, by simp, rfl, rfl, ?_⟩
    intro i d h
    exact ⟨d, h, by simp⟩
  | cons o L ih =>
    have ho : idx o < dg.diff.length := hL o (List.mem_cons_self _ _)
    have e1 := change_eq dg (idx o) up _ (List.getElem?_eq_getElem ho)
    obtain ⟨dg2, e2, g2, l2, p2⟩ := ih
      { grid := dg.grid, diff := dg.diff.set (idx o) (toInt8 (dg.diff[idx o] + (if up then 1 else -1))) }
      (by intro o2 h2; simpa using hL o2 (List.mem_cons_of_mem _ h2))
    refine ⟨dg2, ?_, g2, by simpa using l2, ?_⟩
    · rw [List.foldlM_cons, e1]
      exact e2
    · intro i d h
      by_cases hi : idx o = i
      · subst hi
        have hd : dg.diff[idx o] = d := by
          rw [List.getElem?_eq_getElem ho] at h
          exact Option.some.inj h
        obtain ⟨d2, q1, q2⟩ := p2 (idx o) (toInt8 (d + (if up then 1 else -1))) (by
          simp only
          rw [List.getElem?_set_self ho, hd])
        refine ⟨d2, q1, ?_⟩
        rw [q2, toInt8_add_toInt8]
        simp only [List.map_cons, List.sum_cons, if_true]
        congr 1; ring
      · obtain ⟨d2, q1, q2⟩ := p2 i d (by
          simp only
          rw [List.getElem?_set_ne hi]
          exact h)
        refine ⟨d2, q1, ?_⟩
        rw [q2]
        simp only [List.map_cons, List.sum_cons, if_neg hi]
        congr 1; ring

theorem sum_map_count_succ {α : Type} (L : List α) (p : α → Nat) (m : Nat → Nat)
    (f : Nat → Int) (j : Nat) :
    (L.map (fun o => ((m (p o) + (if p o = j then 1 else 0) : Nat) : Int) * f (p o))).sum =
      (L.map (fun o => (m (p o) : Int) * f (p o))).sum +
        f j * (L.map (fun o => if p o = j then (1 : Int) else 0)).sum := by
  induction L with
  | nil => simp
  | cons a L ih =>
    simp only [List.map_cons, List.sum_cons, ih]
    by_cases h : p a = j
    · rw [if_pos h, if_pos h, h]; push_cast; ring
    · rw [if_neg h, if_neg h]; push_cast; ring

theorem div_add_mod_index (w j : Nat) : j / w * w + j % w = j := by
  rw [Nat.mul_comm]; exact Nat.div_add_mod j w

theorem CountInv_step (old : List Bool) (G : List Nat) (D0 : List Int) (w h : Nat)
    (hold : old.length = w * h) (hG : G.length = w * h) (hn : w * h < 9223372036854775808)
    (m : Nat → Nat) (j : Nat) (hj : j < w * h) (st : List Bool × DiffGrid)
    (hinv : CountInv old G D0 w h m st) :
    ∃ st2, iterateCell old w h (j / w) st (j % w) = some st2 ∧
      CountInv old G D0 w h (fun t => m t + (if t = j then 1 else 0)) st2 := by
  obtain ⟨i1, i2, i3, i4, i5⟩ := hinv
  have hw := (dims_pos w h j hj).1
  have hy : j / w < h := div_lt_height w h j hj
  have hx : j % w < w := Nat.mod_lt _ hw
  have hjj := div_add_mod_index w j
  have hc := cellIndex_eq w h (j / w) (j % w) hy hx hn
  rw [hjj] at hc
  have hg : st.2.grid[cellIndex w (j / w) (j % w)]? = some (G.getD j 0) := by
    rw [hc, i2, List.getD_eq_getElem?_getD, List.getElem?_eq_getElem (by omega)]; rfl
  have hb : old[cellIndex w (j / w) (j % w)]? = some (old.getD j false) := by
    rw [hc, List.getD_eq_getElem?_getD, List.getElem?_eq_getElem (by omega)]; rfl
  have e := iterateCell_eq old w h (j / w) (j % w) st _ _ hg hb (by rw [hc]; omega)
  rw [hc] at e
  change iterateCell old w h (j / w) st (j % w) =
    if (ruleAt old G j != old.getD j false) = true then
      (changeNeighbours w h (j / w) (j % w) (ruleAt old G j) st.2).bind
        (fun dg => some (st.1.set j (ruleAt old G j), dg))
    else some (st.1.set j (ruleAt old G j), st.2) at e
  have hnew : ∀ t : Nat, 0 < m t + (if t = j then 1 else 0) →
      (st.1.set j (ruleAt old G j))[t]? = some (ruleAt old G t) := by
    intro t ht
    by_cases htj : t = j
    · subst htj
      rw [List.getElem?_set_self (by omega)]
    · rw [List.getElem?_set_ne (fun hc => htj hc.symm)]
      rw [if_neg htj] at ht
      exact i4 t (by omega)
  have hidx : ∀ i : Nat,
      (offsets.map (fun o => if neighbourIndex w h (j / w) (j % w) o = i then (1 : Int) else 0)).sum =
        (offsets.map (fun o => if nbr w h j o = i then (1 : Int) else 0)).sum := by
    intro i
    refine congrArg List.sum (List.map_congr_left ?_)
    intro o ho
    rw [neighbourIndex_eq w h (j / w) (j % w) o ho hy hx hn, hjj]
  by_cases hf : (ruleAt old G j != old.getD j false) = true
  · rw [if_pos hf] at e
    obtain ⟨dg2, c1, c2, c3, c4⟩ := change_fold_cong (neighbourIndex w h (j / w) (j % w))
      (ruleAt old G j) offsets st.2 (by
        intro o ho
        rw [neighbourIndex_eq w h (j / w) (j % w) o ho hy hx hn, hjj, i3]
        exact nbr_lt w h _ o hj)
    have c1b : changeNeighbours w h (j / w) (j % w) (ruleAt old G j) st.2 = some dg2 := c1
    rw [c1b] at e
    refine ⟨_, e, by simpa using i1, by rw [← i2]; exact c2, by rw [← i3]; exact c3,
      hnew, ?_⟩
    intro i d0 hi hd0
    obtain ⟨d, q1, q2⟩ := i5 i d0 hi hd0
    obtain ⟨d2, r1, r2⟩ := c4 i d q1
    refine ⟨d2, r1, ?_⟩
    rw [r2, toInt8_congr_add _ _ _ q2, sum_map_count_succ, hidx,
      ← flipAt_of_flip old G j hf, nbr_count_symm w h j i hj hi, add_assoc]
  · rw [if_neg hf] at e
    refine ⟨_, e, by simpa using i1, i2, i3, hnew, ?_⟩
    intro i d0 hi hd0
    obtain ⟨d, q1, q2⟩ := i5 i d0 hi hd0
    refine ⟨d, q1, ?_⟩
    rw [q2, sum_map_count_succ, flipAt_of_keep old G j hf]
    simp

theorem CountInv_congr (old : List Bool) (G : List Nat) (D0 : List Int) (w h : Nat)
    (m1 m2 : Nat → Nat) (hm : ∀ t, m1 t = m2 t) (st : List Bool × DiffGrid)
    (hinv : CountInv old G D0 w h m1 st) : CountInv old G D0 w h m2 st := by
  have : m1 = m2 := funext hm
  rw [← this]; exact hinv

theorem CountInv_init (old new0 : List Bool) (dg : DiffGrid) (w h : Nat)
    (hnew : new0.length = w * h) (hD : dg.diff.length = w * h) :
    CountInv old dg.grid dg.diff w h (fun _ => 0) (new0, dg) := by
  refine ⟨hnew, rfl, hD, by intro t ht; simp at ht, ?_⟩
  intro i d0 _ hd0
  refine ⟨d0, hd0, ?_⟩
  have : (offsets.map (fun o => (((fun _ => 0) (nbr w h i o) : Nat) : Int) *
      flipAt old dg.grid (nbr w h i o))).sum = 0 := by
    simp
  rw [this, add_zero]

theorem CountInv_foldl (old : List Bool) (G : List Nat) (D0 : List Int) (w h : Nat)
    (hold : old.length = w * h) (hG : G.length = w * h) (hn : w * h < 9223372036854775808)
    (L : List Nat) (hL : ∀ j ∈ L, j < w * h) (m : Nat → Nat) (st : List Bool × DiffGrid)
    (hinv : CountInv old G D0 w h m st) :
    ∃ st2, L.foldlM (fun st j => iterateCell old w h (j / w) st (j % w)) st = some st2 ∧
      CountInv old G D0 w h (fun t => m t + L.count t) st2 := by
  induction L generalizing m st with
  | nil => exact ⟨st, by simp, by simpa using hinv⟩
  | cons a L ih =>
    obtain ⟨s1, e1, p1⟩ := CountInv_step old G D0 w h hold hG hn m a
      (hL a (List.mem_cons_self _ _)) st hinv
    obtain ⟨s2, e2, p2⟩ := ih (fun j hj => hL j (List.mem_cons_of_mem _ hj)) _ s1 p1
    refine ⟨s2, ?_, ?_⟩
    · rw [List.foldlM_cons, e1]
      exact e2
    · refine CountInv_congr old G D0 w h _ _ ?_ s2 p2
      intro t
      rw [List.count_cons]
      by_cases hta : t = a
      · subst hta; simp; omega
      · have : ¬ (a == t) = true := by simpa using fun hc => hta hc.symm
        rw [if_neg hta, if_neg this]
        omega

theorem CountInv_rows (old new0 : List Bool) (dg : DiffGrid) (w h : Nat)
    (hold : old.length = w * h) (hnew : new0.length = w * h) (hG : dg.grid.length = w * h)
    (hD : dg.diff.length = w * h) (hn : w * h < 9223372036854775808) :
    ∃ st, iterateRows old w h h (new0, dg) = some st ∧
      CountInv old dg.grid dg.diff w h (fun t => if t < w * h then 1 else 0) st := by
  obtain ⟨s1, e1, p1⟩ := rows_inv (fun y st x => iterateCell old w h y st x)
    (fun k st => CountInv old dg.grid dg.diff w h (fun t => if t < k then 1 else 0) st)
    w h h (new0, dg) (le_refl h)
    (CountInv_congr old dg.grid dg.diff w h _ _ (by intro t; simp) _
      (CountInv_init old new0 dg w h hnew hD))
    (by
      intro y x s hy hx hp
      have hj := mul_add_lt w h y x hy hx
      obtain ⟨s2, e2, p2⟩ := CountInv_step old dg.grid dg.diff w h hold hG hn _ (y * w + x) hj s hp
      rw [div_mul_add w y x hx, mod_mul_add w y x hx] at e2
      refine ⟨s2, e2, CountInv_congr old dg.grid dg.diff w h _ _ ?_ s2 p2⟩
      intro t
      by_cases h1 : t < y * w + x
      · rw [if_pos h1, if_neg (by omega), if_pos (by omega)]
      · by_cases h2 : t = y * w + x
        · rw [if_neg h1, if_pos h2, if_pos (by omega)]
        · rw [if_neg h1, if_neg h2, if_neg (by omega)])
  rw [Nat.mul_comm h w] at p1
  exact ⟨s1, e1, p1⟩

theorem CountInv_final (old : List Bool) (dg : DiffGrid) (w h : Nat)
    (hG : dg.grid.length = w * h) (hD : dg.diff.length = w * h)
    (m : Nat → Nat) (hm : ∀ t, t < w * h → m t = 1) (st : List Bool × DiffGrid)
    (hinv : CountInv old dg.grid dg.diff w h m st) :
    ∃ dg2, st.2.merge = some dg2 ∧ (st.1, dg2) = stepResult old dg w h := by
  obtain ⟨i1, i2, i3, i4, i5⟩ := hinv
  obtain ⟨dg2, e, m1, m2, m3, _⟩ := merge_spec st.2 (by rw [i2, hG, i3])
  refine ⟨dg2, e, ?_⟩
  have h1 : st.1 = (List.range (w * h)).map (ruleAt old dg.grid) := by
    apply List.ext_getElem?
    intro t
    by_cases ht : t < w * h
    · rw [i4 t (by rw [hm t ht]; omega), List.getElem?_map, List.getElem?_range ht]
      rfl
    · rw [List.getElem?_eq_none (by omega), List.getElem?_eq_none (by simp; omega)]
  have h2 : dg2.grid = (List.range (w * h)).map (fun i =>
      toUint8 ((dg.grid.getD i 0 : Int) +
        toUint8 (dg.diff.getD i 0 + pend old dg.grid w h (w * h) i))) := by
    apply List.ext_getElem?
    intro i
    by_cases hi : i < w * h
    · have a1 : st.2.grid[i]? = some (dg.grid.getD i 0) := by
        rw [i2, List.getD_eq_getElem?_getD, List.getElem?_eq_getElem (by omega)]; rfl
      have a0 : dg.diff[i]? = some (dg.diff.getD i 0) := by
        rw [List.getD_eq_getElem?_getD, List.getElem?_eq_getElem (by omega)]; rfl
      obtain ⟨d, q1, q2⟩ := i5 i _ hi a0
      have hs : (offsets.map (fun o => (m (nbr w h i o) : Int) *
          flipAt old dg.grid (nbr w h i o))).sum = pend old dg.grid w h (w * h) i := by
        unfold pend
        refine congrArg List.sum (List.map_congr_left ?_)
        intro o _
        have hlt := nbr_lt w h i o hi
        rw [hm _ hlt, if_pos hlt]; simp
      rw [hs] at q2
      rw [(m3 i _ _ a1 q1).1, List.getElem?_map, List.getElem?_range hi,
        toUint8_of_toInt8_eq _ _ q2]
      rfl
    · rw [List.getElem?_eq_none (by rw [m1, i2, hG]; omega),
        List.getElem?_eq_none (by simp; omega)]
  have h3 : dg2.diff = List.replicate (w * h) 0 := by
    apply List.ext_getElem?
    intro i
    by_cases hi : i < w * h
    · have a1 : i < st.2.grid.length := by rw [i2, hG]; exact hi
      have a2 : i < st.2.diff.length := by rw [i3]; exact hi
      rw [(m3 i _ _ (List.getElem?_eq_getElem a1) (List.getElem?_eq_getElem a2)).2,
        List.getElem?_replicate, if_pos hi]
    · rw [List.getElem?_eq_none (by rw [m2, i3]; omega),
        List.getElem?_eq_none (by simp; omega)]
  unfold stepResult
  rw [h1]
  cases dg2 with
  | mk g d =>
    simp only at h2 h3
    rw [h2, h3]

theorem count_of_perm_range (n : Nat) (L : List Nat) (hp : L.Perm (List.range n)) (t : Nat)
    (ht : t < n) : L.count t = 1 := by
  rw [hp.count_eq]
  exact List.count_eq_one_of_mem (List.nodup_range n) (List.mem_range.2 ht)

/-- On buffers of `w*h` cells `iterateGrids` returns the closed form `stepResult`,
whatever the stale contents of the new buffer. -/
theorem iterateGrids_eq_stepResult (old new0 : List Bool) (dg : DiffGrid) (w h : Nat)
    (hold : old.length = w * h) (hnew : new0.length = w * h) (hG : dg.grid.length = w * h)
    (hD : dg.diff.length = w * h) (hn : w * h < 9223372036854775808) :
    iterateGrids old new0 dg w h = some (stepResult old dg w h) := by
  obtain ⟨st, e1, inv⟩ := CountInv_rows old new0 dg w h hold hnew hG hD hn
  obtain ⟨dg2, e2, e3⟩ := CountInv_final old dg w h hG hD _
    (fun t ht => by rw [if_pos ht]) st inv
  unfold iterateGrids
  rw [e1]
  simp only [Option.bind_eq_bind, Option.some_bind, e2, Option.pure_def]
  rw [e3]

/-- On buffers of `w*h` cells the cell loop in any order that is a permutation of the
indices, followed by `merge`, returns the closed form `stepResult`. -/
theorem iterateInOrder_eq_stepResult (old new0 : List Bool) (dg : DiffGrid) (w h : Nat)
    (hold : old.length = w * h) (hnew : new0.length = w * h) (hG : dg.grid.length = w * h)
    (hD : dg.diff.length = w * h) (hn : w * h < 9223372036854775808)
    (order : List Nat) (hp : order.Perm (List.range (w * h))) :
    iterateInOrder old new0 dg w h order = some (stepResult old dg w h) := by
  obtain ⟨st, e1, inv⟩ := CountInv_foldl old dg.grid dg.diff w h hold hG hn order
    (fun j hj => List.mem_range.1 (hp.mem_iff.1 hj)) _ (new0, dg)
    (CountInv_init old new0 dg w h hnew hD)
  obtain ⟨dg2, e2, e3⟩ := CountInv_final old dg w h hG hD _
    (fun t ht => by simp only [Nat.zero_add]; exact count_of_perm_range _ order hp t ht) st inv
  unfold iterateInOrder
  rw [e1]
  simp only [Option.bind_eq_bind, Option.some_bind, e2, Option.pure_def]
  rw [e3]

/-! ## Agreement of the two embeddings -/

theorem foldlM_toOption {σ α ε : Type} (fE : σ → α → Except ε σ) (f : σ → α → Option σ)
    (hf : ∀ s a, (fE s a).toOption = f s a) (L : List α) (s : σ) :
    (L.foldlM fE s).toOption = L.foldlM f s := by
  induction L generalizing s with
  | nil => rfl
  | cons a L ih =>
    rw [List.foldlM_cons, List.foldlM_cons, ← hf s a]
    cases h : fE s a with
    | error e => rfl
    | ok s1 => exact ih s1

theorem changeE_toOption (dg : DiffGrid) (i : Nat) (up : Bool) :
    (dg.changeE i up).toOption = dg.change i up := by
  unfold DiffGrid.changeE DiffGrid.change
  cases dg.diff[i]? with
  | none => rfl
  | some d => cases up <;> rfl

theorem mergeAtE_toOption (dg : DiffGrid) (i : Nat) :
    (dg.mergeAtE i).toOption = dg.mergeAt i := by
  unfold DiffGrid.mergeAtE DiffGrid.mergeAt
  cases dg.grid[i]? with
  | none => rfl
  | some g =>
    cases dg.diff[i]? with
    | none => rfl
    | some d => rfl

theorem mergeE_toOption (dg : DiffGrid) : dg.mergeE.toOption = dg.merge :=
  foldlM_toOption _ _ mergeAtE_toOption _ dg

theorem changeNeighboursE_toOption (w h y x : Nat) (nv : Bool) (dg : DiffGrid) :
    (changeNeighboursE w h y x nv dg).toOption = changeNeighbours w h y x nv dg :=
  foldlM_toOption _ _ (fun s _ => changeE_toOption s _ nv) _ dg

theorem iterateCellE_toOption (old : List Bool) (w h y : Nat) (st : List Bool × DiffGrid)
    (x : Nat) : (iterateCellE old w h y st x).toOption = iterateCell old w h y st x := by
  unfold iterateCellE iterateCell DiffGrid.getOld writeAt
  cases st.2.grid[cellIndex w y x]? with
  | none => rfl
  | some g =>
    cases old[cellIndex w y x]? with
    | none => rfl
    | some b =>
      by_cases h3 : cellIndex w y x < st.1.length
      · simp only [Option.bind_eq_bind, Option.some_bind, h3, if_true, Option.pure_def]
        by_cases hf : (lifeRule b g != b) = true
        · rw [if_pos hf, if_pos hf, ← changeNeighboursE_toOption]
          cases changeNeighboursE w h y x (lifeRule b g) st.2 with
          | error e => rfl
          | ok d => rfl
        · rw [if_neg hf, if_neg hf]
          rfl
      · simp only [Option.bind_eq_bind, Option.some_bind, h3, if_false, Option.none_bind]
        rfl

theorem iterateGridsE_toOption (old new0 : List Bool) (dg : DiffGrid) (w h : Nat) :
    (iterateGridsE old new0 dg w h).toOption = iterateGrids old new0 dg w h := by
  have hrows : ∀ st, ((List.range h).foldlM (fun st y =>
      (List.range w).foldlM (iterateCellE old w h y) st) st).toOption =
      iterateRows old w h h st := by
    intro st
    unfold iterateRows
    refine foldlM_toOption _ _ ?_ _ st
    intro s y
    unfold iterateRow
    exact foldlM_toOption _ _ (fun s x => iterateCellE_toOption old w h y s x) _ s
  unfold iterateGridsE iterateGrids
  rw [← hrows]
  cases (List.range h).foldlM (fun st y =>
      (List.range w).foldlM (iterateCellE old w h y) st) (new0, dg) with
  | error e => rfl
  | ok st =>
    simp only [Except.toOption, Option.bind_eq_bind, Option.some_bind]
    rw [← mergeE_toOption]
    cases st.2.mergeE with
    | error e => rfl
    | ok d => rfl

theorem ok_of_toOption {ε α : Type} (e : Except ε α) (a : α) (h : e.toOption = some a) :
    e = Except.ok a := by
  cases e with
  | error x => exact Option.noConfusion h
  | ok b =>
    simp only [Except.toOption, Option.some.injEq] at h
    rw [h]

theorem foldlM_range_fail {σ : Type} (f : σ → Nat → Option σ) (n : Nat) (s : σ)
    (hn : 0 < n) (hf : f s 0 = none) : (List.range n).foldlM f s = none := by
  cases n with
  | zero => omega
  | succ k =>
    rw [List.range_succ_eq_map, List.foldlM_cons, hf]
    rfl

theorem stepResult_written (old : List Bool) (dg : DiffGrid) (w h i : Nat) (hi : i < w * h) :
    (stepResult old dg w h).1[i]? = some (lifeRule (old.getD i false) (dg.grid.getD i 0)) ∧
      (stepResult old dg w h).2.diff[i]? = some 0 := by
  unfold stepResult
  constructor
  · simp only
    rw [List.getElem?_map, List.getElem?_range hi]
    rfl
  · simp only
    rw [List.getElem?_replicate, if_pos hi]

/-! ## The two buffers -/

theorem read_store_same (m : Buffers) (p : Bool) (s : List Bool) : (m.store p s).read p = s := by
  cases p <;> rfl

theorem read_store_other (m : Buffers) (p q : Bool) (s : List Bool) (h : q ≠ p) :
    (m.store p s).read q = m.read q := by
  cases p <;> cases q <;> first | rfl | exact absurd rfl h

theorem store_store (m : Buffers) (p : Bool) (s t : List Bool) :
    (m.store p s).store p t = m.store p t := by
  cases p <;> rfl

theorem store_read (m : Buffers) (p : Bool) : m.store p (m.read p) = m := by
  cases p <;> rfl

theorem foldlM_map_sim {σ τ α : Type} (φ : σ → τ) (f : σ → α → Option σ)
    (g : τ → α → Option τ) (hfg : ∀ s a, g (φ s) a = (f s a).map φ) (L : List α) (s : σ) :
    L.foldlM g (φ s) = (L.foldlM f s).map φ := by
  induction L generalizing s with
  | nil => rfl
  | cons a L ih =>
    rw [List.foldlM_cons, List.foldlM_cons, hfg s a]
    cases f s a with
    | none => rfl
    | some s1 => exact ih s1

theorem iterateCellP_sim (oldP newP : Bool) (hne : oldP ≠ newP) (m : Buffers) (w h y : Nat)
    (st : List Bool × DiffGrid) (x : Nat) :
    iterateCellP oldP newP w h y (m.store newP st.1, st.2) x =
      (iterateCell (m.read oldP) w h y st x).map (fun r => (m.store newP r.1, r.2)) := by
  unfold iterateCellP iterateCell DiffGrid.getOld writeAt
  simp only [read_store_same, read_store_other m newP oldP st.1 hne, store_store]
  cases st.2.grid[cellIndex w y x]? with
  | none => rfl
  | some g =>
    cases (m.read oldP)[cellIndex w y x]? with
    | none => rfl
    | some b =>
      by_cases h3 : cellIndex w y x < st.1.length
      · simp only [Option.bind_eq_bind, Option.some_bind, h3, if_true, Option.pure_def]
        by_cases hf : (lifeRule b g != b) = true
        · simp only [hf, if_true]
          cases changeNeighbours w h y x (lifeRule b g) st.2 with
          | none => rfl
          | some d => rfl
        · simp only [hf, if_false]
          rfl
      · simp only [Option.bind_eq_bind, Option.some_bind, h3, if_false, Option.none_bind]
        rfl

/-- When the two pointers differ, `iterateGrids` on the two buffers is `iterateGrids` on
the buffer contents: the buffer behind `oldGrid` is returned as it was. -/
theorem iterateGridsP_eq (oldP newP : Bool) (hne : oldP ≠ newP) (m : Buffers) (dg : DiffGrid)
    (w h : Nat) :
    iterateGridsP oldP newP m dg w h =
      (iterateGrids (m.read oldP) (m.read newP) dg w h).map
        (fun r => (m.store newP r.1, r.2)) := by
  have hrows : ∀ st : List Bool × DiffGrid,
      (List.range h).foldlM (fun st y =>
        (List.range w).foldlM (iterateCellP oldP newP w h y) st) (m.store newP st.1, st.2) =
      (iterateRows (m.read oldP) w h h st).map (fun r => (m.store newP r.1, r.2)) := by
    intro st
    unfold iterateRows
    refine foldlM_map_sim (fun r => (m.store newP r.1, r.2)) _ _ ?_ _ st
    intro s y
    unfold iterateRow
    exact foldlM_map_sim (fun r => (m.store newP r.1, r.2)) _ _
      (fun s x => iterateCellP_sim oldP newP hne m w h y s x) _ s
  have h0 := hrows (m.read newP, dg)
  simp only [store_read] at h0
  unfold iterateGridsP iterateGrids
  rw [h0]
  cases iterateRows (m.read oldP) w h h (m.read newP, dg) with
  | none => rfl
  | some st =>
    simp only [Option.map_some', Option.bind_eq_bind, Option.some_bind]
    cases st.2.merge with
    | none => rfl
    | some d => rfl

/-! ## The calls of `wrapIndex` -/

theorem foldT_fst {σ α : Type} (f : σ → α → Option σ × List (Int × Nat))
    (g : σ → α → Option σ) (hfg : ∀ s a, (f s a).1 = g s a) (L : List α) (s : σ) :
    (foldT f L s).1 = L.foldlM g s := by
  induction L generalizing s with
  | nil => rfl
  | cons a L ih =>
    rw [List.foldlM_cons, ← hfg s a]
    unfold foldT
    cases h : (f s a).1 with
    | none => rfl
    | some s1 => exact ih s1

theorem foldT_calls {σ α : Type} (f : σ → α → Option σ × List (Int × Nat))
    (P : Int × Nat → Prop) (L : List α)
    (hP : ∀ s a, a ∈ L → ∀ call ∈ (f s a).2, P call) (s : σ) :
    ∀ call ∈ (foldT f L s).2, P call := by
  induction L generalizing s with
  | nil =>
    intro call hc
    simp [foldT] at hc
  | cons a L ih =>
    intro call hc
    unfold foldT at hc
    cases h : (f s a).1 with
    | none =>
      rw [h] at hc
      exact hP s a (List.mem_cons_self _ _) call hc
    | some s1 =>
      rw [h] at hc
      simp only [List.mem_append] at hc
      rcases hc with hc | hc
      · exact hP s a (List.mem_cons_self _ _) call hc
      · exact ih (fun s2 a2 ha2 => hP s2 a2 (List.mem_cons_of_mem _ ha2)) s1 call hc

theorem neighbourIndexT_fst (w h y x : Nat) (o : Int × Int) :
    (neighbourIndexT w h y x o).1 = neighbourIndex w h y x o := by
  simp only [neighbourIndexT, wrapIndexT, neighbourIndex]

theorem neighbourIndexT_calls (w h y x : Nat) (o : Int × Int) (hy : y < h) (hx : x < w)
    (ho : o ∈ offsets) : ∀ call ∈ (neighbourIndexT w h y x o).2, unitStepCall call := by
  have hr : (o.1 = -1 ∨ o.1 = 0 ∨ o.1 = 1) ∧ (o.2 = -1 ∨ o.2 = 0 ∨ o.2 = 1) := by
    have hb := offsets_range o ho
    omega
  intro call hc
  simp only [neighbourIndexT, wrapIndexT, List.cons_append, List.nil_append, List.mem_cons,
    List.mem_singleton, List.not_mem_nil, or_false] at hc
  rcases hc with e | e
  · subst e
    exact ⟨y, o.2, hy, hr.2, rfl⟩
  · subst e
    exact ⟨x, o.1, hx, hr.1, rfl⟩

theorem countLiveNeighboursT_fst (g : List Bool) (w h y x : Nat) :
    (countLiveNeighboursT g w h y x).1 = countLiveNeighbours g w h y x := by
  unfold countLiveNeighboursT countLiveNeighbours
  refine foldT_fst _ _ ?_ offsets 0
  intro s o
  simp only [neighbourIndexT_fst, Option.bind_eq_bind, Option.pure_def]

theorem countLiveNeighboursT_calls (g : List Bool) (w h y x : Nat) (hy : y < h) (hx : x < w) :
    ∀ call ∈ (countLiveNeighboursT g w h y x).2, unitStepCall call :=
  foldT_calls _ unitStepCall offsets
    (fun _ o ho => neighbourIndexT_calls w h y x o hy hx ho) 0

theorem seedCellT_fst (g : List Bool) (w h y : Nat) (lng : List Nat) (x : Nat) :
    (seedCellT g w h y lng x).1 = seedCell g w h y lng x := by
  unfold seedCellT seedCell
  rw [countLiveNeighboursT_fst]
  rfl

theorem makeLiveNeighboursGridT_fst (g : List Bool) (w h : Nat) :
    (makeLiveNeighboursGridT g w h).1 = makeLiveNeighboursGrid g w h := by
  unfold makeLiveNeighboursGridT makeLiveNeighboursGrid
  cases makeSlice (toUint ((w : Int) * h)) (0 : Nat) with
  | none => rfl
  | some lng =>
    simp only [Option.bind_eq_bind, Option.some_bind]
    refine foldT_fst _ _ ?_ _ lng
    intro s y
    exact foldT_fst _ _ (fun s2 x => seedCellT_fst g w h y s2 x) _ s

theorem makeLiveNeighboursGridT_calls (g : List Bool) (w h : Nat) :
    ∀ call ∈ (makeLiveNeighboursGridT g w h).2, unitStepCall call := by
  unfold makeLiveNeighboursGridT
  cases makeSlice (toUint ((w : Int) * h)) (0 : Nat) with
  | none =>
    intro call hc
    simp at hc
  | some lng =>
    refine foldT_calls _ unitStepCall _ ?_ lng
    intro s y hy
    refine foldT_calls _ unitStepCall _ ?_ s
    intro s2 x hx
    exact countLiveNeighboursT_calls g w h y x (List.mem_range.1 hy) (List.mem_range.1 hx)

theorem changeNeighboursT_fst (w h y x : Nat) (nv : Bool) (dg : DiffGrid) :
    (changeNeighboursT w h y x nv dg).1 = changeNeighbours w h y x nv dg := by
  unfold changeNeighboursT changeNeighbours
  refine foldT_fst _ _ ?_ offsets dg
  intro s o
  simp only [neighbourIndexT_fst]

theorem changeNeighboursT_calls (w h y x : Nat) (nv : Bool) (dg : DiffGrid) (hy : y < h)
    (hx : x < w) : ∀ call ∈ (changeNeighboursT w h y x nv dg).2, unitStepCall call :=
  foldT_calls _ unitStepCall offsets
    (fun _ o ho => neighbourIndexT_calls w h y x o hy hx ho) dg

theorem iterateCellT_fst (old : List Bool) (w h y : Nat) (st : List Bool × DiffGrid)
    (x : Nat) : (iterateCellT old w h y st x).1 = iterateCell old w h y st x := by
  unfold iterateCellT iterateCell
  cases st.2.getOld (cellIndex w y x) with
  | none => rfl
  | some g =>
    cases old[cellIndex w y x]? with
    | none => rfl
    | some b =>
      cases hwr : writeAt st.1 (cellIndex w y x) (lifeRule b g) with
      | none =>
        simp only [Option.bind_eq_bind, Option.some_bind, hwr, Option.none_bind]
      | some ng =>
        simp only [Option.bind_eq_bind, Option.some_bind, hwr, Option.pure_def]
        by_cases hf : (lifeRule b g != b) = true
        · rw [if_pos hf, if_pos hf, changeNeighboursT_fst]
        · rw [if_neg hf, if_neg hf]

theorem iterateCellT_calls (old : List Bool) (w h y : Nat) (st : List Bool × DiffGrid)
    (x : Nat) (hy : y < h) (hx : x < w) :
    ∀ call ∈ (iterateCellT old w h y st x).2, unitStepCall call := by
  unfold iterateCellT
  cases st.2.getOld (cellIndex w y x) with
  | none => intro call hc; simp at hc
  | some g =>
    cases old[cellIndex w y x]? with
    | none => intro call hc; simp at hc
    | some b =>
      cases hwr : writeAt st.1 (cellIndex w y x) (lifeRule b g) with
      | none => intro call hc; simp only [hwr, List.not_mem_nil] at hc
      | some ng =>
        by_cases hf : (lifeRule b g != b) = true
        · simp only [hwr, if_pos hf]
          exact changeNeighboursT_calls w h y x _ st.2 hy hx
        · simp only [hwr, if_neg hf]
          intro call hc; simp only [List.not_mem_nil] at hc

theorem iterateGridsT_fst (old new0 : List Bool) (dg : DiffGrid) (w h : Nat) :
    (iterateGridsT old new0 dg w h).1 = iterateGrids old new0 dg w h := by
  have hrows : (iterateRowsT old w h (new0, dg)).1 = iterateRows old w h h (new0, dg) := by
    unfold iterateRowsT iterateRows
    refine foldT_fst _ _ ?_ _ _
    intro s y
    unfold iterateRow
    exact foldT_fst _ _ (fun s2 x => iterateCellT_fst old w h y s2 x) _ s
  unfold iterateGridsT iterateGrids
  rw [hrows]
  cases iterateRows old w h h (new0, dg) with
  | none => rfl
  | some st =>
    simp only [Option.bind_eq_bind, Option.some_bind, Option.pure_def]

theorem iterateGridsT_calls (old new0 : List Bool) (dg : DiffGrid) (w h : Nat) :
    ∀ call ∈ (iterateGridsT old new0 dg w h).2, unitStepCall call := by
  unfold iterateGridsT iterateRowsT
  refine foldT_calls _ unitStepCall _ ?_ _
  intro s y hy
  refine foldT_calls _ unitStepCall _ ?_ s
  intro s2 x hx
  exact iterateCellT_calls old w h y s2 x (List.mem_range.1 hy) (List.mem_range.1 hx)

theorem foldT_range_first {σ : Type} (f : σ → Nat → Option σ × List (Int × Nat)) (n : Nat)
    (hn : 0 < n) (s : σ) (call : Int × Nat) (h : call ∈ (f s 0).2) :
    call ∈ (foldT f (List.range n) s).2 := by
  obtain ⟨m, rfl⟩ : ∃ m, n = m + 1 := ⟨n - 1, by omega⟩
  rw [List.range_succ_eq_map]
  unfold foldT
  cases hf : (f s 0).1 with
  | none => exact h
  | some s1 => exact List.mem_append_left _ h

theorem unitStepCall_modulo (call : Int × Nat) (hcall : unitStepCall call) :
    ∃ (c : Nat) (delta : Int), c < call.2 ∧ (delta = -1 ∨ delta = 0 ∨ delta = 1) ∧
      call.1 = toInt (toInt (c : Int) + delta) ∧
      (call.2 < 9223372036854775808 →
        call.1 = (c : Int) + delta ∧ -1 ≤ call.1 ∧ call.1 ≤ call.2 ∧
        ((wrapIndex call.1 call.2 : Nat) : Int) = ((c : Int) + delta) % (call.2 : Int)) := by
  obtain ⟨c, delta, hc, hdelta, harg⟩ := hcall
  refine ⟨c, delta, hc, hdelta, harg, ?_⟩
  intro hlt
  have e : toInt (toInt (c : Int) + delta) = (c : Int) + delta := by
    rw [toInt_of_range (c : Int) (by omega) (by omega),
      toInt_of_range _ (by omega) (by omega)]
  have hw := wrapIndex_eq_torus c call.2 delta hc hlt (by omega) (by omega)
  rw [harg, hw, torus_cast c delta call.2 (by omega), e]
  exact ⟨rfl, by omega, by omega, rfl⟩

/-! ## Claims: order, failure, edge cases, safety -/

/-- C11 (order independence). On buffers of `width*height` cells, applying the per-cell
body of `iterateGrids` to the cells in any order that is a permutation of the
`width*height` indices and then calling `merge` returns, with the same new grid and the
same DiffGrid as the row-major loops of `iterateGrids`. -/
theorem iterate_order_independent (oldGrid newGrid : List Bool) (dg : DiffGrid)
    (width height : Nat) (hold : oldGrid.length = width * height)
    (hnew : newGrid.length = width * height) (hG : dg.grid.length = width * height)
    (hD : dg.diff.length = width * height) (hn : width * height < 9223372036854775808)
    (order : List Nat) (hp : order.Perm (List.range (width * height))) :
    ∃ r, iterateGrids oldGrid newGrid dg width height = some r ∧
      iterateInOrder oldGrid newGrid dg width height order = some r :=
  ⟨stepResult oldGrid dg width height,
    iterateGrids_eq_stepResult oldGrid newGrid dg width height hold hnew hG hD hn,
    iterateInOrder_eq_stepResult oldGrid newGrid dg width height hold hnew hG hD hn order hp⟩

theorem iterate_order_independent_witness :
    ∃ r, iterateGrids [true, true, false, true, false, false]
        [false, false, false, false, false, false]
        ⟨[3, 3, 4, 4, 5, 5], [0, 0, 0, 0, 0, 0]⟩ 3 2 = some r ∧
      iterateInOrder [true, true, false, true, false, false]
        [false, false, false, false, false, false]
        ⟨[3, 3, 4, 4, 5, 5], [0, 0, 0, 0, 0, 0]⟩ 3 2 [5, 3, 1, 0, 2, 4] = some r :=
  iterate_order_independent [true, true, false, true, false, false]
    [false, false, false, false, false, false] ⟨[3, 3, 4, 4, 5, 5], [0, 0, 0, 0, 0, 0]⟩ 3 2
    (by decide) (by decide) (by decide) (by decide) (by decide) [5, 3, 1, 0, 2, 4] (by decide)

/-- C12, the claim as stated fails: with `width = 2`, `height = 1` and a new buffer of
one cell, `iterateGrids` writes cell 0 and its eight deltas, then panics on the write of
cell 1; at the panic `newGrid` is `[true]`, not `[false]`, and `diff` is `[2, 6]`, not
`[0, 0]`. -/
theorem iterateGrids_partial_failure_counterexample :
    iterateGridsE [false, false] [false] ⟨[3, 0], [0, 0]⟩ 2 1 =
        Except.error ([true], ⟨[3, 0], [2, 6]⟩) ∧
      iterateGrids [false, false] [false] ⟨[3, 0], [0, 0]⟩ 2 1 = none ∧
      ([true] : List Bool) ≠ [false] ∧ ([2, 6] : List Int) ≠ [0, 0] :=
  ⟨rfl, rfl, by decide, by decide⟩

/-- C12 as amended. On slices of `width*height` cells a call of `iterateGrids` completes:
every cell `i` of `newGrid` is written with the value the rule gives and the DiffGrid is
merged (every `diff[i]` zero). -/
theorem iterateGrids_completes (oldGrid newGrid : List Bool) (dg : DiffGrid)
    (width height : Nat) (hold : oldGrid.length = width * height)
    (hnew : newGrid.length = width * height) (hG : dg.grid.length = width * height)
    (hD : dg.diff.length = width * height) (hn : width * height < 9223372036854775808) :
    ∃ r, iterateGridsE oldGrid newGrid dg width height = Except.ok r ∧
      r.1.length = width * height ∧ r.2.grid.length = width * height ∧
      r.2.diff.length = width * height ∧
      ∀ i : Nat, i < width * height →
        r.1[i]? = some (lifeRule (oldGrid.getD i false) (dg.grid.getD i 0)) ∧
        r.2.diff[i]? = some 0 := by
  have e := iterateGrids_eq_stepResult oldGrid newGrid dg width height hold hnew hG hD hn
  rw [← iterateGridsE_toOption] at e
  refine ⟨stepResult oldGrid dg width height, ok_of_toOption _ _ e, ?_, ?_, ?_, ?_⟩
  · simp [stepResult]
  · simp [stepResult]
  · simp [stepResult]
  · intro i hi
    exact stepResult_written oldGrid dg width height i hi

theorem iterateGrids_completes_witness :
    ∃ r, iterateGridsE [false, false] [false, true] ⟨[3, 0], [0, 0]⟩ 2 1 = Except.ok r ∧
      r.1.length = 2 * 1 ∧ r.2.grid.length = 2 * 1 ∧ r.2.diff.length = 2 * 1 ∧
      ∀ i : Nat, i < 2 * 1 →
        r.1[i]? = some (lifeRule ([false, false].getD i false) ([3, 0].getD i 0)) ∧
        r.2.diff[i]? = some 0 :=
  iterateGrids_completes [false, false] [false, true] ⟨[3, 0], [0, 0]⟩ 2 1 (by decide)
    (by decide) (by decide) (by decide) (by decide)

/-- C13 (1x1 edge case). With `width = height = 1` every offset leads back to cell 0;
`makeLiveNeighboursGrid` returns `[8]` for a live cell and `[0]` for a dead one; one
`iterateGrids` step from either seeded state gives a dead cell with committed count 0
and `diff` 0; and when the live cell dies the pending delta goes down by one per offset,
to exactly `-8` before `merge`. -/
theorem single_cell_grid :
    (∀ o ∈ offsets, neighbourIndex 1 1 0 0 o = 0) ∧
    makeLiveNeighboursGrid [true] 1 1 = some [8] ∧
    makeLiveNeighboursGrid [false] 1 1 = some [0] ∧
    (∀ b : Bool, iterateGrids [true] [b] ⟨[8], [0]⟩ 1 1 = some ([false], ⟨[0], [0]⟩)) ∧
    (∀ b : Bool, iterateGrids [false] [b] ⟨[0], [0]⟩ 1 1 = some ([false], ⟨[0], [0]⟩)) ∧
    (∀ b : Bool, iterateUpTo [true] [b] ⟨[8], [0]⟩ 1 1 0 1 = some ([false], ⟨[8], [-8]⟩)) ∧
    (∀ m : Nat, m < 9 →
      ((offsets.take m).foldlM
        (fun (dg : DiffGrid) o => dg.change (neighbourIndex 1 1 0 0 o) false)
        (⟨[8], [0]⟩ : DiffGrid)).map DiffGrid.diff = some [-(m : Int)]) := by
  refine ⟨by decide, rfl, rfl, ?_, ?_, ?_, by decide⟩
  · intro b; cases b <;> rfl
  · intro b; cases b <;> rfl
  · intro b; cases b <;> rfl

/-- C17, the claim as stated fails: `d = 2^64 - 1` is at least 1 and `n = 1` lies in
`[-1, d]`, yet `wrapIndex(1, d)` is `0` while `1 mod d` is `1`.  Such a call is made:
on a grid of width 2 and height `2^63 + 1` (two cells, as `width*height` wraps to 2)
`makeLiveNeighboursGrid` calls `wrapIndex(1, 2^63 + 1)` at its first cell, which returns
`0` while `1 mod (2^63 + 1)` is `1`. -/
theorem wrapIndex_modulo_counterexample :
    1 ≤ 18446744073709551615 ∧ (-1 : Int) ≤ 1 ∧ (1 : Int) ≤ 18446744073709551615 ∧
      wrapIndex 1 18446744073709551615 = 0 ∧ (1 : Int) % 18446744073709551615 = 1 ∧
      ((1 : Int), 9223372036854775809) ∈
        (makeLiveNeighboursGridT [false, false] 2 9223372036854775809).2 ∧
      wrapIndex 1 9223372036854775809 = 0 ∧ (1 : Int) % 9223372036854775809 = 1 := by
  refine ⟨by decide, by decide, by decide, by decide, by decide, ?_, by decide, by decide⟩
  have hs : makeSlice (toUint (((2 : Nat) : Int) * (9223372036854775809 : Nat))) (0 : Nat) =
      some [0, 0] := by decide
  unfold makeLiveNeighboursGridT
  rw [hs]
  refine foldT_range_first _ _ (by decide) _ _ ?_
  refine foldT_range_first _ _ (by decide) _ _ ?_
  decide

/-- C17 as amended (true modulo on the arguments the callers pass, below `2^63`). For
every `d` with `1 ≤ d ≤ 2^63` and every `int` `n` with `-1 ≤ n ≤ d`, `wrapIndex(n, d)`
is the mathematical `n mod d`; every entry of `offsets` is in `{-1, 0, 1}`; and with
every call of `wrapIndex` recorded, `makeLiveNeighboursGrid` and `iterateGrids` return
what they return without the record, and every call they make, up to a panic if there is
one, is `wrapIndex(int(c) + delta, d)` with `0 ≤ c < d` and `delta` in `{-1, 0, 1}`,
where for `d < 2^63` the argument is the integer `c + delta`, in `[-1, d]`, and the
result is `(c + delta) mod d`. -/
theorem wrapIndex_true_modulo (d : Nat) (hd : 1 ≤ d) (hd2 : d ≤ 9223372036854775808) :
    (∀ n : Int, -1 ≤ n → n ≤ d → n < 9223372036854775808 →
      ((wrapIndex n d : Nat) : Int) = n % (d : Int)) ∧
    (∀ o ∈ offsets, (o.1 = -1 ∨ o.1 = 0 ∨ o.1 = 1) ∧ (o.2 = -1 ∨ o.2 = 0 ∨ o.2 = 1)) ∧
    (∀ (sourceGrid oldGrid newGrid : List Bool) (liveNeighboursGrid : DiffGrid)
        (width height : Nat),
      (makeLiveNeighboursGridT sourceGrid width height).1 =
        makeLiveNeighboursGrid sourceGrid width height ∧
      (iterateGridsT oldGrid newGrid liveNeighboursGrid width height).1 =
        iterateGrids oldGrid newGrid liveNeighboursGrid width height ∧
      ∀ call ∈ (makeLiveNeighboursGridT sourceGrid width height).2 ++
          (iterateGridsT oldGrid newGrid liveNeighboursGrid width height).2,
        ∃ (c : Nat) (delta : Int), c < call.2 ∧ (delta = -1 ∨ delta = 0 ∨ delta = 1) ∧
          call.1 = toInt (toInt (c : Int) + delta) ∧
          (call.2 < 9223372036854775808 →
            call.1 = (c : Int) + delta ∧ -1 ≤ call.1 ∧ call.1 ≤ call.2 ∧
            ((wrapIndex call.1 call.2 : Nat) : Int) =
              ((c : Int) + delta) % (call.2 : Int))) := by
  have e3 : toUint ((d : Int) - 1) = d - 1 := by unfold toUint; omega
  have e4 : toInt ((d - 1 : Nat) : Int) = (d : Int) - 1 := by
    rw [toInt_of_range _ (by omega) (by omega)]; omega
  refine ⟨?_, ?_, ?_⟩
  · intro n h1 h2 h3
    unfold wrapIndex
    rw [e3, e4]
    by_cases hneg : n < 0
    · rw [if_pos hneg]
      have hn : n = -1 := by omega
      rw [hn]
      have : ((-1 : Int)) % (d : Int) = (d : Int) - 1 := by
        have := Int.add_mul_emod_self (a := -1) (b := 1) (c := (d : Int))
        rw [← this, Int.emod_eq_of_lt (by omega) (by omega)]; ring
      rw [this]; omega
    · rw [if_neg hneg]
      by_cases hbig : n > (d : Int) - 1
      · rw [if_pos hbig]
        have hn : n = d := by omega
        rw [hn, Int.emod_self]; rfl
      · rw [if_neg hbig, Int.emod_eq_of_lt (by omega) (by omega)]
        unfold toUint; omega
  · intro o ho
    simp only [offsets, List.mem_cons, List.mem_singleton, List.not_mem_nil, or_false] at ho
    rcases ho with h | h | h | h | h | h | h | h <;> subst h <;> simp
  · intro sourceGrid oldGrid newGrid liveNeighboursGrid width height
    refine ⟨makeLiveNeighboursGridT_fst sourceGrid width height,
      iterateGridsT_fst oldGrid newGrid liveNeighboursGrid width height, ?_⟩
    intro call hcall
    rcases List.mem_append.1 hcall with hc | hc
    · exact unitStepCall_modulo call
        (makeLiveNeighboursGridT_calls sourceGrid width height call hc)
    · exact unitStepCall_modulo call
        (iterateGridsT_calls oldGrid newGrid liveNeighboursGrid width height call hc)

theorem wrapIndex_true_modulo_witness :
    ((wrapIndex (-1) 7 : Nat) : Int) = (-1) % ((7 : Nat) : Int) ∧
    (makeLiveNeighboursGridT [true] 1 1).2 =
      [(-1, 1), (-1, 1), (-1, 1), (0, 1), (-1, 1), (1, 1), (0, 1), (-1, 1), (0, 1), (1, 1),
        (1, 1), (-1, 1), (1, 1), (0, 1), (1, 1), (1, 1)] ∧
    (iterateGridsT [true] [false] ⟨[8], [0]⟩ 1 1).2 =
      [(-1, 1), (-1, 1), (-1, 1), (0, 1), (-1, 1), (1, 1), (0, 1), (-1, 1), (0, 1), (1, 1),
        (1, 1), (-1, 1), (1, 1), (0, 1), (1, 1), (1, 1)] ∧
    (∀ call ∈ (makeLiveNeighboursGridT [true] 1 1).2 ++
        (iterateGridsT [true] [false] ⟨[8], [0]⟩ 1 1).2,
      ∃ (c : Nat) (delta : Int), c < call.2 ∧ (delta = -1 ∨ delta = 0 ∨ delta = 1) ∧
        call.1 = toInt (toInt (c : Int) + delta) ∧
        (call.2 < 9223372036854775808 →
          call.1 = (c : Int) + delta ∧ -1 ≤ call.1 ∧ call.1 ≤ call.2 ∧
          ((wrapIndex call.1 call.2 : Nat) : Int) =
            ((c : Int) + delta) % (call.2 : Int))) :=
  ⟨(wrapIndex_true_modulo 7 (by decide) (by decide)).1 (-1) (by decide) (by decide)
      (by decide),
    by decide, by decide,
    ((wrapIndex_true_modulo 7 (by decide) (by decide)).2.2 [true] [true] [false]
      ⟨[8], [0]⟩ 1 1).2.2⟩

/-- C18 (the new buffer is written, never read). For two new buffers of `width*height`
cells with arbitrary contents and the same `oldGrid` and DiffGrid, the two calls of
`iterateGrids` return the same new grid and the same DiffGrid, and every cell of the new
grid holds the value the rule gives from `oldGrid` and the committed counts.  On the two
buffers of `main`, with `oldGrid` and `newGrid` pointing to different buffers, the call
returns with the buffer behind `oldGrid` unchanged and that same new grid behind
`newGrid`. -/
theorem iterateGrids_ignores_newGrid (oldGrid newGridA newGridB : List Bool) (dg : DiffGrid)
    (width height : Nat) (hold : oldGrid.length = width * height)
    (hnewA : newGridA.length = width * height) (hnewB : newGridB.length = width * height)
    (hG : dg.grid.length = width * height) (hD : dg.diff.length = width * height)
    (hn : width * height < 9223372036854775808) :
    ∃ r, iterateGrids oldGrid newGridA dg width height = some r ∧
      iterateGrids oldGrid newGridB dg width height = some r ∧
      r.1.length = width * height ∧
      (∀ i : Nat, i < width * height →
        r.1[i]? = some (lifeRule (oldGrid.getD i false) (dg.grid.getD i 0))) ∧
      (∀ (oldP newP : Bool) (m : Buffers), oldP ≠ newP → m.read oldP = oldGrid →
        (m.read newP).length = width * height →
        ∃ m2, iterateGridsP oldP newP m dg width height = some (m2, r.2) ∧
          m2.read oldP = oldGrid ∧ m2.read newP = r.1) := by
  refine ⟨stepResult oldGrid dg width height,
    iterateGrids_eq_stepResult oldGrid newGridA dg width height hold hnewA hG hD hn,
    iterateGrids_eq_stepResult oldGrid newGridB dg width height hold hnewB hG hD hn,
    by simp [stepResult],
    fun i hi => (stepResult_written oldGrid dg width height i hi).1, ?_⟩
  intro oldP newP m hne hm hlen
  refine ⟨m.store newP (stepResult oldGrid dg width height).1, ?_, ?_, ?_⟩
  · rw [iterateGridsP_eq oldP newP hne m dg width height, hm,
      iterateGrids_eq_stepResult oldGrid (m.read newP) dg width height hold hlen hG hD hn]
    rfl
  · rw [read_store_other m newP oldP _ hne, hm]
  · exact read_store_same m newP _

theorem iterateGrids_ignores_newGrid_witness :
    ∃ r, iterateGrids [true, true, false, true, false, false]
        [false, false, false, false, false, false]
        ⟨[3, 3, 4, 4, 5, 5], [0, 0, 0, 0, 0, 0]⟩ 3 2 = some r ∧
      iterateGrids [true, true, false, true, false, false]
        [true, false, true, true, false, true]
        ⟨[3, 3, 4, 4, 5, 5], [0, 0, 0, 0, 0, 0]⟩ 3 2 = some r ∧
      r.1.length = 3 * 2 ∧
      (∀ i : Nat, i < 3 * 2 →
        r.1[i]? = some (lifeRule ([true, true, false, true, false, false].getD i false)
          ([3, 3, 4, 4, 5, 5].getD i 0))) ∧
      (∀ (oldP newP : Bool) (m : Buffers), oldP ≠ newP →
        m.read oldP = [true, true, false, true, false, false] →
        (m.read newP).length = 3 * 2 →
        ∃ m2, iterateGridsP oldP newP m ⟨[3, 3, 4, 4, 5, 5], [0, 0, 0, 0, 0, 0]⟩ 3 2
            = some (m2, r.2) ∧
          m2.read oldP = [true, true, false, true, false, false] ∧ m2.read newP = r.1) :=
  iterateGrids_ignores_newGrid [true, true, false, true, false, false]
    [false, false, false, false, false, false] [true, false, true, true, false, true]
    ⟨[3, 3, 4, 4, 5, 5], [0, 0, 0, 0, 0, 0]⟩ 3 2
    (by decide) (by decide) (by decide) (by decide) (by decide) (by decide)

theorem seed_fails_on_empty (w h : Nat) (hw : 0 < w) (hh : 0 < h)
    (hz : toUint ((w : Int) * h) = 0) : makeLiveNeighboursGrid [] w h = none := by
  have h1 : seedCell [] w h 0 [] 0 = none := by
    unfold seedCell countLiveNeighbours offsets
    rw [List.foldlM_cons, List.getElem?_nil]
    rfl
  have h2 : (List.range w).foldlM (seedCell [] w h 0) [] = none :=
    foldlM_range_fail (seedCell [] w h 0) w [] hw h1
  have h3 : (List.range h).foldlM
      (fun lng y => (List.range w).foldlM (seedCell [] w h y) lng) ([] : List Nat) = none :=
    foldlM_range_fail (fun lng y => (List.range w).foldlM (seedCell [] w h y) lng) h [] hh h2
  unfold makeLiveNeighboursGrid makeSlice
  rw [hz, if_pos (by decide)]
  exact h3

theorem iterate_fails_on_empty (w h : Nat) (hw : 0 < w) (hh : 0 < h) :
    iterateGrids [] [] ⟨[], []⟩ w h = none := by
  have h1 : iterateCell [] w h 0 (([] : List Bool), (⟨[], []⟩ : DiffGrid)) 0 = none := by
    unfold iterateCell DiffGrid.getOld
    rw [List.getElem?_nil]
    rfl
  have h2 : iterateRow [] w h 0 w (([] : List Bool), (⟨[], []⟩ : DiffGrid)) = none :=
    foldlM_range_fail (iterateCell [] w h 0) w _ hw h1
  have h3 : iterateRows [] w h h (([] : List Bool), (⟨[], []⟩ : DiffGrid)) = none :=
    foldlM_range_fail (fun st y => iterateRow [] w h y w st) h _ hh h2
  unfold iterateGrids
  rw [h3]
  rfl

/-- C19, the claim as stated fails: for `width = height = 2^32` the `uint` product
`width*height` is 0, so empty slices have length `width*height`; the loops still run,
and the first access of `makeLiveNeighboursGrid` and of `iterateGrids` is out of
range. -/
theorem index_safety_overflow_counterexample :
    toUint (((4294967296 : Nat) : Int) * ((4294967296 : Nat) : Int)) =
        ([] : List Bool).length ∧
      makeLiveNeighboursGrid [] 4294967296 4294967296 = none ∧
      iterateGrids [] [] ⟨[], []⟩ 4294967296 4294967296 = none :=
  ⟨by decide,
    seed_fails_on_empty 4294967296 4294967296 (by decide) (by decide) (by decide),
    iterate_fails_on_empty 4294967296 4294967296 (by decide) (by decide)⟩

/-- C19 as amended (index safety). For every width and height, zero included, whose
product is below `2^63` (the `uint` product does not wrap and is the length of a slice):
when the source grid, `oldGrid`, `newGrid` and the `grid` and `diff` of the DiffGrid all
have length `width*height`, every neighbour index
`wrapIndex(y+dy,height)*width + wrapIndex(x+dx,width)` is below `width*height`, and
`makeLiveNeighboursGrid`, `iterateGrids` and `merge` return without an out-of-range
access. -/
theorem index_safety (g oldGrid newGrid : List Bool) (dg : DiffGrid) (width height : Nat)
    (hg : g.length = width * height) (hold : oldGrid.length = width * height)
    (hnew : newGrid.length = width * height) (hG : dg.grid.length = width * height)
    (hD : dg.diff.length = width * height) (hn : width * height < 9223372036854775808) :
    (∀ (y x : Nat) (o : Int × Int), y < height → x < width → o ∈ offsets →
      neighbourIndex width height y x o < width * height ∧
      cellIndex width y x < width * height) ∧
    (∃ cs, makeLiveNeighboursGrid g width height = some cs) ∧
    (∃ r, iterateGrids oldGrid newGrid dg width height = some r) ∧
    (∃ r, iterateGridsE oldGrid newGrid dg width height = Except.ok r) ∧
    (∃ dg2, dg.merge = some dg2) := by
  refine ⟨?_, ?_, ?_, ?_, ?_⟩
  · intro y x o hy hx ho
    have hlt := mul_add_lt width height y x hy hx
    rw [neighbourIndex_eq width height y x o ho hy hx hn,
      cellIndex_eq width height y x hy hx hn]
    exact ⟨nbr_lt width height _ o hlt, hlt⟩
  · obtain ⟨cs, e, _⟩ := seed_spec g width height hg hn
    exact ⟨cs, e⟩
  · exact ⟨_, iterateGrids_eq_stepResult oldGrid newGrid dg width height hold hnew hG hD hn⟩
  · have e := iterateGrids_eq_stepResult oldGrid newGrid dg width height hold hnew hG hD hn
    rw [← iterateGridsE_toOption] at e
    exact ⟨_, ok_of_toOption _ _ e⟩
  · obtain ⟨dg2, e, _⟩ := merge_spec dg (by omega)
    exact ⟨dg2, e⟩

theorem index_safety_witness :
    ∃ cs, makeLiveNeighboursGrid [true, true, false, true, false, false] 3 2 = some cs :=
  (index_safety [true, true, false, true, false, false]
    [true, true, false, true, false, false] [false, false, false, false, false, false]
    ⟨[3, 3, 4, 4, 5, 5], [0, 0, 0, 0, 0, 0]⟩ 3 2
    (by decide) (by decide) (by decide) (by decide) (by decide) (by decide)).2.1

/-! ## Translation on the torus -/

theorem torus_torus (c : Nat) (d1 d2 : Int) (m : Nat) (hm : 0 < m) :
    torus (torus c d1 m) d2 m = torus c (d1 + d2) m := by
  have h1 := torus_cast (torus c d1 m) d2 m hm
  have h2 := torus_cast c d1 m hm
  have h3 := torus_cast c (d1 + d2) m hm
  rw [h2, Int.emod_add_emod, add_assoc, ← h3] at h1
  exact_mod_cast h1

theorem shiftIndex_lt (w h : Nat) (a b : Int) (j : Nat) (hj : j < w * h) :
    shiftIndex w h a b j < w * h := by
  obtain ⟨hw, hh⟩ := dims_pos w h j hj
  unfold shiftIndex
  exact mul_add_lt w h _ _ (torus_lt _ _ _ hh) (torus_lt _ _ _ hw)

theorem shiftIndex_nbr (w h : Nat) (a b : Int) (j : Nat) (o : Int × Int) (hj : j < w * h) :
    shiftIndex w h a b (nbr w h j o) = nbr w h (shiftIndex w h a b j) o := by
  obtain ⟨hw, hh⟩ := dims_pos w h j hj
  unfold shiftIndex nbr
  rw [div_mul_add w _ _ (torus_lt _ _ _ hw), mod_mul_add w _ _ (torus_lt _ _ _ hw),
    div_mul_add w _ _ (torus_lt _ _ _ hw), mod_mul_add w _ _ (torus_lt _ _ _ hw),
    torus_torus _ _ _ _ hh, torus_torus _ _ _ _ hw, torus_torus _ _ _ _ hh,
    torus_torus _ _ _ _ hw, add_comm o.2, add_comm o.1]

theorem shiftGrid_length {α : Type} (dflt : α) (w h : Nat) (a b : Int) (g : List α) :
    (shiftGrid dflt w h a b g).length = w * h := by
  simp [shiftGrid]

theorem shiftGrid_getElem? {α : Type} (dflt : α) (w h : Nat) (a b : Int) (g : List α)
    (j : Nat) (hj : j < w * h) :
    (shiftGrid dflt w h a b g)[j]? = some (g.getD (shiftIndex w h a b j) dflt) := by
  unfold shiftGrid
  rw [List.getElem?_map, List.getElem?_range hj]
  rfl

theorem shiftGrid_getD {α : Type} (dflt : α) (w h : Nat) (a b : Int) (g : List α)
    (j : Nat) (hj : j < w * h) :
    (shiftGrid dflt w h a b g).getD j dflt = g.getD (shiftIndex w h a b j) dflt := by
  rw [List.getD_eq_getElem?_getD, shiftGrid_getElem? dflt w h a b g j hj]
  rfl

theorem liveCountAt_shift (g : List Bool) (w h : Nat) (a b : Int) (j : Nat) (hj : j < w * h) :
    liveCountAt (shiftGrid false w h a b g) w h j =
      liveCountAt g w h (shiftIndex w h a b j) := by
  rw [liveCount_eq_nbr, liveCount_eq_nbr]
  apply List.countP_congr
  intro o _
  rw [lookup_eq_getD, lookup_eq_getD, shiftGrid_getD false w h a b g _ (nbr_lt w h j o hj),
    shiftIndex_nbr w h a b j o hj]

theorem bruteStep_getElem? (g : List Bool) (w h j : Nat) (hj : j < w * h) :
    (bruteStep g w h)[j]? =
      some (lifeRule (g.getD j false) (liveCountAt g w h j)) := by
  unfold bruteStep
  rw [List.getElem?_map, List.getElem?_range hj, lifeRule_eq]
  rfl

theorem bruteStep_length (g : List Bool) (w h : Nat) : (bruteStep g w h).length = w * h := by
  simp [bruteStep]

theorem bruteStep_shift (g : List Bool) (w h : Nat) (a b : Int) :
    bruteStep (shiftGrid false w h a b g) w h = shiftGrid false w h a b (bruteStep g w h) := by
  apply List.ext_getElem?
  intro j
  by_cases hj : j < w * h
  · have hs := shiftIndex_lt w h a b j hj
    rw [bruteStep_getElem? _ w h j hj, shiftGrid_getElem? false w h a b _ j hj,
      shiftGrid_getD false w h a b g j hj, liveCountAt_shift g w h a b j hj,
      List.getD_eq_getElem?_getD (l := bruteStep g w h), bruteStep_getElem? g w h _ hs]
    rfl
  · rw [List.getElem?_eq_none (by rw [bruteStep_length]; omega),
      List.getElem?_eq_none (by rw [shiftGrid_length]; omega)]

/-- Seeding and one step, in terms of the brute-force step: the new grid is
`bruteStep g` and the committed counts are its true counts. -/
theorem seed_step_spec (g new0 : List Bool) (w h : Nat) (hg : g.length = w * h)
    (hnew : new0.length = w * h) (hn : w * h < 9223372036854775808) :
    ∃ cs r, makeLiveNeighboursGrid g w h = some cs ∧
      iterateGrids g new0 ⟨cs, List.replicate (w * h) 0⟩ w h = some r ∧
      r.1 = bruteStep g w h ∧ r.2.grid.length = w * h ∧ cs.length = w * h ∧
      (∀ i : Nat, i < w * h → cs[i]? = some (liveCountAt g w h i)) ∧
      (∀ i : Nat, i < w * h → r.2.grid[i]? = some (liveCountAt (bruteStep g w h) w h i)) := by
  obtain ⟨cs, e, c1, c2⟩ := seed_spec g w h hg hn
  obtain ⟨r, er, r1, r2, _, r4, _, r6⟩ := iterateGrids_counts g new0
    ⟨cs, List.replicate (w * h) 0⟩ w h hg hnew c1 (by simp) hn
    (by intro i hi; simp [List.getElem?_replicate, hi]) c2
  have hb : r.1 = bruteStep g w h := step_eq_bruteStep g r.1 cs w h r1 c2 r4
  refine ⟨cs, r, e, er, hb, r2, c1, c2, ?_⟩
  intro i hi
  rw [← hb]
  exact r6 i hi

/-- C20 (translation equivariance on the torus). For width and height at least 1, every
shift `(a, b)` and every boolean grid `g` of `width*height` cells: seeding and stepping
the shifted grid returns, and so does seeding and stepping `g`; the new grid of the
first is the new grid of the second shifted by `(a, b)`, and so are the committed
counts after the step and the seeded counts. -/
theorem seed_step_shift (g newGridA newGridB : List Bool) (width height : Nat) (a b : Int)
    (_hw : 1 ≤ width) (_hh : 1 ≤ height) (hg : g.length = width * height)
    (hnewA : newGridA.length = width * height) (hnewB : newGridB.length = width * height)
    (hn : width * height < 9223372036854775808) :
    ∃ cs1 r1 cs2 r2,
      makeLiveNeighboursGrid (shiftGrid false width height a b g) width height = some cs1 ∧
      iterateGrids (shiftGrid false width height a b g) newGridA
        ⟨cs1, List.replicate (width * height) 0⟩ width height = some r1 ∧
      makeLiveNeighboursGrid g width height = some cs2 ∧
      iterateGrids g newGridB ⟨cs2, List.replicate (width * height) 0⟩ width height = some r2 ∧
      r1.1 = shiftGrid false width height a b r2.1 ∧
      r1.2.grid = shiftGrid 0 width height a b r2.2.grid ∧
      cs1 = shiftGrid 0 width height a b cs2 := by
  obtain ⟨cs1, r1, e1, f1, b1, l1, q1, c1, k1⟩ := seed_step_spec
    (shiftGrid false width height a b g) newGridA width height
    (shiftGrid_length _ _ _ _ _ _) hnewA hn
  obtain ⟨cs2, r2, e2, f2, b2, l2, _, c2, k2⟩ :=
    seed_step_spec g newGridB width height hg hnewB hn
  refine ⟨cs1, r1, cs2, r2, e1, f1, e2, f2, ?_, ?_, ?_⟩
  · rw [b1, b2]
    exact bruteStep_shift g width height a b
  · apply List.ext_getElem?
    intro j
    by_cases hj : j < width * height
    · have hs := shiftIndex_lt width height a b j hj
      rw [k1 j hj, shiftGrid_getElem? 0 width height a b _ j hj, List.getD_eq_getElem?_getD,
        k2 _ hs, bruteStep_shift, liveCountAt_shift _ width height a b j hj]
      rfl
    · rw [List.getElem?_eq_none (by omega),
        List.getElem?_eq_none (by rw [shiftGrid_length]; omega)]
  · apply List.ext_getElem?
    intro j
    by_cases hj : j < width * height
    · have hs := shiftIndex_lt width height a b j hj
      rw [c1 j hj, shiftGrid_getElem? 0 width height a b _ j hj, List.getD_eq_getElem?_getD,
        c2 _ hs, liveCountAt_shift _ width height a b j hj]
      rfl
    · rw [List.getElem?_eq_none (by omega),
        List.getElem?_eq_none (by rw [shiftGrid_length]; omega)]

theorem seed_step_shift_witness :
    ∃ cs1 r1 cs2 r2,
      makeLiveNeighboursGrid
        (shiftGrid false 3 2 1 (-1) [true, true, false, true, false, false]) 3 2 = some cs1 ∧
      iterateGrids (shiftGrid false 3 2 1 (-1) [true, true, false, true, false, false])
        [false, false, false, false, false, false]
        ⟨cs1, List.replicate (3 * 2) 0⟩ 3 2 = some r1 ∧
      makeLiveNeighboursGrid [true, true, false, true, false, false] 3 2 = some cs2 ∧
      iterateGrids [true, true, false, true, false, false]
        [true, true, true, true, true, true] ⟨cs2, List.replicate (3 * 2) 0⟩ 3 2 = some r2 ∧
      r1.1 = shiftGrid false 3 2 1 (-1) r2.1 ∧
      r1.2.grid = shiftGrid 0 3 2 1 (-1) r2.2.grid ∧
      cs1 = shiftGrid 0 3 2 1 (-1) cs2 :=
  seed_step_shift [true, true, false, true, false, false]
    [false, false, false, false, false, false] [true, true, true, true, true, true] 3 2 1 (-1)
    (by decide) (by decide) (by decide) (by decide) (by decide) (by decide)

/-! ## Patterns away from the seam evolve as on the plane -/

theorem torus_of_range (c : Nat) (delta : Int) (d : Nat) (h0 : 0 ≤ (c : Int) + delta)
    (h1 : (c : Int) + delta < d) : ((torus c delta d : Nat) : Int) = (c : Int) + delta := by
  rw [torus_cast c delta d (by omega), Int.emod_eq_of_lt h0 h1]

theorem torus_below (c : Nat) (delta : Int) (d : Nat) (hd : 0 < d)
    (h0 : (c : Int) + delta = -1) : torus c delta d = d - 1 := by
  have h := torus_cast c delta d hd
  rw [h0] at h
  have : ((-1 : Int)) % (d : Int) = (d : Int) - 1 := by
    have := Int.add_mul_emod_self (a := -1) (b := 1) (c := (d : Int))
    rw [← this, Int.emod_eq_of_lt (by omega) (by omega)]; ring
  rw [this] at h
  omega

theorem torus_above (c : Nat) (delta : Int) (d : Nat) (hd : 0 < d)
    (h0 : (c : Int) + delta = d) : torus c delta d = 0 := by
  have h := torus_cast c delta d hd
  rw [h0, Int.emod_self] at h
  omega

/-- For a step of at most one, the wrapped coordinate is the plain one, or the last
position after a step below zero, or position zero after a step beyond the end. -/
theorem torus_step (c : Nat) (delta : Int) (d : Nat) (hc : c < d) (h1 : -1 ≤ delta)
    (h2 : delta ≤ 1) :
    (((torus c delta d : Nat) : Int) = (c : Int) + delta ∧ 0 ≤ (c : Int) + delta ∧
        (c : Int) + delta < d) ∨
      (torus c delta d = d - 1 ∧ (c : Int) + delta = -1) ∨
      (torus c delta d = 0 ∧ (c : Int) + delta = d) := by
  by_cases ha : (c : Int) + delta < 0
  · right; left
    exact ⟨torus_below c delta d (by omega) (by omega), by omega⟩
  · by_cases hb : (c : Int) + delta < d
    · left
      exact ⟨torus_of_range c delta d (by omega) hb, by omega, hb⟩
    · right; right
      exact ⟨torus_above c delta d (by omega) (by omega), by omega⟩

theorem contains_iff_mem (cells : List (Nat × Nat)) (p : Nat × Nat) :
    cells.contains p = true ↔ p ∈ cells := List.elem_iff

theorem cellsGrid_length (cells : List (Nat × Nat)) (w h : Nat) :
    (cellsGrid cells w h).length = w * h := by
  simp [cellsGrid]

theorem cellsGrid_getElem? (cells : List (Nat × Nat)) (w h j : Nat) (hj : j < w * h) :
    (cellsGrid cells w h)[j]? = some (cells.contains (j % w, j / w)) := by
  unfold cellsGrid
  rw [List.getElem?_map, List.getElem?_range hj]
  rfl

theorem cellsGrid_getD (cells : List (Nat × Nat)) (w h j : Nat) (hj : j < w * h) :
    (cellsGrid cells w h).getD j false = cells.contains (j % w, j / w) := by
  rw [List.getD_eq_getElem?_getD, cellsGrid_getElem? cells w h j hj]
  rfl

theorem contains_eq_any_plane (cells : List (Nat × Nat)) (w h x y : Nat) (o : Int × Int)
    (ho : o ∈ offsets) (hx : x < w) (hy : y < h)
    (hin : ∀ c ∈ cells, 1 ≤ c.1 ∧ c.1 + 2 ≤ w ∧ 1 ≤ c.2 ∧ c.2 + 2 ≤ h) :
    cells.contains (torus x o.1 w, torus y o.2 h) =
      cells.any (fun c =>
        decide ((c.1 : Int) = (x : Int) + o.1 ∧ (c.2 : Int) = (y : Int) + o.2)) := by
  obtain ⟨a1, a2, a3, a4⟩ := offsets_range o ho
  have sx := torus_step x o.1 w hx a1 a2
  have sy := torus_step y o.2 h hy a3 a4
  rw [Bool.eq_iff_iff]
  simp only [contains_iff_mem, List.any_eq_true, decide_eq_true_eq]
  constructor
  · intro hm
    have hb := hin _ hm
    simp only at hb
    refine ⟨_, hm, ?_, ?_⟩
    · simp only
      rcases sx with s | s | s <;> omega
    · simp only
      rcases sy with s | s | s <;> omega
  · rintro ⟨c, hc, e1, e2⟩
    have hb := hin c hc
    have t1 : torus x o.1 w = c.1 := by
      rcases sx with s | s | s <;> omega
    have t2 : torus y o.2 h = c.2 := by
      rcases sy with s | s | s <;> omega
    rw [t1, t2]
    exact hc

theorem liveCountAt_cellsGrid (cells : List (Nat × Nat)) (w h j : Nat) (hj : j < w * h)
    (hin : ∀ c ∈ cells, 1 ≤ c.1 ∧ c.1 + 2 ≤ w ∧ 1 ≤ c.2 ∧ c.2 + 2 ≤ h) :
    liveCountAt (cellsGrid cells w h) w h j = planeCount cells (j % w) (j / w) := by
  obtain ⟨hw, hh⟩ := dims_pos w h j hj
  rw [liveCount_eq_nbr]
  unfold planeCount
  apply List.countP_congr
  intro o ho
  have hx : j % w < w := Nat.mod_lt _ hw
  have hy : j / w < h := div_lt_height w h j hj
  rw [lookup_eq_getD, cellsGrid_getD cells w h _ (nbr_lt w h j o hj)]
  unfold nbr
  rw [div_mul_add w _ _ (torus_lt _ _ _ hw), mod_mul_add w _ _ (torus_lt _ _ _ hw),
    contains_eq_any_plane cells w h _ _ o ho hx hy hin]

theorem bruteStep_cellsGrid (cells : List (Nat × Nat)) (w h : Nat)
    (hin : ∀ c ∈ cells, 1 ≤ c.1 ∧ c.1 + 2 ≤ w ∧ 1 ≤ c.2 ∧ c.2 + 2 ≤ h) (j : Nat)
    (hj : j < w * h) :
    (bruteStep (cellsGrid cells w h) w h)[j]? = some (planeRule cells (j % w) (j / w)) := by
  rw [bruteStep_getElem? _ w h j hj, cellsGrid_getD cells w h j hj,
    liveCountAt_cellsGrid cells w h j hj hin]
  rfl

theorem planeRule_outside (cells : List (Nat × Nat)) (B x y : Nat)
    (hB : ∀ c ∈ cells, c.1 + 1 < B ∧ c.2 + 1 < B) (hxy : ¬ (x < B ∧ y < B)) :
    planeRule cells x y = false := by
  have h1 : cells.contains (x, y) = false := by
    rw [Bool.eq_false_iff]
    intro hc
    rw [contains_iff_mem] at hc
    have := hB _ hc
    simp only at this
    omega
  have h2 : planeCount cells x y = 0 := by
    unfold planeCount
    rw [List.countP_eq_zero]
    intro o ho
    obtain ⟨a1, a2, a3, a4⟩ := offsets_range o ho
    simp only [List.any_eq_true, decide_eq_true_eq, not_exists, not_and]
    intro c hc e1 e2
    have := hB c hc
    omega
  unfold planeRule lifeRule
  rw [h1, h2]
  rfl

/-- One brute-force step of a pattern that keeps clear of the first and last row and
column, checked on the cells below the bound `B`. -/
theorem pattern_step_plain (cells cells2 : List (Nat × Nat)) (B w h : Nat)
    (hin : ∀ c ∈ cells, 1 ≤ c.1 ∧ c.1 + 2 ≤ w ∧ 1 ≤ c.2 ∧ c.2 + 2 ≤ h)
    (hB : ∀ c ∈ cells, c.1 + 1 < B ∧ c.2 + 1 < B)
    (hcheck : ∀ x : Nat, x < B → ∀ y : Nat, y < B → planeRule cells x y = cells2.contains (x, y))
    (hB2 : ∀ c ∈ cells2, c.1 < B ∧ c.2 < B) :
    bruteStep (cellsGrid cells w h) w h = cellsGrid cells2 w h := by
  apply List.ext_getElem?
  intro j
  by_cases hj : j < w * h
  · rw [bruteStep_cellsGrid cells w h hin j hj, cellsGrid_getElem? cells2 w h j hj]
    refine congrArg some ?_
    by_cases hxy : j % w < B ∧ j / w < B
    · exact hcheck _ hxy.1 _ hxy.2
    · rw [planeRule_outside cells B _ _ hB hxy]
      symm
      rw [Bool.eq_false_iff]
      intro hc
      rw [contains_iff_mem] at hc
      have := hB2 _ hc
      simp only at this
      omega
  · rw [List.getElem?_eq_none (by rw [bruteStep_length]; omega),
      List.getElem?_eq_none (by rw [cellsGrid_length]; omega)]

theorem cellsGrid_shiftCells (cells : List (Nat × Nat)) (w h : Nat) (a b : Int)
    (hlt : ∀ c ∈ cells, c.1 < w ∧ c.2 < h) :
    cellsGrid (shiftCells w h a b cells) w h = shiftGrid false w h a b (cellsGrid cells w h) := by
  apply List.ext_getElem?
  intro j
  by_cases hj : j < w * h
  · obtain ⟨hw, hh⟩ := dims_pos w h j hj
    have hx : j % w < w := Nat.mod_lt _ hw
    have hy : j / w < h := div_lt_height w h j hj
    have hs := shiftIndex_lt w h a b j hj
    rw [cellsGrid_getElem? _ w h j hj, shiftGrid_getElem? false w h a b _ j hj,
      cellsGrid_getD cells w h _ hs]
    refine congrArg some ?_
    unfold shiftIndex
    rw [div_mul_add w _ _ (torus_lt _ _ _ hw), mod_mul_add w _ _ (torus_lt _ _ _ hw)]
    rw [Bool.eq_iff_iff]
    unfold shiftCells
    simp only [contains_iff_mem, List.mem_map, Prod.mk.injEq]
    constructor
    · rintro ⟨c, hc, e1, e2⟩
      have hb := hlt c hc
      have f1 := (torus_symm c.1 (j % w) w a hb.1 hx).1 e1
      have f2 := (torus_symm c.2 (j / w) h b hb.2 hy).1 e2
      rw [f1, f2]
      exact hc
    · intro hm
      have hb := hlt _ hm
      simp only at hb
      refine ⟨_, hm, ?_, ?_⟩
      · simp only
        exact (torus_symm _ (j % w) w a hb.1 hx).2 rfl
      · simp only
        exact (torus_symm _ (j / w) h b hb.2 hy).2 rfl
  · rw [List.getElem?_eq_none (by rw [cellsGrid_length]; omega),
      List.getElem?_eq_none (by rw [shiftGrid_length]; omega)]

/-- One brute-force step of a translated pattern: the canonical pattern `cells` keeps
clear of the first and last row and column and steps to `cells2` on the plane. -/
theorem pattern_step (cells cells2 : List (Nat × Nat)) (B w h : Nat) (a b : Int)
    (hin : ∀ c ∈ cells, 1 ≤ c.1 ∧ c.1 + 2 ≤ w ∧ 1 ≤ c.2 ∧ c.2 + 2 ≤ h)
    (hB : ∀ c ∈ cells, c.1 + 1 < B ∧ c.2 + 1 < B)
    (hcheck : ∀ x : Nat, x < B → ∀ y : Nat, y < B → planeRule cells x y = cells2.contains (x, y))
    (hB2 : ∀ c ∈ cells2, c.1 < B ∧ c.2 < B)
    (hlt2 : ∀ c ∈ cells2, c.1 < w ∧ c.2 < h) :
    bruteStep (cellsGrid (shiftCells w h a b cells) w h) w h =
      cellsGrid (shiftCells w h a b cells2) w h := by
  have hlt : ∀ c ∈ cells, c.1 < w ∧ c.2 < h := by
    intro c hc
    have := hin c hc
    omega
  rw [cellsGrid_shiftCells cells w h a b hlt, bruteStep_shift,
    pattern_step_plain cells cells2 B w h hin hB hcheck hB2,
    cellsGrid_shiftCells cells2 w h a b hlt2]

/-! ## Still life and oscillator -/

theorem torus_eq_mod (c : Nat) (delta : Int) (d m t : Nat)
    (h : (c : Int) + delta + (t : Int) * (d : Int) = (m : Int)) : torus c delta d = m % d := by
  unfold torus
  rw [← Int.add_mul_emod_self (a := (c : Int) + delta) (b := (t : Int)) (c := (d : Int)), h,
    ← Int.natCast_mod, Int.toNat_natCast]

theorem bruteRun_fixed (g : List Bool) (w h : Nat) (hfix : bruteStep g w h = g) (k : Nat) :
    bruteRun g w h k = g := by
  induction k with
  | zero => rfl
  | succ k ih =>
    show bruteStep (bruteRun g w h k) w h = g
    rw [ih, hfix]

theorem blockCells_eq (w h x0 y0 : Nat) (hx : x0 < w) (hy : y0 < h) :
    blockCells w h x0 y0 =
      shiftCells w h ((x0 : Int) - 1) ((y0 : Int) - 1) [(1, 1), (2, 1), (1, 2), (2, 2)] := by
  have a1 : torus 1 ((x0 : Int) - 1) w = x0 := by
    rw [torus_eq_mod 1 _ w x0 0 (by push_cast; ring), Nat.mod_eq_of_lt hx]
  have a2 : torus 2 ((x0 : Int) - 1) w = (x0 + 1) % w :=
    torus_eq_mod 2 _ w (x0 + 1) 0 (by push_cast; ring)
  have b1 : torus 1 ((y0 : Int) - 1) h = y0 := by
    rw [torus_eq_mod 1 _ h y0 0 (by push_cast; ring), Nat.mod_eq_of_lt hy]
  have b2 : torus 2 ((y0 : Int) - 1) h = (y0 + 1) % h :=
    torus_eq_mod 2 _ h (y0 + 1) 0 (by push_cast; ring)
  unfold blockCells shiftCells
  simp only [List.map_cons, List.map_nil, a1, a2, b1, b2]

theorem block_step (w h x0 y0 : Nat) (hw : 4 ≤ w) (hh : 4 ≤ h) (hx : x0 < w) (hy : y0 < h) :
    bruteStep (cellsGrid (blockCells w h x0 y0) w h) w h =
      cellsGrid (blockCells w h x0 y0) w h := by
  rw [blockCells_eq w h x0 y0 hx hy]
  refine pattern_step [(1, 1), (2, 1), (1, 2), (2, 2)] [(1, 1), (2, 1), (1, 2), (2, 2)] 4 w h
    _ _ ?_ (by decide) (by decide) (by decide) ?_
  · intro c hc
    simp only [List.mem_cons, List.mem_singleton, List.not_mem_nil, or_false] at hc
    rcases hc with e | e | e | e <;> subst e <;> simp only <;> omega
  · intro c hc
    simp only [List.mem_cons, List.mem_singleton, List.not_mem_nil, or_false] at hc
    rcases hc with e | e | e | e <;> subst e <;> simp only <;> omega

/-- C14 (still-life stability). For every width and height at least 4 and every
position `(x0, y0)` of a 2x2 block on the torus (the four block cells live, every other
cell dead), the loop of `main` reaches every step `k ≤ N`, and its main buffer then
equals the initial grid. -/
theorem block_still_life (width height x0 y0 : Nat) (hw : 4 ≤ width) (hh : 4 ≤ height)
    (hx : x0 < width) (hy : y0 < height) (hn : width * height < 9223372036854775808)
    (N k : Nat) (_hk : k ≤ N) :
    ∃ s, mainLoop (cellsGrid (blockCells width height x0 y0) width height) width height k
        = some s ∧
      s.mainGrid = cellsGrid (blockCells width height x0 y0) width height := by
  obtain ⟨s, e, p, _⟩ := mainLoop_inv (cellsGrid (blockCells width height x0 y0) width height)
    width height (cellsGrid_length _ _ _) hn k
  refine ⟨s, e, ?_⟩
  rw [p]
  exact bruteRun_fixed _ width height (block_step width height x0 y0 hw hh hx hy) k

theorem block_still_life_witness :
    ∃ s, mainLoop (cellsGrid (blockCells 4 5 3 1) 4 5) 4 5 7 = some s ∧
      s.mainGrid = cellsGrid (blockCells 4 5 3 1) 4 5 :=
  block_still_life 4 5 3 1 (by decide) (by decide) (by decide) (by decide) (by decide) 9 7
    (by decide)

theorem blinkerH_eq (w h x y : Nat) (hx : x < w) (hy : y < h) :
    blinkerH w x y =
      shiftCells w h ((x : Int) - 2) ((y : Int) - 2) [(1, 2), (2, 2), (3, 2)] := by
  have a1 : torus 1 ((x : Int) - 2) w = (x + w - 1) % w :=
    torus_eq_mod 1 _ w (x + w - 1) 1 (by omega)
  have a2 : torus 2 ((x : Int) - 2) w = x := by
    rw [torus_eq_mod 2 _ w x 0 (by push_cast; ring), Nat.mod_eq_of_lt hx]
  have a3 : torus 3 ((x : Int) - 2) w = (x + 1) % w :=
    torus_eq_mod 3 _ w (x + 1) 0 (by push_cast; ring)
  have b2 : torus 2 ((y : Int) - 2) h = y := by
    rw [torus_eq_mod 2 _ h y 0 (by push_cast; ring), Nat.mod_eq_of_lt hy]
  unfold blinkerH shiftCells
  simp only [List.map_cons, List.map_nil, a1, a2, a3, b2]

theorem blinkerV_eq (w h x y : Nat) (hx : x < w) (hy : y < h) :
    blinkerV h x y =
      shiftCells w h ((x : Int) - 2) ((y : Int) - 2) [(2, 1), (2, 2), (2, 3)] := by
  have a1 : torus 1 ((y : Int) - 2) h = (y + h - 1) % h :=
    torus_eq_mod 1 _ h (y + h - 1) 1 (by omega)
  have a2 : torus 2 ((y : Int) - 2) h = y := by
    rw [torus_eq_mod 2 _ h y 0 (by push_cast; ring), Nat.mod_eq_of_lt hy]
  have a3 : torus 3 ((y : Int) - 2) h = (y + 1) % h :=
    torus_eq_mod 3 _ h (y + 1) 0 (by push_cast; ring)
  have b2 : torus 2 ((x : Int) - 2) w = x := by
    rw [torus_eq_mod 2 _ w x 0 (by push_cast; ring), Nat.mod_eq_of_lt hx]
  unfold blinkerV shiftCells
  simp only [List.map_cons, List.map_nil, a1, a2, a3, b2]

theorem blinker_step_HV (w h x y : Nat) (hw : 5 ≤ w) (hh : 5 ≤ h) (hx : x < w) (hy : y < h) :
    bruteStep (cellsGrid (blinkerH w x y) w h) w h = cellsGrid (blinkerV h x y) w h := by
  rw [blinkerH_eq w h x y hx hy, blinkerV_eq w h x y hx hy]
  refine pattern_step [(1, 2), (2, 2), (3, 2)] [(2, 1), (2, 2), (2, 3)] 5 w h
    _ _ ?_ (by decide) (by decide) (by decide) ?_
  · intro c hc
    simp only [List.mem_cons, List.mem_singleton, List.not_mem_nil, or_false] at hc
    rcases hc with e | e | e <;> subst e <;> simp only <;> omega
  · intro c hc
    simp only [List.mem_cons, List.mem_singleton, List.not_mem_nil, or_false] at hc
    rcases hc with e | e | e <;> subst e <;> simp only <;> omega

theorem blinker_step_VH (w h x y : Nat) (hw : 5 ≤ w) (hh : 5 ≤ h) (hx : x < w) (hy : y < h) :
    bruteStep (cellsGrid (blinkerV h x y) w h) w h = cellsGrid (blinkerH w x y) w h := by
  rw [blinkerH_eq w h x y hx hy, blinkerV_eq w h x y hx hy]
  refine pattern_step [(2, 1), (2, 2), (2, 3)] [(1, 2), (2, 2), (3, 2)] 5 w h
    _ _ ?_ (by decide) (by decide) (by decide) ?_
  · intro c hc
    simp only [List.mem_cons, List.mem_singleton, List.not_mem_nil, or_false] at hc
    rcases hc with e | e | e <;> subst e <;> simp only <;> omega
  · intro c hc
    simp only [List.mem_cons, List.mem_singleton, List.not_mem_nil, or_false] at hc
    rcases hc with e | e | e <;> subst e <;> simp only <;> omega

theorem succ_mod_cases (x w : Nat) (hx : x < w) :
    ((x + 1) % w = x + 1 ∧ x + 1 < w) ∨ ((x + 1) % w = 0 ∧ x + 1 = w) := by
  by_cases h : x + 1 < w
  · exact Or.inl ⟨Nat.mod_eq_of_lt h, h⟩
  · have : x + 1 = w := by omega
    exact Or.inr ⟨by rw [this, Nat.mod_self], this⟩

theorem blinker_V_ne_H (w h x y : Nat) (hw : 5 ≤ w) (hx : x < w) (hy : y < h) :
    cellsGrid (blinkerV h x y) w h ≠ cellsGrid (blinkerH w x y) w h := by
  intro heq
  have hm := succ_mod_cases x w hx
  have hxm : (x + 1) % w < w := Nat.mod_lt _ (by omega)
  have hj := mul_add_lt w h y ((x + 1) % w) hy hxm
  have e1 := cellsGrid_getElem? (blinkerV h x y) w h _ hj
  have e2 := cellsGrid_getElem? (blinkerH w x y) w h _ hj
  rw [heq, e2, div_mul_add w y _ hxm, mod_mul_add w y _ hxm] at e1
  have t : (blinkerH w x y).contains ((x + 1) % w, y) = true := by
    rw [contains_iff_mem]
    simp [blinkerH]
  rw [t] at e1
  have f := (Option.some.inj e1).symm
  rw [contains_iff_mem] at f
  simp only [blinkerV, List.mem_cons, List.mem_singleton, List.not_mem_nil, or_false,
    Prod.mk.injEq] at f
  omega

/-- C15 (blinker). For every width and height at least 5 and every centre `(x, y)`,
starting from the grid whose only live cells are the horizontal triple `(x-1, y)`,
`(x, y)`, `(x+1, y)` (coordinates on the torus), one iteration of the loop of `main`
gives exactly the vertical triple `(x, y-1)`, `(x, y)`, `(x, y+1)`, two iterations give
the original grid, and the one-step grid differs from the original. -/
theorem blinker_period_two (width height x y : Nat) (hw : 5 ≤ width) (hh : 5 ≤ height)
    (hx : x < width) (hy : y < height) (hn : width * height < 9223372036854775808) :
    ∃ s1 s2,
      mainLoop (cellsGrid (blinkerH width x y) width height) width height 1 = some s1 ∧
      s1.mainGrid = cellsGrid (blinkerV height x y) width height ∧
      mainLoop (cellsGrid (blinkerH width x y) width height) width height 2 = some s2 ∧
      s2.mainGrid = cellsGrid (blinkerH width x y) width height ∧
      s1.mainGrid ≠ cellsGrid (blinkerH width x y) width height := by
  obtain ⟨s1, e1, p1, _⟩ := mainLoop_inv (cellsGrid (blinkerH width x y) width height)
    width height (cellsGrid_length _ _ _) hn 1
  obtain ⟨s2, e2, p2, _⟩ := mainLoop_inv (cellsGrid (blinkerH width x y) width height)
    width height (cellsGrid_length _ _ _) hn 2
  have q1 : bruteRun (cellsGrid (blinkerH width x y) width height) width height 1 =
      cellsGrid (blinkerV height x y) width height :=
    blinker_step_HV width height x y hw hh hx hy
  have q2 : bruteRun (cellsGrid (blinkerH width x y) width height) width height 2 =
      cellsGrid (blinkerH width x y) width height := by
    show bruteStep (bruteRun _ width height 1) width height = _
    rw [q1]
    exact blinker_step_VH width height x y hw hh hx hy
  refine ⟨s1, s2, e1, by rw [p1, q1], e2, by rw [p2, q2], ?_⟩
  rw [p1, q1]
  exact blinker_V_ne_H width height x y hw hx hy

theorem blinker_period_two_witness :
    ∃ s1 s2,
      mainLoop (cellsGrid (blinkerH 5 2 2) 5 5) 5 5 1 = some s1 ∧
      s1.mainGrid = cellsGrid (blinkerV 5 2 2) 5 5 ∧
      mainLoop (cellsGrid (blinkerH 5 2 2) 5 5) 5 5 2 = some s2 ∧
      s2.mainGrid = cellsGrid (blinkerH 5 2 2) 5 5 ∧
      s1.mainGrid ≠ cellsGrid (blinkerH 5 2 2) 5 5 :=
  blinker_period_two 5 5 2 2 (by decide) (by decide) (by decide) (by decide) (by decide)

/-! ## Glider -/

theorem torus_pred (c w : Nat) (h : c + 1 < w) : torus (c + 1) (-1) w = c := by
  rw [torus_eq_mod (c + 1) (-1) w c 0 (by push_cast; ring), Nat.mod_eq_of_lt (by omega)]

theorem torus_congr (c1 c2 : Nat) (d1 d2 : Int) (w : Nat)
    (h : (c1 : Int) + d1 = (c2 : Int) + d2) : torus c1 d1 w = torus c2 d2 w := by
  unfold torus; rw [h]

theorem glider_step0 (w h : Nat) (hw : 5 ≤ w) (hh : 5 ≤ h) :
    bruteStep (cellsGrid glider w h) w h = cellsGrid glider1 w h := by
  have x1 : torus 1 (-1) w = 0 := torus_pred 0 w (by omega)
  have x2 : torus 2 (-1) w = 1 := torus_pred 1 w (by omega)
  have x3 : torus 3 (-1) w = 2 := torus_pred 2 w (by omega)
  have y1 : torus 1 (-1) h = 0 := torus_pred 0 h (by omega)
  have y2 : torus 2 (-1) h = 1 := torus_pred 1 h (by omega)
  have y3 : torus 3 (-1) h = 2 := torus_pred 2 h (by omega)
  have y4 : torus 4 (-1) h = 3 := torus_pred 3 h (by omega)
  have e1 : shiftCells w h (-1) (-1) [(2, 1), (3, 2), (1, 3), (2, 3), (3, 3)] = glider := by
    simp only [shiftCells, List.map_cons, List.map_nil, x1, x2, x3, y1, y2, y3, glider]
  have e2 : shiftCells w h (-1) (-1) [(1, 2), (3, 2), (2, 3), (3, 3), (2, 4)] = glider1 := by
    simp only [shiftCells, List.map_cons, List.map_nil, x1, x2, x3, y2, y3, y4, glider1]
  rw [← e1, ← e2]
  refine pattern_step _ _ 5 w h _ _ ?_ (by decide) (by decide) (by decide) ?_
  · intro c hc
    simp only [List.mem_cons, List.mem_singleton, List.not_mem_nil, or_false] at hc
    rcases hc with e | e | e | e | e <;> subst e <;> simp only <;> omega
  · intro c hc
    simp only [List.mem_cons, List.mem_singleton, List.not_mem_nil, or_false] at hc
    rcases hc with e | e | e | e | e <;> subst e <;> simp only <;> omega

theorem glider_step1 (w h : Nat) (hw : 5 ≤ w) (hh : 5 ≤ h) :
    bruteStep (cellsGrid glider1 w h) w h = cellsGrid glider2 w h := by
  have x1 : torus 1 (-1) w = 0 := torus_pred 0 w (by omega)
  have x2 : torus 2 (-1) w = 1 := torus_pred 1 w (by omega)
  have x3 : torus 3 (-1) w = 2 := torus_pred 2 w (by omega)
  have y1 : torus 1 0 h = 1 := torus_zero 1 h (by omega)
  have y2 : torus 2 0 h = 2 := torus_zero 2 h (by omega)
  have y3 : torus 3 0 h = 3 := torus_zero 3 h (by omega)
  have e1 : shiftCells w h (-1) 0 [(1, 1), (3, 1), (2, 2), (3, 2), (2, 3)] = glider1 := by
    simp only [shiftCells, List.map_cons, List.map_nil, x1, x2, x3, y1, y2, y3, glider1]
  have e2 : shiftCells w h (-1) 0 [(3, 1), (1, 2), (3, 2), (2, 3), (3, 3)] = glider2 := by
    simp only [shiftCells, List.map_cons, List.map_nil, x1, x2, x3, y1, y2, y3, glider2]
  rw [← e1, ← e2]
  refine pattern_step _ _ 5 w h _ _ ?_ (by decide) (by decide) (by decide) ?_
  · intro c hc
    simp only [List.mem_cons, List.mem_singleton, List.not_mem_nil, or_false] at hc
    rcases hc with e | e | e | e | e <;> subst e <;> simp only <;> omega
  · intro c hc
    simp only [List.mem_cons, List.mem_singleton, List.not_mem_nil, or_false] at hc
    rcases hc with e | e | e | e | e <;> subst e <;> simp only <;> omega

theorem glider_step2 (w h : Nat) (hw : 5 ≤ w) (hh : 5 ≤ h) :
    bruteStep (cellsGrid glider2 w h) w h = cellsGrid glider3 w h := by
  have x1 : torus 1 (-1) w = 0 := torus_pred 0 w (by omega)
  have x2 : torus 2 (-1) w = 1 := torus_pred 1 w (by omega)
  have x3 : torus 3 (-1) w = 2 := torus_pred 2 w (by omega)
  have x4 : torus 4 (-1) w = 3 := torus_pred 3 w (by omega)
  have y1 : torus 1 0 h = 1 := torus_zero 1 h (by omega)
  have y2 : torus 2 0 h = 2 := torus_zero 2 h (by omega)
  have y3 : torus 3 0 h = 3 := torus_zero 3 h (by omega)
  have e1 : shiftCells w h (-1) 0 [(3, 1), (1, 2), (3, 2), (2, 3), (3, 3)] = glider2 := by
    simp only [shiftCells, List.map_cons, List.map_nil, x1, x2, x3, y1, y2, y3, glider2]
  have e2 : shiftCells w h (-1) 0 [(2, 1), (3, 2), (4, 2), (2, 3), (3, 3)] = glider3 := by
    simp only [shiftCells, List.map_cons, List.map_nil, x2, x3, x4, y1, y2, y3, glider3]
  rw [← e1, ← e2]
  refine pattern_step _ _ 5 w h _ _ ?_ (by decide) (by decide) (by decide) ?_
  · intro c hc
    simp only [List.mem_cons, List.mem_singleton, List.not_mem_nil, or_false] at hc
    rcases hc with e | e | e | e | e <;> subst e <;> simp only <;> omega
  · intro c hc
    simp only [List.mem_cons, List.mem_singleton, List.not_mem_nil, or_false] at hc
    rcases hc with e | e | e | e | e <;> subst e <;> simp only <;> omega

theorem glider_step3 (w h : Nat) (hw : 5 ≤ w) (hh : 5 ≤ h) :
    bruteStep (cellsGrid glider3 w h) w h =
      cellsGrid (glider.map (fun c => (c.1 + 1, c.2 + 1))) w h := by
  have e : glider.map (fun c => (c.1 + 1, c.2 + 1)) =
      [(2, 1), (3, 2), (1, 3), (2, 3), (3, 3)] := by decide
  rw [e]
  refine pattern_step_plain glider3 _ 5 w h ?_ (by decide) (by decide) (by decide)
  intro c hc
  simp only [glider3, List.mem_cons, List.mem_singleton, List.not_mem_nil, or_false] at hc
  rcases hc with e | e | e | e | e <;> subst e <;> simp only <;> omega

theorem cellsGrid_getD_xy (cells : List (Nat × Nat)) (w h x y : Nat) (hx : x < w) (hy : y < h) :
    (cellsGrid cells w h).getD (y * w + x) false = cells.contains (x, y) := by
  rw [cellsGrid_getD cells w h _ (mul_add_lt w h y x hy hx), div_mul_add w y x hx,
    mod_mul_add w y x hx]

theorem glider_shift_hasRow3 (w h : Nat) (a b : Int) (hw : 5 ≤ w) (hh : 5 ≤ h) :
    hasRow3 (shiftGrid false w h a b (cellsGrid glider w h)) w h := by
  have hlt : ∀ c ∈ glider, c.1 < w ∧ c.2 < h := by
    intro c hc
    simp only [glider, List.mem_cons, List.mem_singleton, List.not_mem_nil, or_false] at hc
    rcases hc with e | e | e | e | e <;> subst e <;> simp only <;> omega
  rw [← cellsGrid_shiftCells glider w h a b hlt]
  have hw0 : 0 < w := by omega
  have hh0 : 0 < h := by omega
  refine ⟨torus 0 a w, torus 2 b h, torus_lt _ _ _ hw0, torus_lt _ _ _ hh0, ?_, ?_, ?_⟩
  · rw [cellsGrid_getD_xy _ w h _ _ (torus_lt _ _ _ hw0) (torus_lt _ _ _ hh0), contains_iff_mem]
    simp [shiftCells, glider]
  · rw [cellsGrid_getD_xy _ w h _ _ (torus_lt _ _ _ hw0) (torus_lt _ _ _ hh0), contains_iff_mem,
      torus_torus _ _ _ _ hw0, torus_congr 0 1 (a + 1) a w (by push_cast; ring)]
    simp [shiftCells, glider]
  · rw [cellsGrid_getD_xy _ w h _ _ (torus_lt _ _ _ hw0) (torus_lt _ _ _ hh0), contains_iff_mem,
      torus_torus _ _ _ _ hw0, torus_torus _ _ _ _ hw0,
      torus_congr 0 2 (a + (1 + 1)) a w (by push_cast; ring)]
    simp [shiftCells, glider]

theorem no_row3 (cells : List (Nat × Nat)) (w h : Nat) (hw : 5 ≤ w)
    (hrow : ∀ x0 x1 x2 y : Nat, (x0, y) ∈ cells → (x1, y) ∈ cells → (x2, y) ∈ cells →
      x0 = x1 ∨ x1 = x2 ∨ x0 = x2) :
    ¬ hasRow3 (cellsGrid cells w h) w h := by
  rintro ⟨x, y, hx, hy, h0, h1, h2⟩
  have hw0 : 0 < w := by omega
  have l1 : torus x 1 w < w := torus_lt _ _ _ hw0
  have l2 : torus (torus x 1 w) 1 w < w := torus_lt _ _ _ hw0
  rw [cellsGrid_getD_xy cells w h _ _ hx hy, contains_iff_mem] at h0
  rw [cellsGrid_getD_xy cells w h _ _ l1 hy, contains_iff_mem] at h1
  rw [cellsGrid_getD_xy cells w h _ _ l2 hy, contains_iff_mem] at h2
  have s1 := torus_step x 1 w hx (by omega) (by omega)
  have s2 := torus_step (torus x 1 w) 1 w l1 (by omega) (by omega)
  have := hrow _ _ _ _ h0 h1 h2
  omega

theorem glider1_no_row3 (w h : Nat) (hw : 5 ≤ w) : ¬ hasRow3 (cellsGrid glider1 w h) w h := by
  refine no_row3 glider1 w h hw ?_
  intro x0 x1 x2 y m0 m1 m2
  simp only [glider1, List.mem_cons, List.mem_singleton, List.not_mem_nil, or_false,
    Prod.mk.injEq] at m0 m1 m2
  omega

theorem glider2_no_row3 (w h : Nat) (hw : 5 ≤ w) : ¬ hasRow3 (cellsGrid glider2 w h) w h := by
  refine no_row3 glider2 w h hw ?_
  intro x0 x1 x2 y m0 m1 m2
  simp only [glider2, List.mem_cons, List.mem_singleton, List.not_mem_nil, or_false,
    Prod.mk.injEq] at m0 m1 m2
  omega

theorem glider3_no_row3 (w h : Nat) (hw : 5 ≤ w) : ¬ hasRow3 (cellsGrid glider3 w h) w h := by
  refine no_row3 glider3 w h hw ?_
  intro x0 x1 x2 y m0 m1 m2
  simp only [glider3, List.mem_cons, List.mem_singleton, List.not_mem_nil, or_false,
    Prod.mk.injEq] at m0 m1 m2
  omega

theorem glider_run (w h : Nat) (hw : 5 ≤ w) (hh : 5 ≤ h) :
    bruteRun (cellsGrid glider w h) w h 1 = cellsGrid glider1 w h ∧
    bruteRun (cellsGrid glider w h) w h 2 = cellsGrid glider2 w h ∧
    bruteRun (cellsGrid glider w h) w h 3 = cellsGrid glider3 w h ∧
    bruteRun (cellsGrid glider w h) w h 4 =
      cellsGrid (glider.map (fun c => (c.1 + 1, c.2 + 1))) w h := by
  have r1 : bruteRun (cellsGrid glider w h) w h 1 = cellsGrid glider1 w h :=
    glider_step0 w h hw hh
  have r2 : bruteRun (cellsGrid glider w h) w h 2 = cellsGrid glider2 w h := by
    show bruteStep (bruteRun _ w h 1) w h = _
    rw [r1]; exact glider_step1 w h hw hh
  have r3 : bruteRun (cellsGrid glider w h) w h 3 = cellsGrid glider3 w h := by
    show bruteStep (bruteRun _ w h 2) w h = _
    rw [r2]; exact glider_step2 w h hw hh
  refine ⟨r1, r2, r3, ?_⟩
  show bruteStep (bruteRun _ w h 3) w h = _
  rw [r3]; exact glider_step3 w h hw hh

/-- C16 (glider). For every width and height at least 5, starting from the grid whose
only live cells are the standard glider `(1,0), (2,1), (0,2), (1,2), (2,2)`, four
iterations of the loop of `main` give the grid whose only live cells are those five
cells moved by `(+1, +1)`; and after 1, 2 or 3 iterations the grid is not a toroidal
translate, by any `(a, b)`, of the initial grid. -/
theorem glider_translation (width height : Nat) (hw : 5 ≤ width) (hh : 5 ≤ height)
    (hn : width * height < 9223372036854775808) :
    (∃ s, mainLoop (cellsGrid glider width height) width height 4 = some s ∧
      s.mainGrid = cellsGrid (glider.map (fun c => (c.1 + 1, c.2 + 1))) width height) ∧
    (∀ k : Nat, 1 ≤ k → k < 4 → ∀ a b : Int,
      ∃ s, mainLoop (cellsGrid glider width height) width height k = some s ∧
        s.mainGrid ≠ shiftGrid false width height a b (cellsGrid glider width height)) := by
  obtain ⟨r1, r2, r3, r4⟩ := glider_run width height hw hh
  constructor
  · obtain ⟨s, e, p, _⟩ := mainLoop_inv (cellsGrid glider width height) width height
      (cellsGrid_length _ _ _) hn 4
    exact ⟨s, e, by rw [p, r4]⟩
  · intro k hk1 hk4 a b
    obtain ⟨s, e, p, _⟩ := mainLoop_inv (cellsGrid glider width height) width height
      (cellsGrid_length _ _ _) hn k
    refine ⟨s, e, ?_⟩
    rw [p]
    intro heq
    have hrow := glider_shift_hasRow3 width height a b hw hh
    rw [← heq] at hrow
    have hk : k = 1 ∨ k = 2 ∨ k = 3 := by omega
    rcases hk with hk | hk | hk
    · rw [hk, r1] at hrow
      exact glider1_no_row3 width height hw hrow
    · rw [hk, r2] at hrow
      exact glider2_no_row3 width height hw hrow
    · rw [hk, r3] at hrow
      exact glider3_no_row3 width height hw hrow

theorem glider_translation_witness :
    (∃ s, mainLoop (cellsGrid glider 8 8) 8 8 4 = some s ∧
      s.mainGrid = cellsGrid (glider.map (fun c => (c.1 + 1, c.2 + 1))) 8 8) ∧
    (∀ k : Nat, 1 ≤ k → k < 4 → ∀ a b : Int,
      ∃ s, mainLoop (cellsGrid glider 8 8) 8 8 k = some s ∧
        s.mainGrid ≠ shiftGrid false 8 8 a b (cellsGrid glider 8 8)) :=
  glider_translation 8 8 (by decide) (by decide) (by decide)

end GameOfLife
